import Mathlib

/-!
# Balance, cart, checkout, payment settlement and expiry reaper of the e-commerce API

A shallow embedding of the Go services and SQL repositories of
`aldotp/ecommerce-api`, followed by theorems about them.

Conventions of the embedding:

* A Go `error` result is an `Option Err` (`none` is `nil`); a Go `(value, error)` result is
  an `Except Err value`; a run-time panic (nil pointer dereference) is `GoResult.panic`.
* The database, the Redis locks and the message queue are fields of `World`, threaded
  explicitly through every call.  A SQL `SELECT ... LIMIT 1`/`QueryRow` is the first matching
  row of the table, an `UPDATE ... WHERE` rewrites every matching row.
* Every call to the database driver, to Redis or to the broker may fail with an
  infrastructure error.  The outcomes are scripted by `World.faults`: each such call consumes
  the head of the script (`true` means the call fails); an empty script means no failure.
  Theorems about what a call does when nothing fails assume the empty script; theorems about
  every outcome of a call quantify over all scripts.
* Query builders (`ToSql`) are pure and cannot fail on the fixed queries of the repositories.
* A database transaction works on a private copy of the table, which replaces the table at
  `Commit`; every path that returns before `Commit` leaves the table as it was (the deferred
  `Rollback`).
* A Go `float64` is a `Float64`: a finite binary fraction, an infinity or NaN.  Sums,
  differences and products are the exact results rounded to nearest, ties to even, as
  IEEE 754 prescribes; comparisons with NaN are false.  A `float64` column stores the value
  it is given.
* Go `int` is `Int`, `uint64` is `Nat`, and the conversion `uint64(x)` reduces modulo `2^64`;
  the sum of two cart quantities wraps around as Go's `int` does (`wrapInt64`).  The stock
  of a product minus or plus the quantity of a line is taken in `Int` as it stands.
* The expiry of a Redis lock after its TTL is not modelled: a lock is held until released.
* Concurrent calls are interleaved at the granularity of their calls to the outside: one step
  is one Redis call or one database transaction.
* The goroutines started by the expiry reaper are detached: a tick returns once it has
  started them, and each of them runs at any later step of a history, its body as one step.
* Constraints of the database schema (foreign keys, checks), which is not among the sources,
  are not modelled: an `INSERT` or `UPDATE` succeeds unless the fault script fails it.
-/

set_option linter.dupNamespace false

namespace Ecommerce

/-! ## Errors and results -/

/-- Go error values returned by the services: the sentinels of `pkg/consts`, messages built
with `errors.New`, the `pgx.ErrNoRows` sentinel, and `infra` for any other error reported by
the database driver, the Redis client or the broker. -/
inductive Err where
  | ErrInsufficientBalance
  | ErrCannotSendBalanceSameAccount
  | ErrDataNotFound
  | ErrEmptyCart
  | ErrInsufficientStock
  | errorsNew (msg : String)
  | ErrNoRows
  | infra
  deriving DecidableEq, Repr

/-- Outcome of a Go call that may panic instead of returning. -/
inductive GoResult (α : Type) where
  | returned (v : α)
  | panic
  deriving DecidableEq, Repr

/-! ## Go `float64` and `int` arithmetic -/

/-- A Go `float64` (IEEE 754 binary64): a finite value `m * 2^e`, an infinity or NaN.  A finite
value is kept in lowest terms (`m` odd, or `m = 0` and `e = 0`), so equal values are equal
terms; the sign of zero, which no comparison or sum of this program observes, is not kept. -/
inductive Float64 where
  | finite (m : Int) (e : Int)
  | inf (negative : Bool)
  | nan
  deriving DecidableEq, Repr

/-- Auxiliary to `log2`, by recursion on a bound of the number of bits. -/
def log2Fuel : Nat → Nat → Nat
  | 0, _ => 0
  | fuel + 1, n => if n < 2 then 0 else log2Fuel fuel (n / 2) + 1

/-- The position of the highest set bit of a positive number: the integer part of its binary
logarithm. -/
def log2 (n : Nat) : Nat :=
  log2Fuel n n

/-- The number of trailing zero bits of a positive number. -/
def trailingZeros (n : Nat) : Nat :=
  log2 (n ^^^ (n - 1))

/-- The finite value `± n * 2^e` in lowest terms. -/
def Float64.lowest (negative : Bool) (n : Nat) (e : Int) : Float64 :=
  if n = 0 then Float64.finite 0 0
  else
    Float64.finite
      (if negative then -((n >>> trailingZeros n : Nat) : Int)
       else ((n >>> trailingZeros n : Nat) : Int))
      (e + (trailingZeros n : Nat))

/-- The value `± n * 2^q` of at most 53 bits, or the infinity when it is `2^1024` or more. -/
def Float64.overflow (negative : Bool) (n : Nat) (q : Int) : Float64 :=
  if n ≠ 0 ∧ (1024 : Int) ≤ (log2 n : Int) + q then Float64.inf negative
  else Float64.lowest negative n q

/-- Rounding of the exact value `± n * 2^e` to `float64`, to nearest with ties to even: 53
significant bits, the unit in the last place not below `2^-1074` (subnormal numbers), and
infinity from `2^1024` on. -/
def Float64.round (negative : Bool) (n : Nat) (e : Int) : Float64 :=
  if n = 0 then Float64.finite 0 0
  else
    -- `q` is the exponent of the unit in the last place of the result
    let q : Int := max ((log2 n : Int) + e - 52) (-1074)
    if q ≤ e then Float64.overflow negative (n <<< (e - q).toNat) q
    else
      let k : Nat := (q - e).toNat
      let quotient := n >>> k
      let remainder := n % 2 ^ k
      let half := 2 ^ (k - 1)
      if half < remainder ∨ (remainder = half ∧ quotient % 2 = 1) then
        Float64.overflow negative (quotient + 1) q
      else Float64.overflow negative quotient q

/-- Rounding of the exact value `m * 2^e`. -/
def Float64.ofExact (m : Int) (e : Int) : Float64 :=
  Float64.round (decide (m < 0)) m.natAbs e

/-- The exact sum `m1 * 2^e1 + m2 * 2^e2` as a numerator over `2^-(min e1 e2)`. -/
def exactSum (m1 e1 m2 e2 : Int) : Int :=
  m1 * 2 ^ (e1 - min e1 e2).toNat + m2 * 2 ^ (e2 - min e1 e2).toNat

/-- Go `x + y` on `float64`. -/
def Float64.add : Float64 → Float64 → Float64
  | Float64.nan, _ => Float64.nan
  | _, Float64.nan => Float64.nan
  | Float64.inf s, Float64.inf t => if s = t then Float64.inf s else Float64.nan
  | Float64.inf s, Float64.finite _ _ => Float64.inf s
  | Float64.finite _ _, Float64.inf t => Float64.inf t
  | Float64.finite m1 e1, Float64.finite m2 e2 =>
    Float64.ofExact (exactSum m1 e1 m2 e2) (min e1 e2)

/-- Go `-x` on `float64`. -/
def Float64.neg : Float64 → Float64
  | Float64.nan => Float64.nan
  | Float64.inf s => Float64.inf (!s)
  | Float64.finite m e => Float64.finite (-m) e

/-- Go `x - y` on `float64`. -/
def Float64.sub (x y : Float64) : Float64 :=
  Float64.add x (Float64.neg y)

/-- Go `x * y` on `float64`. -/
def Float64.mul : Float64 → Float64 → Float64
  | Float64.nan, _ => Float64.nan
  | _, Float64.nan => Float64.nan
  | Float64.inf s, Float64.inf t => Float64.inf (s != t)
  | Float64.inf s, Float64.finite m _ =>
    if m = 0 then Float64.nan else Float64.inf (s != decide (m < 0))
  | Float64.finite m _, Float64.inf t =>
    if m = 0 then Float64.nan else Float64.inf (decide (m < 0) != t)
  | Float64.finite m1 e1, Float64.finite m2 e2 => Float64.ofExact (m1 * m2) (e1 + e2)

/-- Go `x < y` on `float64`; false when either side is NaN. -/
def Float64.lt : Float64 → Float64 → Bool
  | Float64.nan, _ => false
  | _, Float64.nan => false
  | Float64.inf s, Float64.inf t => s && !t
  | Float64.inf s, Float64.finite _ _ => s
  | Float64.finite _ _, Float64.inf t => !t
  | Float64.finite m1 e1, Float64.finite m2 e2 =>
    decide (m1 * 2 ^ (e1 - min e1 e2).toNat < m2 * 2 ^ (e2 - min e1 e2).toNat)

/-- Go `x <= y` on `float64`; false when either side is NaN. -/
def Float64.le : Float64 → Float64 → Bool
  | Float64.nan, _ => false
  | _, Float64.nan => false
  | Float64.inf s, Float64.inf t => s || !t
  | Float64.inf s, Float64.finite _ _ => s
  | Float64.finite _ _, Float64.inf t => !t
  | Float64.finite m1 e1, Float64.finite m2 e2 =>
    decide (m1 * 2 ^ (e1 - min e1 e2).toNat ≤ m2 * 2 ^ (e2 - min e1 e2).toNat)

instance : LT Float64 := ⟨fun x y => Float64.lt x y = true⟩

instance : LE Float64 := ⟨fun x y => Float64.le x y = true⟩

instance (x y : Float64) : Decidable (x < y) :=
  inferInstanceAs (Decidable (Float64.lt x y = true))

instance (x y : Float64) : Decidable (x ≤ y) :=
  inferInstanceAs (Decidable (Float64.le x y = true))

/-- The Go conversion `float64(n)` of an `int`. -/
def Float64.ofInt (n : Int) : Float64 :=
  Float64.ofExact n 0

instance (n : Nat) : OfNat Float64 n := ⟨Float64.ofInt n⟩

instance : Add Float64 := ⟨Float64.add⟩

instance : Sub Float64 := ⟨Float64.sub⟩

instance : Mul Float64 := ⟨Float64.mul⟩

/-- The `float64` nearest to the decimal `± digits * 10^exponent`, as the decoding of a JSON
number or of a database value gives it. -/
def Float64.ofDecimal (negative : Bool) (digits : Nat) (exponent : Int) : Float64 :=
  if 0 ≤ exponent then Float64.round negative (digits * 10 ^ exponent.toNat) 0
  else
    -- the quotient by `10^-exponent` to at least 64 bits, with a sticky last bit
    let den := 10 ^ (-exponent).toNat
    let shift := log2 den + 64
    let quotient := (digits <<< shift) / den
    let sticky := if (digits <<< shift) % den = 0 then 0 else 1
    Float64.round negative (2 * quotient + sticky) (-(shift : Int) - 1)

/-- The exact value of a finite `float64` as a rational number (0 for an infinity or NaN). -/
def Float64.toRat : Float64 → ℚ
  | Float64.finite m e => (m : ℚ) * (2 : ℚ) ^ e
  | _ => 0

/-- The Go conversion `int(x)` of a `float64`: truncation toward zero.  When the truncated
value is not an `int64` (or `x` is an infinity or NaN) Go leaves the result to the
implementation; it is taken as on amd64, where it is `-2^63`. -/
def Float64.toInt : Float64 → Int
  | Float64.finite m e =>
    if -(2 : Int) ^ 63 ≤ Int.tdiv (m * 2 ^ e.toNat) (2 ^ (-e).toNat) ∧
        Int.tdiv (m * 2 ^ e.toNat) (2 ^ (-e).toNat) < 2 ^ 63 then
      Int.tdiv (m * 2 ^ e.toNat) (2 ^ (-e).toNat)
    else -(2 : Int) ^ 63
  | _ => -(2 : Int) ^ 63

/-- The Go `int` congruent to `x` modulo `2^64`: sums of `int` wrap around on overflow. -/
def wrapInt64 (x : Int) : Int :=
  (x + 2 ^ 63) % 2 ^ 64 - 2 ^ 63


/-! ## Data model -/

/-- Row of table `balances` (`domain.Balance`). -/
structure Balance where
  ID : Nat
  UserID : Nat
  Balance : Float64
  CreatedAt : Nat
  UpdatedAt : Nat
  deriving DecidableEq

/-- Row of table `carts` (fields as scanned by `CartRepository.FindByUserID`). -/
structure Cart where
  ID : Int
  UserID : Int
  CreatedAt : Nat
  UpdatedAt : Nat
  deriving DecidableEq

/-- Row of table `cart_items` (`domain.CartItem`). -/
structure CartItem where
  ID : Int
  CartID : Int
  ProductID : Int
  Quantity : Int
  CreatedAt : Nat
  UpdatedAt : Nat
  deriving DecidableEq

/-- Row of table `products` (fields as scanned by `ProductRepository.FindOne`). -/
structure Product where
  ID : Int
  Name : String
  Description : String
  Price : Float64
  Stock : Int
  CategoryID : Int
  CreatedAt : Nat
  UpdatedAt : Nat
  deriving DecidableEq

/-- Row of table `orders` (`domain.Order`). -/
structure Order where
  ID : Int
  UserID : Int
  TotalPrice : Float64
  Status : String
  CreatedAt : Nat
  deriving DecidableEq

/-- Row of table `order_items` (fields as scanned by `OrderItemRepository.FindOne`). -/
structure OrderItem where
  ID : Int
  OrderID : Int
  ProductID : Int
  Quantity : Int
  Price : Float64
  deriving DecidableEq

/-- Row of table `payments` (`domain.Payment`). -/
structure Payment where
  ID : Int
  OrderID : Int
  PaymentMethod : String
  PaymentStatus : String
  CreatedAt : Nat
  UpdatedAt : Nat
  ExpiredAt : Nat
  deriving DecidableEq

/-- Message body `dto.UpdateOrderStatus`. -/
structure UpdateOrderStatus where
  OrderID : Int
  Status : String
  deriving DecidableEq

/-- Queue names of `pkg/consts`; only `QueueUpdateStock` is used by the services. -/
inductive QueueName where
  | QueueUpdateStock
  deriving DecidableEq

/-- A `rabbitmq.RabbitMqPublishRequest` as far as the services fill it. -/
structure RabbitMqPublishRequest where
  QueueName : QueueName
  Messages : UpdateOrderStatus
  deriving DecidableEq

/-- A call received by the Redis lock service, with its outcome: the key, and whether the
lock was acquired (for `AcquireLock`) or the key was deleted (for `ReleaseLock`). -/
inductive RedisCall where
  | AcquireLock (key : String) (acquired : Bool)
  | ReleaseLock (key : String) (released : Bool)
  deriving DecidableEq

/-- Everything outside the Go process: clock, fault script, Redis lock keys, the tables with
their id sequences (an `INSERT ... RETURNING id` takes the next value of the sequence), the
messages published so far, and the lock calls received by Redis so far, oldest first. -/
structure World where
  now : Nat
  faults : List Bool
  locks : List String
  balances : List Balance
  balanceSeq : Nat
  carts : List Cart
  cartItems : List CartItem
  products : List Product
  orders : List Order
  orderSeq : Int
  orderItems : List OrderItem
  orderItemSeq : Int
  payments : List Payment
  paymentSeq : Int
  queue : List RabbitMqPublishRequest
  redisLog : List RedisCall
  cartSeq : Int
  cartItemSeq : Int

/-- Does the next call to the outside fail? -/
def World.fails (w : World) : Bool :=
  match w.faults with
  | [] => false
  | f :: _ => f

/-- The world after one call to the outside has consumed its scripted outcome. -/
def World.next (w : World) : World :=
  { w with faults := w.faults.tail }

/-! ## Redis locks (`storage/redis/redis.go`) -/

/-- Method `Redis.AcquireLock`: `SETNX key`; returns `(acquired, err)`. -/
def Redis.AcquireLock (key : String) (w : World) : (Bool × Option Err) × World :=
  if w.fails then
    ((false, some Err.infra),
      { w.next with redisLog := w.redisLog ++ [RedisCall.AcquireLock key false] }) else
  let w := w.next
  if key ∈ w.locks then
    ((false, none), { w with redisLog := w.redisLog ++ [RedisCall.AcquireLock key false] })
  else
    ((true, none), { w with locks := key :: w.locks,
                            redisLog := w.redisLog ++ [RedisCall.AcquireLock key true] })

/-- Method `Redis.ReleaseLock`: `DEL key`; an error when nothing was deleted. -/
def Redis.ReleaseLock (key : String) (w : World) : Option Err × World :=
  if w.fails then
    (some Err.infra,
      { w.next with redisLog := w.redisLog ++ [RedisCall.ReleaseLock key false] }) else
  let w := w.next
  if key ∈ w.locks then
    (none, { w with locks := w.locks.filter (fun k => k ≠ key),
                    redisLog := w.redisLog ++ [RedisCall.ReleaseLock key true] })
  else
    (some (Err.errorsNew "lock not found or already released"),
      { w with redisLog := w.redisLog ++ [RedisCall.ReleaseLock key false] })

/-! ## Ledger store (`repository/balance_repository.go`) -/

/-- Query `SELECT ... FROM balances WHERE user_id = $1` read with `QueryRow`: the first such row. -/
def findBalanceRow (rows : List Balance) (userID : Nat) : Option Balance :=
  rows.find? (fun r => decide (r.UserID = userID))

/-- Query `SELECT balance FROM balances WHERE user_id = $1`. -/
def selectBalance (rows : List Balance) (userID : Nat) : Option Float64 :=
  (findBalanceRow rows userID).map (fun r => r.Balance)

/-- Statement `UPDATE balances SET balance = $1, updated_at = $2 WHERE user_id = $3`. -/
def updateBalance (rows : List Balance) (userID : Nat) (newBalance : Float64) (now : Nat) :
    List Balance :=
  rows.map (fun r =>
    if r.UserID = userID then { r with Balance := newBalance, UpdatedAt := now } else r)

/-- Method `BalanceRepository.Withdraw`. -/
def BalanceRepository.Withdraw (userID : Nat) (amount : Float64) (w : World) : Option Err × World :=
  -- tx, err := br.db.Begin(ctx)
  if w.fails then (some Err.infra, w.next) else
  let w := w.next
  -- err = tx.QueryRow(ctx, sql, args...).Scan(&balance)
  if w.fails then (some Err.infra, w.next) else
  let w := w.next
  match selectBalance w.balances userID with
  | none => (some (Err.errorsNew "balance record not found"), w)
  | some balance =>
    if balance < amount then (some Err.ErrInsufficientBalance, w) else
    let newBalance := balance - amount
    -- _, err = tx.Exec(ctx, sql, args...)
    if w.fails then (some Err.infra, w.next) else
    let w := w.next
    -- return tx.Commit(ctx)
    if w.fails then (some Err.infra, w.next) else
    let w := w.next
    (none, { w with balances := updateBalance w.balances userID newBalance w.now })

/-- Method `BalanceRepository.Deposit`. -/
def BalanceRepository.Deposit (userID : Nat) (amount : Float64) (w : World) : Option Err × World :=
  -- tx, err := br.db.Begin(ctx)
  if w.fails then (some Err.infra, w.next) else
  let w := w.next
  -- err = tx.QueryRow(ctx, sql, args...).Scan(&balance)
  if w.fails then (some Err.infra, w.next) else
  let w := w.next
  match selectBalance w.balances userID with
  | none => (some (Err.errorsNew "balance record not found"), w)
  | some balance =>
    let newBalance := balance + amount
    -- _, err = tx.Exec(ctx, sql, args...)
    if w.fails then (some Err.infra, w.next) else
    let w := w.next
    -- return tx.Commit(ctx)
    if w.fails then (some Err.infra, w.next) else
    let w := w.next
    (none, { w with balances := updateBalance w.balances userID newBalance w.now })

/-- Method `BalanceRepository.GetBalance`: an unlocked read outside any transaction. -/
def BalanceRepository.GetBalance (userID : Nat) (w : World) : Except Err Float64 × World :=
  if w.fails then (Except.error Err.infra, w.next) else
  let w := w.next
  match selectBalance w.balances userID with
  | none => (Except.error Err.ErrNoRows, w)
  | some balance => (Except.ok balance, w)

/-- Method `BalanceRepository.Transfer`. -/
def BalanceRepository.Transfer (fromUserID toUserID : Nat) (amount : Float64) (w : World) :
    Except Err (Balance × Balance) × World :=
  if fromUserID = toUserID then
    (Except.error (Err.errorsNew "cannot transfer to the same account"), w) else
  -- tx, err := br.db.Begin(ctx)
  if w.fails then (Except.error Err.infra, w.next) else
  let w := w.next
  -- sender: SELECT balance ... FOR UPDATE
  if w.fails then (Except.error Err.infra, w.next) else
  let w := w.next
  match selectBalance w.balances fromUserID with
  | none => (Except.error (Err.errorsNew "sender balance record not found"), w)
  | some senderBalance =>
    if senderBalance < amount then (Except.error Err.ErrInsufficientBalance, w) else
    -- receiver: SELECT balance ... FOR UPDATE
    if w.fails then (Except.error Err.infra, w.next) else
    let w := w.next
    match selectBalance w.balances toUserID with
    | none => (Except.error (Err.errorsNew "receiver balance record not found"), w)
    | some receiverBalance =>
      -- update sender
      if w.fails then (Except.error Err.infra, w.next) else
      let w := w.next
      let tx := updateBalance w.balances fromUserID (senderBalance - amount) w.now
      -- update receiver
      if w.fails then (Except.error Err.infra, w.next) else
      let w := w.next
      let tx := updateBalance tx toUserID (receiverBalance + amount) w.now
      -- fetch updated sender
      if w.fails then (Except.error Err.infra, w.next) else
      let w := w.next
      match findBalanceRow tx fromUserID with
      | none => (Except.error Err.ErrNoRows, w)
      | some updatedSender =>
        -- fetch updated receiver
        if w.fails then (Except.error Err.infra, w.next) else
        let w := w.next
        match findBalanceRow tx toUserID with
        | none => (Except.error Err.ErrNoRows, w)
        | some updatedReceiver =>
          -- tx.Commit(ctx)
          if w.fails then (Except.error Err.infra, w.next) else
          let w := w.next
          (Except.ok (updatedSender, updatedReceiver), { w with balances := tx })

/-- Method `BalanceRepository.Store`: `INSERT INTO balances ... RETURNING id, ...`. -/
def BalanceRepository.Store (data : Balance) (w : World) : Option Err × World :=
  if w.fails then (some Err.infra, w.next) else
  let w := w.next
  (none, { w with balances := w.balances ++ [{ data with ID := w.balanceSeq + 1 }],
                   balanceSeq := w.balanceSeq + 1 })

/-! ## Balance engine (`service/balance.go`) -/

/-- The Redis key `fmt.Sprintf("balance_lock:%d", userID)`. -/
def lockKey (userID : Nat) : String :=
  "balance_lock:" ++ toString userID

/-- Response `dto.DepositResponse`. -/
structure DepositResponse where
  Balance : Float64
  deriving DecidableEq

/-- One side of `dto.TransferResponse`. -/
structure TransferParty where
  UserID : Nat
  Balance : Float64
  deriving DecidableEq

/-- Response `dto.TransferResponse`. -/
structure TransferResponse where
  From : TransferParty
  To : TransferParty
  deriving DecidableEq

/-- Method `BalanceService.Withdraw`. -/
def BalanceService.Withdraw (userID : Nat) (amount : Float64) (w : World) : Option Err × World :=
  match Redis.AcquireLock (lockKey userID) w with
  | ((_, some err), w) => (some err, w)
  | ((false, none), w) =>
    (some (Err.errorsNew "another transaction is in progress, try again later"), w)
  | ((true, none), w) =>
    let r := BalanceRepository.Withdraw userID amount w
    -- defer bs.redis.ReleaseLock(ctx, lockKey)
    (r.1, (Redis.ReleaseLock (lockKey userID) r.2).2)

/-- Method `BalanceService.Deposit`. -/
def BalanceService.Deposit (userID : Nat) (amount : Float64) (w : World) :
    Except Err DepositResponse × World :=
  match Redis.AcquireLock (lockKey userID) w with
  | ((_, some err), w) => (Except.error err, w)
  | ((false, none), w) =>
    (Except.error (Err.errorsNew "another transaction is in progress, try again later"), w)
  | ((true, none), w) =>
    -- defer bs.redis.ReleaseLock(ctx, lockKey) runs at every return below
    match BalanceRepository.Deposit userID amount w with
    | (some err, w) => (Except.error err, (Redis.ReleaseLock (lockKey userID) w).2)
    | (none, w) =>
      match BalanceRepository.GetBalance userID w with
      | (Except.error err, w) => (Except.error err, (Redis.ReleaseLock (lockKey userID) w).2)
      | (Except.ok amount, w) =>
        (Except.ok { Balance := amount }, (Redis.ReleaseLock (lockKey userID) w).2)

/-- Method `BalanceService.Transfer`. -/
def BalanceService.Transfer (fromUserID toUserID : Nat) (amount : Float64) (w : World) :
    Except Err TransferResponse × World :=
  if amount ≤ 0 then (Except.error (Err.errorsNew "transfer amount must be positive"), w) else
  if fromUserID = toUserID then (Except.error Err.ErrCannotSendBalanceSameAccount, w) else
  let firstLockID := if toUserID < fromUserID then toUserID else fromUserID
  let secondLockID := if toUserID < fromUserID then fromUserID else toUserID
  let firstLockKey := lockKey firstLockID
  let secondLockKey := lockKey secondLockID
  match Redis.AcquireLock firstLockKey w with
  | ((_, some _), w) | ((false, none), w) =>
    (Except.error (Err.errorsNew "unable to lock first account, try again later"), w)
  | ((true, none), w) =>
    match Redis.AcquireLock secondLockKey w with
    | ((_, some _), w) | ((false, none), w) =>
      -- deferred release of the first lock
      (Except.error (Err.errorsNew "unable to lock second account, try again later"),
        (Redis.ReleaseLock firstLockKey w).2)
    | ((true, none), w) =>
      -- deferred releases run in reverse order: second lock, then first lock
      match BalanceRepository.Transfer fromUserID toUserID amount w with
      | (Except.error err, w) =>
        (Except.error err,
          (Redis.ReleaseLock firstLockKey (Redis.ReleaseLock secondLockKey w).2).2)
      | (Except.ok (fromBalance, toBalance), w) =>
        (Except.ok { From := { UserID := fromUserID, Balance := fromBalance.Balance },
                     To := { UserID := toUserID, Balance := toBalance.Balance } },
          (Redis.ReleaseLock firstLockKey (Redis.ReleaseLock secondLockKey w).2).2)

/-! ## Payment, order and broker stores -/

/-- Modelled from the spec: `nullString`, the helper applied by `PaymentRepository.Update` to
the string fields of its argument, is not among the sources.  The spec has an update with
status `completed` (or `failed`) store that status and leave the other columns as they are,
so a non-empty string is passed to `COALESCE` and the empty string is SQL `NULL`. -/
def nullString (s : String) : Option String :=
  if s = "" then none else some s

/-- SQL `COALESCE(?, column)`. -/
def coalesce (arg : Option String) (column : String) : String :=
  match arg with
  | some v => v
  | none => column

/-- Query `SELECT ... FROM payments WHERE order_id = $1 LIMIT 1`. -/
def findPayment (rows : List Payment) (orderID : Int) : Option Payment :=
  rows.find? (fun p => decide (p.OrderID = orderID))

/-- Method `PaymentRepository.FindByUserIDandOrderID`: the query filters on `order_id` only;
`(nil, nil)` when there is no row. -/
def PaymentRepository.FindByUserIDandOrderID (_userID : Int) (orderID : Int) (w : World) :
    Except Err (Option Payment) × World :=
  if w.fails then (Except.error Err.infra, w.next) else
  let w := w.next
  (Except.ok (findPayment w.payments orderID), w)

/-- Statement `UPDATE payments SET updated_at = $1, payment_method = COALESCE($2, payment_method),
payment_status = COALESCE($3, payment_status) WHERE order_id = $4`. -/
def updatePayments (rows : List Payment) (order_id : Int) (updatedData : Payment) (now : Nat) :
    List Payment :=
  rows.map (fun p =>
    if p.OrderID = order_id then
      { p with UpdatedAt := now,
               PaymentMethod := coalesce (nullString updatedData.PaymentMethod) p.PaymentMethod,
               PaymentStatus := coalesce (nullString updatedData.PaymentStatus) p.PaymentStatus }
    else p)

/-- Method `PaymentRepository.Update`: rewrites every payment whose `order_id` is the given id; the
row scanned back into `updatedData` is not used by any caller, and no returned row
(`pgx.ErrNoRows`) is not an error. -/
def PaymentRepository.Update (order_id : Int) (updatedData : Payment) (w : World) :
    Option Err × World :=
  if w.fails then (some Err.infra, w.next) else
  let w := w.next
  (none, { w with payments := updatePayments w.payments order_id updatedData w.now })

/-- Method `PaymentRepository.Store`: `INSERT INTO payments ... RETURNING ...`. -/
def PaymentRepository.Store (data : Payment) (w : World) : Option Err × World :=
  if w.fails then (some Err.infra, w.next) else
  let w := w.next
  (none, { w with payments := w.payments ++ [{ data with ID := w.paymentSeq + 1 }],
                   paymentSeq := w.paymentSeq + 1 })

/-- Query `SELECT ... FROM orders WHERE id = $1 AND user_id = $2 LIMIT 1`. -/
def findOrder (rows : List Order) (id : Int) (userID : Int) : Option Order :=
  rows.find? (fun o => decide (o.ID = id) && decide (o.UserID = userID))

/-- Method `OrderRepository.FindOne`: the order with this id owned by this user; `(nil, nil)` when
there is none. -/
def OrderRepository.FindOne (id : Int) (userID : Int) (w : World) :
    Except Err (Option Order) × World :=
  if w.fails then (Except.error Err.infra, w.next) else
  let w := w.next
  (Except.ok (findOrder w.orders id userID), w)

/-- Method `OrderRepository.Store`: inserts the order and returns it with its generated id. -/
def OrderRepository.Store (data : Order) (w : World) : Except Err Order × World :=
  if w.fails then (Except.error Err.infra, w.next) else
  let w := w.next
  let row : Order := { data with ID := w.orderSeq + 1 }
  (Except.ok row, { w with orders := w.orders ++ [row], orderSeq := w.orderSeq + 1 })

/-- Method `OrderItemRepository.Store`. -/
def OrderItemRepository.Store (data : OrderItem) (w : World) : Option Err × World :=
  if w.fails then (some Err.infra, w.next) else
  let w := w.next
  (none, { w with orderItems := w.orderItems ++ [{ data with ID := w.orderItemSeq + 1 }],
                   orderItemSeq := w.orderItemSeq + 1 })

/-- Method `RabbitMq.Publish`: appends the message to the queue. -/
def RabbitMq.Publish (req : RabbitMqPublishRequest) (w : World) : Option Err × World :=
  if w.fails then (some Err.infra, w.next) else
  let w := w.next
  (none, { w with queue := w.queue ++ [req] })

/-! ## Payment settlement (`service/payment.go`) -/

/-- The Go conversion `uint64(x)` of an `int`. -/
def toUint64 (x : Int) : Nat :=
  (x % (2 ^ 64 : Int)).toNat

/-- The order status `consts.Paid`. -/
def consts.Paid : String := "paid"

/-- The value `domain.Payment{OrderID: orderID, PaymentStatus: "completed"}` built by
`MakePayment`; the other fields have their zero values. -/
def completedPayment (orderID : Int) : Payment :=
  { ID := 0, OrderID := orderID, PaymentMethod := "", PaymentStatus := "completed",
    CreatedAt := 0, UpdatedAt := 0, ExpiredAt := 0 }

/-- The message `dto.UpdateOrderStatus{OrderID: orderID, Status: consts.Paid}` published on
`consts.QueueUpdateStock` by `MakePayment`. -/
def paidEvent (orderID : Int) : RabbitMqPublishRequest :=
  { QueueName := QueueName.QueueUpdateStock,
    Messages := { OrderID := orderID, Status := consts.Paid } }

/-- The block `if existPayment.PaymentMethod == "balance" { ... }` of `MakePayment`: the
error it returns from, or `nil` when control reaches the payment update. -/
def PaymentService.MakePayment.balanceLeg (userID : Int) (existPayment : Payment)
    (order : Order) (w : World) : Option Err × World :=
  if existPayment.PaymentMethod = "balance" then
    match BalanceRepository.GetBalance (toUint64 userID) w with
    | (Except.error err, w) => (some err, w)
    | (Except.ok balance, w) =>
      if balance < order.TotalPrice then (some Err.ErrInsufficientBalance, w)
      else BalanceService.Withdraw (toUint64 userID) order.TotalPrice w
  else (none, w)

/-- Method `PaymentService.MakePayment`. -/
def PaymentService.MakePayment (userID : Int) (orderID : Int) (w : World) :
    GoResult (Option Err) × World :=
  match PaymentRepository.FindByUserIDandOrderID userID orderID w with
  | (Except.error err, w) => (GoResult.returned (some err), w)
  -- `existPayment.PaymentStatus` dereferences the nil pointer
  | (Except.ok none, w) => (GoResult.panic, w)
  | (Except.ok (some existPayment), w) =>
    if existPayment.PaymentStatus = "completed" then (GoResult.returned none, w) else
    match OrderRepository.FindOne orderID userID w with
    | (Except.error err, w) => (GoResult.returned (some err), w)
    | (Except.ok none, w) => (GoResult.returned (some Err.ErrDataNotFound), w)
    | (Except.ok (some order), w) =>
      match PaymentService.MakePayment.balanceLeg userID existPayment order w with
      | (some err, w) => (GoResult.returned (some err), w)
      | (none, w) =>
        let payment := completedPayment orderID
        match PaymentRepository.Update orderID payment w with
        | (some err, w) => (GoResult.returned (some err), w)
        | (none, w) =>
          match RabbitMq.Publish (paidEvent orderID) w with
          | (some err, w) => (GoResult.returned (some err), w)
          | (none, w) => (GoResult.returned none, w)

/-! ## Cart and catalog stores -/

/-- Query `SELECT ... FROM carts WHERE user_id = $1 LIMIT 1`. -/
def findCart (rows : List Cart) (userID : Int) : Option Cart :=
  rows.find? (fun c => decide (c.UserID = userID))

/-- Method `CartRepository.FindByUserID`; `(nil, nil)` when the user has no cart. -/
def CartRepository.FindByUserID (userID : Int) (w : World) : Except Err (Option Cart) × World :=
  if w.fails then (Except.error Err.infra, w.next) else
  let w := w.next
  (Except.ok (findCart w.carts userID), w)

/-- Method `CartRepository.DeleteByUserID`. -/
def CartRepository.DeleteByUserID (userID : Int) (w : World) : Option Err × World :=
  if w.fails then (some Err.infra, w.next) else
  let w := w.next
  (none, { w with carts := w.carts.filter (fun c => decide (c.UserID ≠ userID)) })

/-- Query `SELECT * FROM cart_items WHERE cart_id = $1`. -/
def findCartItems (rows : List CartItem) (cartID : Int) : List CartItem :=
  rows.filter (fun i => decide (i.CartID = cartID))

/-- Method `CartItemRepository.Finds` filtered on `cart_id`. -/
def CartItemRepository.Finds (cartID : Int) (w : World) : Except Err (List CartItem) × World :=
  if w.fails then (Except.error Err.infra, w.next) else
  let w := w.next
  (Except.ok (findCartItems w.cartItems cartID), w)

/-- Method `CartItemRepository.DeleteByCartID`. -/
def CartItemRepository.DeleteByCartID (cartID : Int) (w : World) : Option Err × World :=
  if w.fails then (some Err.infra, w.next) else
  let w := w.next
  (none, { w with cartItems := w.cartItems.filter (fun i => decide (i.CartID ≠ cartID)) })

/-- Method `CartRepository.Store`: `INSERT INTO carts ... RETURNING id`; the row's timestamps
are `time.Now()`, and only the generated id is scanned back into `data`. -/
def CartRepository.Store (data : Cart) (w : World) : Except Err Cart × World :=
  if w.fails then (Except.error Err.infra, w.next) else
  let w := w.next
  (Except.ok { data with ID := w.cartSeq + 1 },
    { w with carts := w.carts ++ [{ data with ID := w.cartSeq + 1, CreatedAt := w.now,
                                              UpdatedAt := w.now }],
             cartSeq := w.cartSeq + 1 })

/-- Query `SELECT * FROM cart_items WHERE cart_id = $1 AND product_id = $2` read with
`QueryRow`: the first such row. -/
def findCartItem (rows : List CartItem) (cartID productID : Int) : Option CartItem :=
  rows.find? (fun i => decide (i.CartID = cartID) && decide (i.ProductID = productID))

/-- Method `CartItemRepository.FindOneByFilters` filtered on `cart_id` and `product_id`;
`(nil, nil)` when there is no such row. -/
def CartItemRepository.FindOneByFilters (cartID productID : Int) (w : World) :
    Except Err (Option CartItem) × World :=
  if w.fails then (Except.error Err.infra, w.next) else
  let w := w.next
  (Except.ok (findCartItem w.cartItems cartID productID), w)

/-- Method `CartItemRepository.Store`: `INSERT INTO cart_items ... RETURNING ...`. -/
def CartItemRepository.Store (data : CartItem) (w : World) : Option Err × World :=
  if w.fails then (some Err.infra, w.next) else
  let w := w.next
  (none, { w with cartItems := w.cartItems ++ [{ data with ID := w.cartItemSeq + 1 }],
                   cartItemSeq := w.cartItemSeq + 1 })

/-- Statement `UPDATE cart_items SET quantity = $1, updated_at = $2 WHERE id = $3`. -/
def updateCartItem (rows : List CartItem) (id : Int) (quantity : Int) (now : Nat) :
    List CartItem :=
  rows.map (fun i => if i.ID = id then { i with Quantity := quantity, UpdatedAt := now } else i)

/-- Method `CartItemRepository.Update`: the updated row is read back with `QueryRow`, so an
unknown id is the error `pgx.ErrNoRows`. -/
def CartItemRepository.Update (id : Int) (updatedData : CartItem) (w : World) :
    Option Err × World :=
  if w.fails then (some Err.infra, w.next) else
  let w := w.next
  if (w.cartItems.find? (fun i => decide (i.ID = id))).isNone then (some Err.ErrNoRows, w)
  else (none, { w with cartItems := updateCartItem w.cartItems id updatedData.Quantity w.now })

/-- Method `CartItemRepository.DeleteByProductID`: `DELETE FROM cart_items WHERE
product_id = $1`; the statement has no condition on `cart_id`. -/
def CartItemRepository.DeleteByProductID (product_id : Int) (w : World) : Option Err × World :=
  if w.fails then (some Err.infra, w.next) else
  let w := w.next
  (none, { w with cartItems := w.cartItems.filter (fun i => decide (i.ProductID ≠ product_id)) })

/-- Query `SELECT * FROM products WHERE id = $1 LIMIT 1`. -/
def findProduct (rows : List Product) (id : Int) : Option Product :=
  rows.find? (fun p => decide (p.ID = id))

/-- Method `ProductRepository.FindOne`; `(nil, nil)` when there is no such product. -/
def ProductRepository.FindOne (id : Int) (w : World) : Except Err (Option Product) × World :=
  if w.fails then (Except.error Err.infra, w.next) else
  let w := w.next
  (Except.ok (findProduct w.products id), w)

/-- Statement `UPDATE products SET stock = $1 WHERE id = $2`. -/
def updateStock (rows : List Product) (productID : Int) (newStock : Int) : List Product :=
  rows.map (fun p => if p.ID = productID then { p with Stock := newStock } else p)

/-- Method `ProductRepository.UpdateStock`. -/
def ProductRepository.UpdateStock (productID : Int) (newStock : Int) (w : World) :
    Option Err × World :=
  if w.fails then (some Err.infra, w.next) else
  let w := w.next
  (none, { w with products := updateStock w.products productID newStock })

/-! ## Checkout (`service/checkout.go`) -/

/-- Response `dto.CheckoutResponse`. -/
structure CheckoutResponse where
  OrderID : Int
  PaymentMethod : String
  Total : Int
  deriving DecidableEq

/-- Ten minutes as a `time.Duration` (nanoseconds); timestamps count nanoseconds. -/
def tenMinutes : Nat := 10 * 60 * 1000000000

/-- The Go conversion `int(x)` of a `float64`. -/
def truncToInt (x : Float64) : Int :=
  Float64.toInt x

/-- The first `for` loop of `Checkout`: checks every cart line against the catalog and
accumulates `totalPrice`. -/
def CheckoutService.Checkout.priceLoop :
    List CartItem → Float64 → World → Except Err Float64 × World
  | [], totalPrice, w => (Except.ok totalPrice, w)
  | item :: items, totalPrice, w =>
    match ProductRepository.FindOne item.ProductID w with
    | (Except.error err, w) => (Except.error err, w)
    | (Except.ok none, w) => (Except.error (Err.errorsNew "product not found"), w)
    | (Except.ok (some product), w) =>
      if product.Stock < item.Quantity then
        (Except.error (Err.errorsNew "insufficient stock"), w)
      else
        CheckoutService.Checkout.priceLoop items
          (totalPrice + product.Price * Float64.ofInt item.Quantity) w

/-- The second `for` loop of `Checkout`: stores one order item per cart line and writes the
decremented stock.  The product is read again and dereferenced without a nil check. -/
def CheckoutService.Checkout.itemLoop (orderID : Int) :
    List CartItem → World → GoResult (Option Err) × World
  | [], w => (GoResult.returned none, w)
  | item :: items, w =>
    match ProductRepository.FindOne item.ProductID w with
    | (Except.error err, w) => (GoResult.returned (some err), w)
    | (Except.ok none, w) => (GoResult.panic, w)
    | (Except.ok (some product), w) =>
      match OrderItemRepository.Store
          { ID := 0, OrderID := orderID, ProductID := item.ProductID,
            Quantity := item.Quantity, Price := product.Price } w with
      | (some err, w) => (GoResult.returned (some err), w)
      | (none, w) =>
        let newStock := product.Stock - item.Quantity
        match ProductRepository.UpdateStock item.ProductID newStock w with
        | (some err, w) => (GoResult.returned (some err), w)
        | (none, w) => CheckoutService.Checkout.itemLoop orderID items w

/-- Method `CheckoutService.ClearCart`. -/
def CheckoutService.ClearCart (userID : Int) (cartID : Int) (w : World) : Option Err × World :=
  match CartRepository.DeleteByUserID userID w with
  | (some err, w) => (some err, w)
  | (none, w) =>
    match CartItemRepository.DeleteByCartID cartID w with
    | (some err, w) => (some err, w)
    | (none, w) => (none, w)

/-- Method `CheckoutService.Checkout`. -/
def CheckoutService.Checkout (userID : Int) (paymentMethod : String) (w : World) :
    GoResult (Except Err CheckoutResponse) × World :=
  match CartRepository.FindByUserID userID w with
  | (Except.error err, w) => (GoResult.returned (Except.error err), w)
  | (Except.ok none, w) => (GoResult.returned (Except.error Err.ErrEmptyCart), w)
  | (Except.ok (some cart), w) =>
    match CartItemRepository.Finds cart.ID w with
    | (Except.error err, w) => (GoResult.returned (Except.error err), w)
    | (Except.ok items, w) =>
      match CheckoutService.Checkout.priceLoop items 0 w with
      | (Except.error err, w) => (GoResult.returned (Except.error err), w)
      | (Except.ok totalPrice, w) =>
        let tNow := w.now
        match OrderRepository.Store
            { ID := 0, UserID := userID, TotalPrice := totalPrice, Status := "pending",
              CreatedAt := tNow } w with
        | (Except.error err, w) => (GoResult.returned (Except.error err), w)
        | (Except.ok order, w) =>
          match CheckoutService.Checkout.itemLoop order.ID items w with
          | (GoResult.panic, w) => (GoResult.panic, w)
          | (GoResult.returned (some err), w) => (GoResult.returned (Except.error err), w)
          | (GoResult.returned none, w) =>
            let expiredAt := tNow + tenMinutes
            match PaymentRepository.Store
                { ID := 0, OrderID := order.ID, PaymentMethod := paymentMethod,
                  PaymentStatus := "pending", UpdatedAt := tNow, CreatedAt := tNow,
                  ExpiredAt := expiredAt } w with
            | (some err, w) => (GoResult.returned (Except.error err), w)
            | (none, w) =>
              match CheckoutService.ClearCart userID cart.ID w with
              | (some err, w) => (GoResult.returned (Except.error err), w)
              | (none, w) =>
                (GoResult.returned (Except.ok
                  { OrderID := order.ID, PaymentMethod := paymentMethod,
                    Total := truncToInt totalPrice }), w)

/-! ## Cart view (`service/cart.go`) -/

/-- Line `dto.CartItemResponse` of a cart view. -/
structure CartItemResponse where
  Name : String
  ProductID : Int
  Price : Float64
  Quantity : Int
  deriving DecidableEq

/-- Response `dto.CartResponse`. -/
structure CartResponse where
  TotalItems : Int
  TotalProducts : Int
  TotalPrice : Float64
  Items : List CartItemResponse
  deriving DecidableEq

/-- The zero value of `dto.CartResponse`: the empty response. -/
def CartResponse.zero : CartResponse :=
  { TotalItems := 0, TotalProducts := 0, TotalPrice := 0, Items := [] }

/-- The `for` loop of `GetCart` over the cart items; it carries `totalPrice`, `quantity` and
`response.Items`, and returns them with the error it stopped on, if any.  The product is
dereferenced without a nil check. -/
def CartService.GetCart.loop : List CartItem → Float64 → Float64 → List CartItemResponse → World →
    GoResult (Option Err × Float64 × Float64 × List CartItemResponse) × World
  | [], totalPrice, quantity, items, w => (GoResult.returned (none, totalPrice, quantity, items), w)
  | item :: rest, totalPrice, quantity, items, w =>
    match ProductRepository.FindOne item.ProductID w with
    | (Except.error err, w) => (GoResult.returned (some err, totalPrice, quantity, items), w)
    | (Except.ok none, w) => (GoResult.panic, w)
    | (Except.ok (some product), w) =>
      CartService.GetCart.loop rest
        (totalPrice + product.Price * Float64.ofInt item.Quantity)
        (quantity + Float64.ofInt item.Quantity)
        (items ++ [{ Name := product.Name, ProductID := item.ProductID,
                     Quantity := item.Quantity, Price := product.Price }]) w

/-- Method `CartService.GetCart`; the result is the pair `(response, err)`. -/
def CartService.GetCart (userID : Int) (w : World) :
    GoResult (CartResponse × Option Err) × World :=
  match CartRepository.FindByUserID userID w with
  | (Except.error err, w) => (GoResult.returned (CartResponse.zero, some err), w)
  | (Except.ok none, w) => (GoResult.returned (CartResponse.zero, none), w)
  | (Except.ok (some cart), w) =>
    match CartItemRepository.Finds cart.ID w with
    | (Except.error err, w) => (GoResult.returned (CartResponse.zero, some err), w)
    | (Except.ok cartItems, w) =>
      match CartService.GetCart.loop cartItems 0 0 [] w with
      | (GoResult.panic, w) => (GoResult.panic, w)
      | (GoResult.returned (some err, _, _, items), w) =>
        (GoResult.returned ({ CartResponse.zero with Items := items }, some err), w)
      | (GoResult.returned (none, totalPrice, quantity, items), w) =>
        (GoResult.returned
          ({ TotalItems := truncToInt quantity, TotalProducts := items.length,
             TotalPrice := totalPrice, Items := items }, none), w)

/-! ## Cart changes (`service/cart.go`) -/

/-- The block `if cart == nil { ... }` of `AddToCart`: the user's cart, stored first when the
user has none. -/
def CartService.AddToCart.cartOrNew (userID : Int) (cart : Option Cart) (w : World) :
    Except Err Cart × World :=
  match cart with
  | some cart => (Except.ok cart, w)
  | none => CartRepository.Store { ID := 0, UserID := userID, CreatedAt := 0, UpdatedAt := 0 } w

/-- Method `CartService.AddToCart`.  The product is looked up but read only on the merge
path, where `product.Stock` is dereferenced without a nil check; the merged quantity is a sum
of Go `int`, which wraps around on overflow. -/
def CartService.AddToCart (userID : Int) (productID : Int) (quantity : Int) (w : World) :
    GoResult (Option Err) × World :=
  match CartRepository.FindByUserID userID w with
  | (Except.error err, w) => (GoResult.returned (some err), w)
  | (Except.ok cart, w) =>
    match CartService.AddToCart.cartOrNew userID cart w with
    | (Except.error err, w) => (GoResult.returned (some err), w)
    | (Except.ok cart, w) =>
      match ProductRepository.FindOne productID w with
      | (Except.error err, w) => (GoResult.returned (some err), w)
      | (Except.ok product, w) =>
        match CartItemRepository.FindOneByFilters cart.ID productID w with
        | (Except.error err, w) => (GoResult.returned (some err), w)
        | (Except.ok existCartItem, w) =>
          let tNow := w.now
          let cartItem : CartItem :=
            { ID := 0, CartID := cart.ID, ProductID := productID, Quantity := quantity,
              CreatedAt := tNow, UpdatedAt := tNow }
          match existCartItem with
          | none => (GoResult.returned (CartItemRepository.Store cartItem w).1,
                      (CartItemRepository.Store cartItem w).2)
          | some existCartItem =>
            match product with
            | none => (GoResult.panic, w)
            | some product =>
              if product.Stock < quantity then
                (GoResult.returned (some Err.ErrInsufficientStock), w)
              else
                -- `cartItem.Quantity += existCartItem.Quantity`, a sum of Go `int`
                let cartItem :=
                  { cartItem with
                    Quantity := wrapInt64 (cartItem.Quantity + existCartItem.Quantity) }
                (GoResult.returned (CartItemRepository.Update existCartItem.ID cartItem w).1,
                  (CartItemRepository.Update existCartItem.ID cartItem w).2)

/-- Method `CartService.RemoveFromCart`. -/
def CartService.RemoveFromCart (userID : Int) (productID : Int) (w : World) :
    Option Err × World :=
  match CartRepository.FindByUserID userID w with
  | (Except.error err, w) => (some err, w)
  | (Except.ok none, w) => (some Err.ErrEmptyCart, w)
  | (Except.ok (some cart), w) =>
    match CartItemRepository.FindOneByFilters cart.ID productID w with
    | (Except.error err, w) => (some err, w)
    | (Except.ok none, w) => (some Err.ErrDataNotFound, w)
    | (Except.ok (some _), w) => CartItemRepository.DeleteByProductID productID w

/-- Request `dto.UpdateCartRequest`. -/
structure UpdateCartRequest where
  ProductID : Int
  Quantity : Int
  deriving DecidableEq

/-- Method `CartService.UpdateCart`; `product.Stock` is dereferenced without a nil check. -/
def CartService.UpdateCart (userID : Int) (request : UpdateCartRequest) (w : World) :
    GoResult (Option Err) × World :=
  match CartRepository.FindByUserID userID w with
  | (Except.error err, w) => (GoResult.returned (some err), w)
  | (Except.ok none, w) => (GoResult.returned (some Err.ErrEmptyCart), w)
  | (Except.ok (some cart), w) =>
    match CartItemRepository.FindOneByFilters cart.ID request.ProductID w with
    | (Except.error err, w) => (GoResult.returned (some err), w)
    | (Except.ok none, w) => (GoResult.returned (some Err.ErrDataNotFound), w)
    | (Except.ok (some cartItem), w) =>
      match ProductRepository.FindOne request.ProductID w with
      | (Except.error err, w) => (GoResult.returned (some err), w)
      | (Except.ok none, w) => (GoResult.panic, w)
      | (Except.ok (some product), w) =>
        if product.Stock < request.Quantity then
          (GoResult.returned (some Err.ErrInsufficientStock), w)
        else
          let cartItem := { cartItem with Quantity := request.Quantity }
          (GoResult.returned (CartItemRepository.Update cartItem.ID cartItem w).1,
            (CartItemRepository.Update cartItem.ID cartItem w).2)

/-! ## Order status (`repository/order_repository.go`, `service/order.go`) -/

/-- Statement `UPDATE orders SET status = COALESCE($1, status) WHERE id = $2`; the argument
is a Go string, never `NULL`, so the status becomes the argument. -/
def updateOrderStatus (rows : List Order) (id : Int) (status : String) : List Order :=
  rows.map (fun o => if o.ID = id then { o with Status := status } else o)

/-- Method `OrderRepository.Update`: the updated row is read back with `QueryRow`, so an
unknown id is the error `pgx.ErrNoRows`. -/
def OrderRepository.Update (id : Int) (updatedData : Order) (w : World) : Option Err × World :=
  if w.fails then (some Err.infra, w.next) else
  let w := w.next
  if (w.orders.find? (fun o => decide (o.ID = id))).isNone then (some Err.ErrNoRows, w)
  else (none, { w with orders := updateOrderStatus w.orders id updatedData.Status })

/-- The zero value of `domain.Order`. -/
def Order.zero : Order :=
  { ID := 0, UserID := 0, TotalPrice := 0, Status := "", CreatedAt := 0 }

/-- Method `OrderService.UpdateStatusOrder`: only the status `consts.Paid` fills the order
value passed to the store; any other status leaves it at its zero value. -/
def OrderService.UpdateStatusOrder (orderID : Int) (status : String) (w : World) :
    Option Err × World :=
  let order : Order :=
    if status = consts.Paid then { Order.zero with ID := orderID, Status := consts.Paid }
    else Order.zero
  OrderRepository.Update orderID order w

/-! ## Expiry reaper (`handler/worker/payment_worker.go`) -/

/-- Query `SELECT * FROM order_items WHERE order_id = $1`. -/
def findOrderItems (rows : List OrderItem) (orderID : Int) : List OrderItem :=
  rows.filter (fun i => decide (i.OrderID = orderID))

/-- Method `OrderItemRepository.Finds` filtered on `order_id`. -/
def OrderItemRepository.Finds (orderID : Int) (w : World) : Except Err (List OrderItem) × World :=
  if w.fails then (Except.error Err.infra, w.next) else
  let w := w.next
  (Except.ok (findOrderItems w.orderItems orderID), w)

/-- Query of `FindExpiredPayments`: the payments with status `pending` and `expired_at < now`;
`updated_at` is not selected and stays at its zero value. -/
def findExpiredPayments (rows : List Payment) (now : Nat) : List Payment :=
  (rows.filter (fun p => decide (p.PaymentStatus = "pending") && decide (p.ExpiredAt < now))).map
    (fun p => { p with UpdatedAt := 0 })

/-- Method `PaymentRepository.FindExpiredPayments`. -/
def PaymentRepository.FindExpiredPayments (now : Nat) (w : World) :
    Except Err (List Payment) × World :=
  if w.fails then (Except.error Err.infra, w.next) else
  let w := w.next
  (Except.ok (findExpiredPayments w.payments now), w)

/-- The value `domain.Payment{PaymentStatus: "failed"}` passed by the reaper. -/
def failedPayment : Payment :=
  { ID := 0, OrderID := 0, PaymentMethod := "", PaymentStatus := "failed", CreatedAt := 0,
    UpdatedAt := 0, ExpiredAt := 0 }

/-- The value `domain.Order{Status: "cancelled"}` passed by the reaper. -/
def cancelledOrder : Order :=
  { Order.zero with Status := "cancelled" }

/-- The `for` loop of `ProcessExpiredPayments` over the order items.  Errors are logged and
not returned: after a failed product lookup the loop goes on to read `product.Stock` through
the nil pointer, and a failed stock update is skipped. -/
def PaymentWorker.ProcessExpiredPayments.restockLoop :
    List OrderItem → World → GoResult Unit × World
  | [], w => (GoResult.returned (), w)
  | item :: items, w =>
    match ProductRepository.FindOne item.ProductID w with
    | (Except.error _, w) => (GoResult.panic, w)
    | (Except.ok none, w) => (GoResult.panic, w)
    | (Except.ok (some product), w) =>
      let newStock := product.Stock + item.Quantity
      PaymentWorker.ProcessExpiredPayments.restockLoop items
        (ProductRepository.UpdateStock item.ProductID newStock w).2

/-- The slice left in `items` by `items, err := w.OrderItemRepo.Finds(...)`: it is nil when
the call returned an error, which is only logged. -/
def itemsOrNil (r : Except Err (List OrderItem)) : List OrderItem :=
  match r with
  | Except.error _ => []
  | Except.ok items => items

/-- Method `PaymentWorker.ProcessExpiredPayments`.  Every error is logged and dropped; the
payment update is called with `payment.ID`, the item lookup and the order update with
`payment.OrderID`. -/
def PaymentWorker.ProcessExpiredPayments (payment : Payment) (w : World) :
    GoResult (Option Err) × World :=
  let w := (PaymentRepository.Update payment.ID failedPayment w).2
  let r := OrderItemRepository.Finds payment.OrderID w
  match PaymentWorker.ProcessExpiredPayments.restockLoop (itemsOrNil r.1) r.2 with
  | (GoResult.panic, w) => (GoResult.panic, w)
  | (GoResult.returned _, w) =>
    (GoResult.returned none, (OrderRepository.Update payment.OrderID cancelledOrder w).2)

/-- Method `PaymentWorker.cancelExpiredPayments`: one tick of the reaper.  The tick queries
the expired payments and starts one goroutine per payment,
`go func(data) { w.ProcessExpiredPayments(ctx, data) }(payment)`, without waiting for any of
them: the result is the list of the payments handed to goroutines, none when the query
failed. -/
def PaymentWorker.cancelExpiredPayments (w : World) : List Payment × World :=
  let now := w.now
  match PaymentRepository.FindExpiredPayments now w with
  | (Except.error _, w) => ([], w)
  | (Except.ok payments, w) => (payments, w)

/-! ## Observations used to state the theorems -/

/-- The world without its fault script: tables, sequences, locks, queue and Redis log.  Two
worlds with the same `data` differ only in the outcomes scripted for later calls. -/
def World.data (w : World) : World :=
  { w with faults := [] }

/-- The keys of the `AcquireLock` calls of a Redis log, in the order of the calls. -/
def acquireAttempts (calls : List RedisCall) : List String :=
  calls.filterMap (fun c =>
    match c with
    | RedisCall.AcquireLock key _ => some key
    | RedisCall.ReleaseLock _ _ => none)

/-- The Redis calls of a `Deposit` or `Withdraw` on every path: one failed acquisition, or
one successful acquisition followed by exactly one release of the same key. -/
def SingleLockCalls (key : String) (new : List RedisCall) : Prop :=
  new = [RedisCall.AcquireLock key false] ∨
  ∃ released, new = [RedisCall.AcquireLock key true, RedisCall.ReleaseLock key released]

/-- The Redis calls of a `Transfer` on every path: none when the arguments are rejected;
otherwise the lock of the smaller id is tried first, the lock of the larger id only once the
first is held, and every lock acquired is released exactly once, in reverse order. -/
def TransferLockCalls (s r : Nat) (a : Float64) (new : List RedisCall) : Prop :=
  ((a ≤ 0 ∨ s = r) ∧ new = []) ∨
  (¬ a ≤ 0 ∧ s ≠ r ∧
    (new = [RedisCall.AcquireLock (lockKey (min s r)) false] ∨
     (∃ released, new = [RedisCall.AcquireLock (lockKey (min s r)) true,
                         RedisCall.AcquireLock (lockKey (max s r)) false,
                         RedisCall.ReleaseLock (lockKey (min s r)) released]) ∨
     (∃ released2 released1, new = [RedisCall.AcquireLock (lockKey (min s r)) true,
                         RedisCall.AcquireLock (lockKey (max s r)) true,
                         RedisCall.ReleaseLock (lockKey (max s r)) released2,
                         RedisCall.ReleaseLock (lockKey (min s r)) released1])))

/-- The world in which the deferred release of `Deposit` runs: the one left by the store's
`Deposit` when it failed, by the `GetBalance` that follows it otherwise. -/
def BalanceService.Deposit.releaseWorld (userID : Nat) (amount : Float64) (w : World) : World :=
  match BalanceRepository.Deposit userID amount w with
  | (some _, w) => w
  | (none, w) => (BalanceRepository.GetBalance userID w).2

/-- Status of the order with this id, if there is one. -/
def orderStatus (rows : List Order) (id : Int) : Option String :=
  (rows.find? (fun o => decide (o.ID = id))).map (fun o => o.Status)

/-- Status of the payment found for this order id, if there is one. -/
def paymentStatus (rows : List Payment) (orderID : Int) : Option String :=
  (findPayment rows orderID).map (fun p => p.PaymentStatus)

/-! ## Histories of settlement steps -/

/-- The running server: the world, and the payments handed by reaper ticks to goroutines that
have not run yet. -/
structure Process where
  world : World
  started : List Payment

/-- A step that can touch an order's status: a `MakePayment` call, an `UpdateStatusOrder`
call made by the consumer for a delivered event, a tick of the reaper, or the run of one of
the goroutines started by earlier ticks (the one at the given position among those that have
not run yet). -/
inductive SettlementStep where
  | MakePayment (userID orderID : Int)
  | UpdateStatusOrder (orderID : Int) (status : String)
  | cancelExpiredPayments
  | ProcessExpiredPayments (index : Nat)

/-- The goroutine at the given position runs `ProcessExpiredPayments` on its payment; there
is nothing to run when no goroutine is waiting at that position.  A panic in a goroutine ends
the process, and with it the goroutines that have not run yet. -/
def Process.runStarted (index : Nat) (faults : List Bool) (s : Process) : Process :=
  match s.started.get? index with
  | none => s
  | some payment =>
    match PaymentWorker.ProcessExpiredPayments payment { s.world with faults := faults } with
    | (GoResult.panic, w) => { world := w, started := [] }
    | (GoResult.returned _, w) => { world := w, started := s.started.eraseIdx index }

/-- The server after one settlement step made under the given fault script, whatever it
returned.  A reaper tick only starts goroutines: they run at any later step of the history,
in any order. -/
def SettlementStep.run (c : SettlementStep) (faults : List Bool) (s : Process) : Process :=
  let w := { s.world with faults := faults }
  match c with
  | SettlementStep.MakePayment userID orderID =>
    { s with world := (PaymentService.MakePayment userID orderID w).2 }
  | SettlementStep.UpdateStatusOrder orderID status =>
    { s with world := (OrderService.UpdateStatusOrder orderID status w).2 }
  | SettlementStep.cancelExpiredPayments =>
    { world := (PaymentWorker.cancelExpiredPayments w).2,
      started := s.started ++ (PaymentWorker.cancelExpiredPayments w).1 }
  | SettlementStep.ProcessExpiredPayments index => s.runStarted index faults

/-- The server after a history of settlement steps, each with its own fault script. -/
def runSettlementSteps : List (SettlementStep × List Bool) → Process → Process
  | [], s => s
  | (c, faults) :: cs, s => runSettlementSteps cs (c.run faults s)

/-- An `UpdateStatusOrder` step carries the status `paid`, the only status ever published;
the other steps are not restricted. -/
def SettlementStep.publishedStatus : SettlementStep → Prop
  | SettlementStep.MakePayment _ _ => True
  | SettlementStep.UpdateStatusOrder _ status => status = consts.Paid
  | SettlementStep.cancelExpiredPayments => True
  | SettlementStep.ProcessExpiredPayments _ => True

/-- The orders and payments tables of a world. -/
def World.books (w : World) : List Order × List Payment := (w.orders, w.payments)

/-- The order is `paid` and none of the payments stored for it is `pending` (the state of an
order after `MakePayment` has completed its payments and the paid event was applied). -/
def PaidAndSettled (w : World) (id : Int) : Prop :=
  orderStatus w.orders id = some "paid" ∧
  ∀ p ∈ w.payments, p.OrderID = id → p.PaymentStatus ≠ "pending"

/-- No goroutine started by the reaper and still to run holds a payment of the order. -/
def NoCancellationStarted (s : Process) (id : Int) : Prop :=
  ∀ p ∈ s.started, p.OrderID ≠ id

/-! ## Histories of cart calls -/

/-- A call that changes a cart. -/
inductive CartCall where
  | AddToCart (userID productID quantity : Int)
  | UpdateCart (userID : Int) (request : UpdateCartRequest)
  | RemoveFromCart (userID productID : Int)

/-- The world after one cart call made under the given fault script, whatever it returned. -/
def CartCall.run (c : CartCall) (faults : List Bool) (w : World) : World :=
  let w := { w with faults := faults }
  match c with
  | CartCall.AddToCart userID productID quantity =>
    (CartService.AddToCart userID productID quantity w).2
  | CartCall.UpdateCart userID request => (CartService.UpdateCart userID request w).2
  | CartCall.RemoveFromCart userID productID => (CartService.RemoveFromCart userID productID w).2

/-- The world after a history of cart calls, each with its own fault script. -/
def runCartCalls : List (CartCall × List Bool) → World → World
  | [], w => w
  | (c, faults) :: cs, w => runCartCalls cs (c.run faults w)

/-- The quantity passed to the call, if it passes one, is positive. -/
def CartCall.quantityPositive : CartCall → Prop
  | CartCall.AddToCart _ _ quantity => 0 < quantity
  | CartCall.UpdateCart _ request => 0 < request.Quantity
  | CartCall.RemoveFromCart _ _ => True

/-- Every cart item has a positive quantity. -/
def CartQuantitiesPositive (w : World) : Prop :=
  ∀ i ∈ w.cartItems, 0 < i.Quantity

/-- The quantity the call adds to a cart line (0 unless the call is `AddToCart`). -/
def CartCall.added : CartCall → Int
  | CartCall.AddToCart _ _ quantity => quantity
  | CartCall.UpdateCart _ _ => 0
  | CartCall.RemoveFromCart _ _ => 0

/-- The quantity the call sets a cart line to (0 unless the call is `UpdateCart`). -/
def CartCall.requested : CartCall → Int
  | CartCall.AddToCart _ _ _ => 0
  | CartCall.UpdateCart _ request => request.Quantity
  | CartCall.RemoveFromCart _ _ => 0

/-- The sum of the quantities added by the `AddToCart` calls of a history. -/
def cartCallsAdded : List (CartCall × List Bool) → Int
  | [] => 0
  | (c, _) :: cs => c.added + cartCallsAdded cs

/-- Every cart item has a positive quantity, not above the bound. -/
def CartQuantitiesWithin (w : World) (bound : Int) : Prop :=
  ∀ i ∈ w.cartItems, 0 < i.Quantity ∧ i.Quantity ≤ bound

/-! ## Interleavings of two withdrawals -/

/-- Where a `BalanceService.Withdraw` call stands: before its `AcquireLock`; holding the lock,
before the store call; after the store call, with the error to return and the deferred
`ReleaseLock` still to run; returned. -/
inductive WithdrawPhase where
  | start
  | locked
  | stored (err : Option Err)
  | returned (err : Option Err)
  deriving DecidableEq

/-- One step of a `BalanceService.Withdraw` call.  Each call to the outside is one atomic
step: `AcquireLock`, the store's `Withdraw` (one transaction whose `SELECT ... FOR UPDATE`
holds the row), `ReleaseLock`.  A call that has returned does nothing. -/
def WithdrawPhase.step (userID : Nat) (amount : Float64) :
    WithdrawPhase → World → WithdrawPhase × World
  | WithdrawPhase.start, w =>
    match Redis.AcquireLock (lockKey userID) w with
    | ((_, some err), w) => (WithdrawPhase.returned (some err), w)
    | ((false, none), w) =>
      (WithdrawPhase.returned
        (some (Err.errorsNew "another transaction is in progress, try again later")), w)
    | ((true, none), w) => (WithdrawPhase.locked, w)
  | WithdrawPhase.locked, w =>
    (WithdrawPhase.stored (BalanceRepository.Withdraw userID amount w).1,
      (BalanceRepository.Withdraw userID amount w).2)
  | WithdrawPhase.stored err, w =>
    (WithdrawPhase.returned err, (Redis.ReleaseLock (lockKey userID) w).2)
  | WithdrawPhase.returned err, w => (WithdrawPhase.returned err, w)

/-- Two concurrent `Withdraw` calls of one user and the world they share. -/
structure WithdrawRace where
  first : WithdrawPhase
  second : WithdrawPhase
  world : World

/-- The scheduler lets one of the two calls make its next step (`true` picks the second). -/
def WithdrawRace.step (userID : Nat) (amount1 amount2 : Float64) (pick : Bool) (c : WithdrawRace) :
    WithdrawRace :=
  if pick then
    { c with second := (c.second.step userID amount2 c.world).1,
             world := (c.second.step userID amount2 c.world).2 }
  else
    { c with first := (c.first.step userID amount1 c.world).1,
             world := (c.first.step userID amount1 c.world).2 }

/-- The race after a schedule, an interleaving of the steps of the two calls. -/
def WithdrawRace.run (userID : Nat) (amount1 amount2 : Float64) :
    List Bool → WithdrawRace → WithdrawRace
  | [], c => c
  | pick :: schedule, c =>
    WithdrawRace.run userID amount1 amount2 schedule (c.step userID amount1 amount2 pick)

/-- The error of a `Withdraw` call that found the lock taken. -/
def lockBusy : Err :=
  Err.errorsNew "another transaction is in progress, try again later"

/-- Both calls have returned; one returned `nil`, the other an error that is
`ErrInsufficientBalance` or the lock-busy error; the user's balance is the given one. -/
def WithdrawRace.oneWinner (userID : Nat) (balance : Float64) (c : WithdrawRace) : Prop :=
  selectBalance c.world.balances userID = some balance ∧
  ((c.first = WithdrawPhase.returned none ∧
      (c.second = WithdrawPhase.returned (some Err.ErrInsufficientBalance) ∨
        c.second = WithdrawPhase.returned (some lockBusy))) ∨
    (c.second = WithdrawPhase.returned none ∧
      (c.first = WithdrawPhase.returned (some Err.ErrInsufficientBalance) ∨
        c.first = WithdrawPhase.returned (some lockBusy))))

/-- Both calls of the race have returned. -/
def WithdrawRace.finished (c : WithdrawRace) : Prop :=
  (∃ err, c.first = WithdrawPhase.returned err) ∧ (∃ err, c.second = WithdrawPhase.returned err)

/-! ## Quantities used to state the checkout theorems -/

/-- Price of the product with this id as the catalog has it (0 when there is none). -/
def priceOf (rows : List Product) (id : Int) : Float64 :=
  ((findProduct rows id).map (fun p => p.Price)).getD 0

/-- Stock of the product with this id as the catalog has it (0 when there is none). -/
def stockOf (rows : List Product) (id : Int) : Int :=
  ((findProduct rows id).map (fun p => p.Stock)).getD 0

/-- The `float64` accumulation `acc += price * float64(quantity)` over the cart lines, in
cart order. -/
def cartTotalFrom (rows : List Product) : Float64 → List CartItem → Float64
  | acc, [] => acc
  | acc, it :: items =>
    cartTotalFrom rows (acc + priceOf rows it.ProductID * Float64.ofInt it.Quantity) items

/-- The total of the cart lines as `Checkout` accumulates it in `float64`, from 0. -/
def cartTotal (rows : List Product) (items : List CartItem) : Float64 :=
  cartTotalFrom rows 0 items

/-- The order items written for the cart lines, with ids drawn from the sequence. -/
def newOrderItems (orderID : Int) (rows : List Product) : Int → List CartItem → List OrderItem
  | _, [] => []
  | seq, it :: items =>
    { ID := seq + 1, OrderID := orderID, ProductID := it.ProductID, Quantity := it.Quantity,
      Price := priceOf rows it.ProductID } :: newOrderItems orderID rows (seq + 1) items

/-- The catalog after the stock of each cart line's product has been rewritten in turn. -/
def decrementStocks : List Product → List CartItem → List Product
  | rows, [] => rows
  | rows, it :: items =>
    decrementStocks
      (updateStock rows it.ProductID (stockOf rows it.ProductID - it.Quantity)) items

/-! ## Histories of balance calls -/

/-- A call of the balance engine; `Store` is the insertion of the zero balance row made by
`UserService.Register` (`domain.Balance` with `Balance` left at its zero value). -/
inductive BalanceCall where
  | Store (userID : Nat)
  | Deposit (userID : Nat) (amount : Float64)
  | Withdraw (userID : Nat) (amount : Float64)
  | Transfer (fromUserID toUserID : Nat) (amount : Float64)

/-- The world after one balance call made under the given fault script, whatever it
returned. -/
def BalanceCall.run (c : BalanceCall) (faults : List Bool) (w : World) : World :=
  let w := { w with faults := faults }
  match c with
  | BalanceCall.Store userID =>
    (BalanceRepository.Store
      { ID := 0, UserID := userID, Balance := 0, CreatedAt := w.now, UpdatedAt := w.now } w).2
  | BalanceCall.Deposit userID amount => (BalanceService.Deposit userID amount w).2
  | BalanceCall.Withdraw userID amount => (BalanceService.Withdraw userID amount w).2
  | BalanceCall.Transfer fromUserID toUserID amount =>
    (BalanceService.Transfer fromUserID toUserID amount w).2

/-- A world with empty tables, no lock held and no scripted failure. -/
def World.empty : World :=
  { now := 0, faults := [], locks := [], balances := [], balanceSeq := 0, carts := [],
    cartItems := [], products := [], orders := [], orderSeq := 0, orderItems := [],
    orderItemSeq := 0, payments := [], paymentSeq := 0, queue := [], redisLog := [],
    cartSeq := 0, cartItemSeq := 0 }

/-- A ledger in which user 1 holds 200 and user 2 holds 10. -/
def ledgerWorld : World :=
  { World.empty with
    balances := [{ ID := 1, UserID := 1, Balance := 200, CreatedAt := 0, UpdatedAt := 0 },
                 { ID := 2, UserID := 2, Balance := 10, CreatedAt := 0, UpdatedAt := 0 }],
    balanceSeq := 2 }

/-- A ledger with decimal amounts: user 1 holds 100.1, user 2 holds 0.1, user 3 holds 1 and
user 4 holds 1e9; each is the `float64` nearest to the decimal. -/
def decimalWorld : World :=
  { World.empty with
    balances := [{ ID := 1, UserID := 1, Balance := Float64.ofDecimal false 1001 (-1),
                   CreatedAt := 0, UpdatedAt := 0 },
                 { ID := 2, UserID := 2, Balance := Float64.ofDecimal false 1 (-1),
                   CreatedAt := 0, UpdatedAt := 0 },
                 { ID := 3, UserID := 3, Balance := 1, CreatedAt := 0, UpdatedAt := 0 },
                 { ID := 4, UserID := 4, Balance := Float64.ofDecimal false 1 9,
                   CreatedAt := 0, UpdatedAt := 0 }],
    balanceSeq := 4 }

/-- User 1 holds 10 and has an order for a total of 0.1 with a pending payment by balance. -/
def decimalPaymentWorld : World :=
  { World.empty with
    balances := [{ ID := 1, UserID := 1, Balance := 10, CreatedAt := 0, UpdatedAt := 0 }],
    balanceSeq := 1,
    orders := [{ ID := 1, UserID := 1, TotalPrice := Float64.ofDecimal false 1 (-1),
                 Status := "pending", CreatedAt := 0 }],
    orderSeq := 1,
    payments := [{ ID := 1, OrderID := 1, PaymentMethod := "balance", PaymentStatus := "pending",
                   CreatedAt := 0, UpdatedAt := 0, ExpiredAt := tenMinutes }],
    paymentSeq := 1 }

/-- The ledger of `ledgerWorld` with an order of user 1 for a total of 50 and its pending
payment by balance. -/
def paymentWorld : World :=
  { ledgerWorld with
    orders := [{ ID := 1, UserID := 1, TotalPrice := 50, Status := "pending", CreatedAt := 0 }],
    orderSeq := 1,
    payments := [{ ID := 1, OrderID := 1, PaymentMethod := "balance", PaymentStatus := "pending",
                   CreatedAt := 0, UpdatedAt := 0, ExpiredAt := tenMinutes }],
    paymentSeq := 1 }

/-- As `paymentWorld`, with the first ten calls to the outside scripted to succeed and the
eleventh, the publish of `MakePayment 1 1`, scripted to fail. -/
def publishFailsWorld : World :=
  { paymentWorld with
    faults := [false, false, false, false, false, false, false, false, false, false, true] }

/-- As `paymentWorld`, with the payment already completed. -/
def settledWorld : World :=
  { paymentWorld with
    payments := [{ ID := 1, OrderID := 1, PaymentMethod := "balance", PaymentStatus := "completed",
                   CreatedAt := 0, UpdatedAt := 0, ExpiredAt := tenMinutes }] }

/-- User 1 has cart 1 with two lines: 2 units of product 1 (price 10, stock 5) and 1 unit of
product 2 (price 5/2, stock 1); product 3 is in no cart. -/
def cartWorld : World :=
  { ledgerWorld with
    carts := [{ ID := 1, UserID := 1, CreatedAt := 0, UpdatedAt := 0 }],
    cartSeq := 1,
    cartItemSeq := 2,
    cartItems := [{ ID := 1, CartID := 1, ProductID := 1, Quantity := 2, CreatedAt := 0,
                    UpdatedAt := 0 },
                  { ID := 2, CartID := 1, ProductID := 2, Quantity := 1, CreatedAt := 0,
                    UpdatedAt := 0 }],
    products := [{ ID := 1, Name := "pen", Description := "", Price := 10, Stock := 5,
                   CategoryID := 1, CreatedAt := 0, UpdatedAt := 0 },
                 { ID := 2, Name := "ink", Description := "",
                   Price := Float64.ofDecimal false 25 (-1), Stock := 1, CategoryID := 1,
                   CreatedAt := 0, UpdatedAt := 0 },
                 { ID := 3, Name := "pad", Description := "", Price := 4, Stock := 7,
                   CategoryID := 1, CreatedAt := 0, UpdatedAt := 0 }] }

/-- One minute as a `time.Duration` (nanoseconds). -/
def oneMinute : Nat := 60 * 1000000000

/-- Eleven minutes after its creation at time 0, the pending payment 1 of order 1 (paid by
bank transfer, two units of product 1, whose stock is 3) has expired. -/
def reaperWorld : World :=
  { World.empty with
    now := tenMinutes + oneMinute,
    products := [{ ID := 1, Name := "pen", Description := "", Price := 10, Stock := 3,
                   CategoryID := 1, CreatedAt := 0, UpdatedAt := 0 }],
    orders := [{ ID := 1, UserID := 1, TotalPrice := 20, Status := "pending", CreatedAt := 0 }],
    orderSeq := 1,
    orderItems := [{ ID := 1, OrderID := 1, ProductID := 1, Quantity := 2, Price := 10 }],
    orderItemSeq := 1,
    payments := [{ ID := 1, OrderID := 1, PaymentMethod := "transfer",
                   PaymentStatus := "pending", CreatedAt := 0, UpdatedAt := 0,
                   ExpiredAt := tenMinutes }],
    paymentSeq := 1 }

/-- The expired payment of `reaperWorld`, as the reaper's query returns it. -/
def reaperPayment : Payment :=
  { ID := 1, OrderID := 1, PaymentMethod := "transfer", PaymentStatus := "pending",
    CreatedAt := 0, UpdatedAt := 0, ExpiredAt := tenMinutes }

/-- As `reaperWorld`, but the expired payment 1 belongs to order 2: order 1 was left without
a payment by a checkout whose payment insert failed, so payment ids and order ids differ. -/
def skewedWorld : World :=
  { reaperWorld with
    orders := [{ ID := 1, UserID := 1, TotalPrice := 20, Status := "pending", CreatedAt := 0 },
               { ID := 2, UserID := 1, TotalPrice := 20, Status := "pending", CreatedAt := 0 }],
    orderSeq := 2,
    orderItems := [{ ID := 1, OrderID := 2, ProductID := 1, Quantity := 2, Price := 10 }],
    payments := [{ ID := 1, OrderID := 2, PaymentMethod := "transfer",
                   PaymentStatus := "pending", CreatedAt := 0, UpdatedAt := 0,
                   ExpiredAt := tenMinutes }] }

/-- As `settledWorld` (order 1 paid by a completed payment), with the order marked `paid`
and a pending, expired payment 2 of another order 2. -/
def paidWorld : World :=
  { settledWorld with
    now := tenMinutes + oneMinute,
    orders := [{ ID := 1, UserID := 1, TotalPrice := 50, Status := "paid", CreatedAt := 0 },
               { ID := 2, UserID := 2, TotalPrice := 20, Status := "pending", CreatedAt := 0 }],
    orderSeq := 2,
    payments := [{ ID := 1, OrderID := 1, PaymentMethod := "balance",
                   PaymentStatus := "completed", CreatedAt := 0, UpdatedAt := 0,
                   ExpiredAt := tenMinutes },
                 { ID := 2, OrderID := 2, PaymentMethod := "transfer",
                   PaymentStatus := "pending", CreatedAt := 0, UpdatedAt := 0,
                   ExpiredAt := tenMinutes }],
    paymentSeq := 2 }

/-- A history over `paidWorld`: a second `MakePayment` for the paid order 1, the paid event
applied again, a reaper tick, which starts the cancellation of payment 2 of order 2, and the
run of that cancellation with a failing first database call. -/
def paidHistory : List (SettlementStep × List Bool) :=
  [(SettlementStep.MakePayment 1 1, []),
   (SettlementStep.UpdateStatusOrder 1 "paid", []),
   (SettlementStep.cancelExpiredPayments, []),
   (SettlementStep.ProcessExpiredPayments 0, [true])]

/-- A history over `paidWorld`: a reaper tick selects the pending, expired payment 2 of order
2; before its goroutine runs, `MakePayment` settles the order and the paid event is applied;
then the goroutine runs. -/
def lateCancellation : List (SettlementStep × List Bool) :=
  [(SettlementStep.cancelExpiredPayments, []),
   (SettlementStep.MakePayment 2 2, []),
   (SettlementStep.UpdateStatusOrder 2 "paid", []),
   (SettlementStep.ProcessExpiredPayments 0, [])]

/-- The world left by a `Checkout` of user 1 in `cartWorld` whose last call, the payment
insert, fails: the order and its items are stored and the stock is decremented, but the order
has no payment. -/
def unpaidOrderWorld : World :=
  (CheckoutService.Checkout 1 "transfer"
    { cartWorld with
      faults := [false, false, false, false, false, false, false, false, false, false, false,
                 true] }).2

/-- User 1 holds 100; nothing else is stored. -/
def raceWorld : World :=
  { World.empty with
    balances := [{ ID := 1, UserID := 1, Balance := 100, CreatedAt := 0, UpdatedAt := 0 }],
    balanceSeq := 1 }

/-- As `cartWorld`, with a second cart, of user 2, that also holds product 1. -/
def sharedProductWorld : World :=
  { cartWorld with
    carts := [{ ID := 1, UserID := 1, CreatedAt := 0, UpdatedAt := 0 },
              { ID := 2, UserID := 2, CreatedAt := 0, UpdatedAt := 0 }],
    cartSeq := 2,
    cartItems := [{ ID := 1, CartID := 1, ProductID := 1, Quantity := 2, CreatedAt := 0,
                    UpdatedAt := 0 },
                  { ID := 2, CartID := 1, ProductID := 2, Quantity := 1, CreatedAt := 0,
                    UpdatedAt := 0 },
                  { ID := 3, CartID := 2, ProductID := 1, Quantity := 4, CreatedAt := 0,
                    UpdatedAt := 0 }],
    cartItemSeq := 3 }

/-- The largest Go `int`, `2^63 - 1`. -/
def maxInt64 : Int := 9223372036854775807

/-- As `cartWorld`, after product 1 has been removed from the catalog: the cart line for it
is still there. -/
def orphanLineWorld : World :=
  { cartWorld with
    products := [{ ID := 2, Name := "ink", Description := "",
                   Price := Float64.ofDecimal false 25 (-1), Stock := 1, CategoryID := 1,
                   CreatedAt := 0, UpdatedAt := 0 }] }

/-- As `reaperWorld`, but the expired order 1 has two items: one unit of product 9, which is
not in the catalog, and two units of product 1 (stock 3). -/
def brokenOrderWorld : World :=
  { reaperWorld with
    orderItems := [{ ID := 1, OrderID := 1, ProductID := 9, Quantity := 1, Price := 10 },
                   { ID := 2, OrderID := 1, ProductID := 1, Quantity := 2, Price := 10 }],
    orderItemSeq := 2 }

/-- As `reaperWorld`, but the expired order 1 has two items, both of product 1 (stock 3): one
unit and two units. -/
def twoItemWorld : World :=
  { reaperWorld with
    orderItems := [{ ID := 1, OrderID := 1, ProductID := 1, Quantity := 1, Price := 10 },
                   { ID := 2, OrderID := 1, ProductID := 1, Quantity := 2, Price := 10 }],
    orderItemSeq := 2 }

/-- As `skewedWorld` (the expired, pending payment 1 belongs to order 2), with order 1 paid by
the completed payment 2. -/
def crossedWorld : World :=
  { skewedWorld with
    orders := [{ ID := 1, UserID := 1, TotalPrice := 20, Status := "paid", CreatedAt := 0 },
               { ID := 2, UserID := 1, TotalPrice := 20, Status := "pending", CreatedAt := 0 }],
    payments := [{ ID := 1, OrderID := 2, PaymentMethod := "transfer",
                   PaymentStatus := "pending", CreatedAt := 0, UpdatedAt := 0,
                   ExpiredAt := tenMinutes },
                 { ID := 2, OrderID := 1, PaymentMethod := "transfer",
                   PaymentStatus := "completed", CreatedAt := 0, UpdatedAt := 0,
                   ExpiredAt := tenMinutes }],
    paymentSeq := 2 }

/-! ## Auxiliary notions of the proofs -/

/-- Value of a decimal digit character, used to read back the digits of a lock key. -/
def digitVal (c : Char) : Nat := c.toNat - 48

/-- What a proof needs to know of the world during a race of two `Withdraw 60` calls on a
balance of 100: no failure is scripted, whether the user's lock is held, and whether the
balance has been debited (40) or not (100). -/
def RaceRel (userID : Nat) (w : World) (held debited : Bool) : Prop :=
  w.faults = [] ∧ (lockKey userID ∈ w.locks ↔ held = true) ∧
  selectBalance w.balances userID = some (if debited then 40 else 100)

/-- The step of one call, seen on the phase and the two flags of `RaceRel`. -/
def viewPhaseStep : WithdrawPhase → Bool → Bool → WithdrawPhase × Bool × Bool
  | WithdrawPhase.start, held, debited =>
    if held then (WithdrawPhase.returned (some lockBusy), held, debited)
    else (WithdrawPhase.locked, true, debited)
  | WithdrawPhase.locked, held, debited =>
    if debited then (WithdrawPhase.stored (some Err.ErrInsufficientBalance), held, debited)
    else (WithdrawPhase.stored none, held, true)
  | WithdrawPhase.stored err, _, debited => (WithdrawPhase.returned err, false, debited)
  | WithdrawPhase.returned err, held, debited => (WithdrawPhase.returned err, held, debited)

/-- The step of the race, seen on the two phases and the two flags. -/
def viewStep (pick : Bool) (v : WithdrawPhase × WithdrawPhase × Bool × Bool) :
    WithdrawPhase × WithdrawPhase × Bool × Bool :=
  if pick then
    (v.1, (viewPhaseStep v.2.1 v.2.2.1 v.2.2.2).1, (viewPhaseStep v.2.1 v.2.2.1 v.2.2.2).2)
  else
    ((viewPhaseStep v.1 v.2.2.1 v.2.2.2).1, v.2.1, (viewPhaseStep v.1 v.2.2.1 v.2.2.2).2)

/-- The race after a schedule, seen on the two phases and the two flags. -/
def viewRun : List Bool → WithdrawPhase × WithdrawPhase × Bool × Bool →
    WithdrawPhase × WithdrawPhase × Bool × Bool
  | [], v => v
  | pick :: schedule, v => viewRun schedule (viewStep pick v)

/-- The views of the race that a schedule can reach from the start. -/
def raceViews : List (WithdrawPhase × WithdrawPhase × Bool × Bool) :=
  [(WithdrawPhase.start, WithdrawPhase.start, false, false),
   (WithdrawPhase.start, WithdrawPhase.locked, true, false),
   (WithdrawPhase.locked, WithdrawPhase.start, true, false),
   (WithdrawPhase.start, WithdrawPhase.stored none, true, true),
   (WithdrawPhase.locked, WithdrawPhase.returned (some lockBusy), true, false),
   (WithdrawPhase.returned (some lockBusy), WithdrawPhase.locked, true, false),
   (WithdrawPhase.stored none, WithdrawPhase.start, true, true),
   (WithdrawPhase.start, WithdrawPhase.returned none, false, true),
   (WithdrawPhase.returned (some lockBusy), WithdrawPhase.stored none, true, true),
   (WithdrawPhase.stored none, WithdrawPhase.returned (some lockBusy), true, true),
   (WithdrawPhase.returned none, WithdrawPhase.start, false, true),
   (WithdrawPhase.returned (some lockBusy), WithdrawPhase.returned none, false, true),
   (WithdrawPhase.returned none, WithdrawPhase.locked, true, true),
   (WithdrawPhase.locked, WithdrawPhase.returned none, true, true),
   (WithdrawPhase.returned none, WithdrawPhase.returned (some lockBusy), false, true),
   (WithdrawPhase.returned none, WithdrawPhase.stored (some Err.ErrInsufficientBalance),
     true, true),
   (WithdrawPhase.stored (some Err.ErrInsufficientBalance), WithdrawPhase.returned none,
     true, true),
   (WithdrawPhase.returned none, WithdrawPhase.returned (some Err.ErrInsufficientBalance),
     false, true),
   (WithdrawPhase.returned (some Err.ErrInsufficientBalance), WithdrawPhase.returned none,
     false, true)]

theorem Float64.zero_eq : (0 : Float64) = Float64.finite 0 0 := by decide

theorem Float64.lt_iff (x y : Float64) : x < y ↔ Float64.lt x y = true := Iff.rfl

theorem Float64.le_iff (x y : Float64) : x ≤ y ↔ Float64.le x y = true := Iff.rfl

/-- As in IEEE 754, `x <= y` excludes `y < x`. -/
theorem Float64.not_lt_of_le (x y : Float64) (h : x ≤ y) : ¬ y < x := by
  rw [Float64.le_iff] at h
  rw [Float64.lt_iff]
  cases x with
  | nan => simp [Float64.le] at h
  | inf s =>
    cases y with
    | nan => simp [Float64.le] at h
    | inf t => cases s <;> cases t <;> simp_all [Float64.le, Float64.lt]
    | finite m e => cases s <;> simp_all [Float64.le, Float64.lt]
  | finite m e =>
    cases y with
    | nan => simp [Float64.le] at h
    | inf t => cases t <;> simp_all [Float64.le, Float64.lt]
    | finite m2 e2 =>
      simp only [Float64.le, decide_eq_true_eq] at h
      simp only [Float64.lt, decide_eq_true_eq, not_lt]
      rw [min_comm e2 e]
      exact h

/-- As in IEEE 754, `x < y` excludes `y <= x`. -/
theorem Float64.not_le_of_lt (x y : Float64) (h : x < y) : ¬ y ≤ x :=
  fun hle => Float64.not_lt_of_le y x hle h

/-- As in IEEE 754, `x < y` gives `x <= y`. -/
theorem Float64.le_of_lt (x y : Float64) (h : x < y) : x ≤ y := by
  rw [Float64.lt_iff] at h
  rw [Float64.le_iff]
  cases x with
  | nan => simp [Float64.lt] at h
  | inf s =>
    cases y with
    | nan => simp [Float64.lt] at h
    | inf t => cases s <;> cases t <;> simp_all [Float64.le, Float64.lt]
    | finite m e => cases s <;> simp_all [Float64.le, Float64.lt]
  | finite m e =>
    cases y with
    | nan => simp [Float64.lt] at h
    | inf t => cases t <;> simp_all [Float64.le, Float64.lt]
    | finite m2 e2 =>
      simp only [Float64.lt, decide_eq_true_eq] at h
      simp only [Float64.le, decide_eq_true_eq]
      exact Int.le_of_lt h

theorem Float64.zero_lt_finite_iff (m e : Int) : (0 : Float64) < Float64.finite m e ↔ 0 < m := by
  rw [Float64.zero_eq, Float64.lt_iff]
  simp only [Float64.lt, decide_eq_true_eq, zero_mul]
  constructor
  · intro h
    by_contra hneg
    have hpos : (0 : Int) ≤ 2 ^ (e - min 0 e).toNat := by positivity
    have : m * 2 ^ (e - min 0 e).toNat ≤ 0 := mul_nonpos_of_nonpos_of_nonneg (not_lt.mp hneg) hpos
    exact absurd h (not_lt.mpr this)
  · intro h
    exact mul_pos h (by positivity)

theorem Float64.zero_le_zero : (0 : Float64) ≤ 0 := by decide

theorem World.fails_of_faults_nil (w : World) (h : w.faults = []) : w.fails = false := by
  simp [World.fails, h]

theorem World.next_of_faults_nil (w : World) (h : w.faults = []) : w.next = w := by
  cases w
  simp_all [World.next]

@[simp] theorem World.next_balances (w : World) : w.next.balances = w.balances := rfl

@[simp] theorem World.next_locks (w : World) : w.next.locks = w.locks := rfl

@[simp] theorem World.next_now (w : World) : w.next.now = w.now := rfl

theorem Redis.AcquireLock_balances (key : String) (w : World) :
    (Redis.AcquireLock key w).2.balances = w.balances := by
  simp only [Redis.AcquireLock]
  split_ifs <;> rfl

theorem Redis.ReleaseLock_balances (key : String) (w : World) :
    (Redis.ReleaseLock key w).2.balances = w.balances := by
  simp only [Redis.ReleaseLock]
  split_ifs <;> rfl

theorem findBalanceRow_updateBalance_same (rows : List Balance) (u : Nat) (nb : Float64)
    (now : Nat) :
    findBalanceRow (updateBalance rows u nb now) u
      = (findBalanceRow rows u).map (fun r => { r with Balance := nb, UpdatedAt := now }) := by
  induction rows with
  | nil => rfl
  | cons r rows ih =>
    by_cases h : r.UserID = u
    · simp [findBalanceRow, updateBalance, h]
    · simpa [findBalanceRow, updateBalance, h] using ih

theorem findBalanceRow_updateBalance_other (rows : List Balance) (u v : Nat) (nb : Float64)
    (now : Nat) (huv : u ≠ v) :
    findBalanceRow (updateBalance rows u nb now) v = findBalanceRow rows v := by
  induction rows with
  | nil => rfl
  | cons r rows ih =>
    by_cases h : r.UserID = u
    · have hv : r.UserID ≠ v := fun hv => huv (h.symm.trans hv)
      simpa [findBalanceRow, updateBalance, h, hv, huv] using ih
    · by_cases hv : r.UserID = v
      · subst hv
        simp [findBalanceRow, updateBalance, h]
      · simpa [findBalanceRow, updateBalance, h, hv] using ih

theorem selectBalance_updateBalance_same (rows : List Balance) (u : Nat) (nb b : Float64)
    (now : Nat) (h : selectBalance rows u = some b) :
    selectBalance (updateBalance rows u nb now) u = some nb := by
  unfold selectBalance at h ⊢
  rw [findBalanceRow_updateBalance_same]
  cases hr : findBalanceRow rows u with
  | none => simp [hr] at h
  | some r => simp

theorem selectBalance_updateBalance_other (rows : List Balance) (u v : Nat) (nb : Float64)
    (now : Nat) (huv : u ≠ v) :
    selectBalance (updateBalance rows u nb now) v = selectBalance rows v := by
  unfold selectBalance
  rw [findBalanceRow_updateBalance_other rows u v nb now huv]

theorem findBalanceRow_updateBalance_balance (rows : List Balance) (u : Nat) (nb : Float64)
    (now : Nat) (x : Balance) (h : findBalanceRow (updateBalance rows u nb now) u = some x) :
    x.Balance = nb := by
  rw [findBalanceRow_updateBalance_same] at h
  cases hr : findBalanceRow rows u with
  | none => simp [hr] at h
  | some r =>
    simp only [hr, Option.map_some', Option.some.injEq] at h
    rw [← h]

/-! ## Lock keys -/

theorem digitVal_digitChar (m : Nat) (h : m < 10) : digitVal (Nat.digitChar m) = m := by
  interval_cases m <;> rfl

theorem foldl_toDigitsCore (fuel : Nat) : ∀ (n : Nat) (ds : List Char), n < fuel →
    (Nat.toDigitsCore 10 fuel n ds).foldl (fun acc c => acc * 10 + digitVal c) 0
      = ds.foldl (fun acc c => acc * 10 + digitVal c) n := by
  induction fuel with
  | zero => intro n ds h; omega
  | succ fuel ih =>
    intro n ds h
    unfold Nat.toDigitsCore
    by_cases h0 : n / 10 = 0
    · have hn : n < 10 := by omega
      simp only [h0, if_true, List.foldl_cons]
      rw [digitVal_digitChar _ (Nat.mod_lt _ (by decide)), Nat.mod_eq_of_lt hn]
      simp
    · simp only [h0, if_false]
      rw [ih (n / 10) _ (by omega)]
      simp only [List.foldl_cons]
      rw [digitVal_digitChar _ (Nat.mod_lt _ (by decide))]
      congr 1
      omega

theorem toString_nat_injective (a b : Nat) (h : toString a = toString b) : a = b := by
  have h1 : Nat.toDigits 10 a = Nat.toDigits 10 b := by
    have := congrArg String.data h
    simpa [toString, Nat.repr, List.asString] using this
  have := congrArg (List.foldl (fun acc c => acc * 10 + digitVal c) 0) h1
  unfold Nat.toDigits at this
  rw [foldl_toDigitsCore _ _ _ (Nat.lt_succ_self a),
    foldl_toDigitsCore _ _ _ (Nat.lt_succ_self b)] at this
  simpa using this

theorem lockKey_injective (a b : Nat) (h : lockKey a = lockKey b) : a = b := by
  apply toString_nat_injective
  unfold lockKey at h
  have := congrArg String.data h
  simp only [String.data_append, List.append_cancel_left_eq] at this
  exact String.ext this

/-! ## Withdraw and Deposit -/

/-- C1 (as amended): for a user whose balance row holds `b`, every amount `a` (in particular
every `a > 0`), the user's lock free and no infrastructure failure, `Withdraw` fails with
`ErrInsufficientBalance` and leaves the ledger as it was (the stored balance is still `b`)
when `b < a`; when `a ≤ b` it returns `nil` and the stored balance is the `float64`
difference `b - a`: the exact difference rounded to the nearest `float64`. -/
theorem Withdraw_insufficient_or_debited (w : World) (userID : Nat) (b a : Float64)
    (hrow : selectBalance w.balances userID = some b)
    (hlock : lockKey userID ∉ w.locks) (hfaults : w.faults = []) :
    (b < a →
      (BalanceService.Withdraw userID a w).1 = some Err.ErrInsufficientBalance ∧
      (BalanceService.Withdraw userID a w).2.balances = w.balances ∧
      selectBalance (BalanceService.Withdraw userID a w).2.balances userID = some b) ∧
    (a ≤ b →
      (BalanceService.Withdraw userID a w).1 = none ∧
      selectBalance (BalanceService.Withdraw userID a w).2.balances userID = some (b - a)) := by
  constructor
  · intro hlt
    simp [BalanceService.Withdraw, Redis.AcquireLock, Redis.ReleaseLock,
      BalanceRepository.Withdraw, World.fails, World.next, hfaults, hlock, hrow, hlt]
  · intro hle
    have hnlt : ¬ b < a := Float64.not_lt_of_le a b hle
    simp [BalanceService.Withdraw, Redis.AcquireLock, Redis.ReleaseLock,
      BalanceRepository.Withdraw, World.fails, World.next, hfaults, hlock, hrow, hnlt]
    exact selectBalance_updateBalance_same _ _ _ _ _ hrow

/-- C2 (as amended): for a user whose balance row holds `b`, every amount `a` (in particular
every `a > 0`), the user's lock free and no infrastructure failure, `Deposit` succeeds, and
the stored balance and the returned `DepositResponse.Balance` are both the `float64` sum
`b + a`: the exact sum rounded to the nearest `float64`. -/
theorem Deposit_credited (w : World) (userID : Nat) (b a : Float64)
    (hrow : selectBalance w.balances userID = some b)
    (hlock : lockKey userID ∉ w.locks) (hfaults : w.faults = []) :
    (BalanceService.Deposit userID a w).1 = Except.ok { Balance := b + a } ∧
    selectBalance (BalanceService.Deposit userID a w).2.balances userID = some (b + a) := by
  have hnew := selectBalance_updateBalance_same w.balances userID (b + a) b w.now hrow
  simp [BalanceService.Deposit, Redis.AcquireLock, Redis.ReleaseLock,
    BalanceRepository.Deposit, BalanceRepository.GetBalance, World.fails, World.next,
    hfaults, hlock, hrow, hnew]

/-! ## Transfer -/

theorem BalanceRepository.Transfer_repo_error (s r : Nat) (a : Float64) (w w' : World) (e : Err)
    (h : BalanceRepository.Transfer s r a w = (Except.error e, w')) :
    w'.balances = w.balances ∧ w'.locks = w.locks := by
  simp only [BalanceRepository.Transfer] at h
  by_cases h1 : s = r
  · rw [if_pos h1] at h
    simp only [Prod.mk.injEq] at h
    obtain ⟨-, rfl⟩ := h
    exact ⟨rfl, rfl⟩
  · rw [if_neg h1] at h
    repeat' split at h
    all_goals simp only [Prod.mk.injEq, reduceCtorEq, false_and] at h
    all_goals (obtain ⟨-, rfl⟩ := h; exact ⟨rfl, rfl⟩)

theorem BalanceRepository.Transfer_repo_ok (s r : Nat) (a : Float64) (w w' : World)
    (us ur : Balance)
    (h : BalanceRepository.Transfer s r a w = (Except.ok (us, ur), w')) :
    ∃ bs br, s ≠ r ∧ selectBalance w.balances s = some bs ∧
      selectBalance w.balances r = some br ∧
      ¬ bs < a ∧ us.Balance = bs - a ∧ ur.Balance = br + a ∧
      w'.balances = updateBalance (updateBalance w.balances s (bs - a) w.now) r (br + a) w.now ∧
      w'.locks = w.locks := by
  simp only [BalanceRepository.Transfer] at h
  by_cases h1 : s = r
  · rw [if_pos h1] at h
    simp at h
  · rw [if_neg h1] at h
    repeat' split at h
    all_goals simp only [Prod.mk.injEq, reduceCtorEq, false_and] at h
    rename_i _ _ _ bs hbs hnlt _ _ br hbr _ _ _ _ us0 hus _ _ ur0 hur _
    simp only [World.next_balances, World.next_now] at hbs hbr hus hur h
    obtain ⟨hres, rfl⟩ := h
    simp only [Except.ok.injEq, Prod.mk.injEq] at hres
    obtain ⟨rfl, rfl⟩ := hres
    refine ⟨bs, br, h1, hbs, hbr, hnlt, ?_, ?_, rfl, rfl⟩
    · rw [findBalanceRow_updateBalance_other _ _ _ _ _ (Ne.symm h1)] at hus
      exact findBalanceRow_updateBalance_balance _ _ _ _ _ hus
    · exact findBalanceRow_updateBalance_balance _ _ _ _ _ hur

/-- Without infrastructure failures the ledger transaction of a transfer between two
distinct users with rows commits the debit and the credit and returns the updated rows. -/
theorem BalanceRepository.Transfer_of_faults_nil (s r : Nat) (a : Float64) (w : World)
    (rs rr : Balance) (hfaults : w.faults = []) (hsr : s ≠ r)
    (hs : findBalanceRow w.balances s = some rs) (hr : findBalanceRow w.balances r = some rr)
    (hle : ¬ rs.Balance < a) :
    BalanceRepository.Transfer s r a w =
      (Except.ok ({ rs with Balance := rs.Balance - a, UpdatedAt := w.now },
                  { rr with Balance := rr.Balance + a, UpdatedAt := w.now }),
        { w with balances := updateBalance (updateBalance w.balances s (rs.Balance - a) w.now)
                               r (rr.Balance + a) w.now }) := by
  have hf := World.fails_of_faults_nil w hfaults
  have hn := World.next_of_faults_nil w hfaults
  simp [BalanceRepository.Transfer, hf, hn, hsr, selectBalance, hs, hr, hle,
    findBalanceRow_updateBalance_same, findBalanceRow_updateBalance_other _ _ _ _ _ hsr,
    findBalanceRow_updateBalance_other _ _ _ _ _ (Ne.symm hsr)]

theorem Redis.AcquireLock_balances_of_eq (key : String) (w w' : World) (x : Bool × Option Err)
    (h : Redis.AcquireLock key w = (x, w')) : w'.balances = w.balances := by
  have := Redis.AcquireLock_balances key w
  rw [h] at this
  exact this

theorem BalanceService.Transfer_svc_error (s r : Nat) (a : Float64) (w w' : World) (e : Err)
    (h : BalanceService.Transfer s r a w = (Except.error e, w')) :
    w'.balances = w.balances := by
  simp only [BalanceService.Transfer] at h
  by_cases h1 : a ≤ 0
  · rw [if_pos h1] at h
    simp only [Prod.mk.injEq] at h
    rw [← h.2]
  · rw [if_neg h1] at h
    by_cases h2 : s = r
    · rw [if_pos h2] at h
      simp only [Prod.mk.injEq] at h
      rw [← h.2]
    · rw [if_neg h2] at h
      split at h
      · rename_i heq
        simp only [Prod.mk.injEq] at h
        rw [← h.2]
        exact Redis.AcquireLock_balances_of_eq _ _ _ _ heq
      · rename_i heq
        simp only [Prod.mk.injEq] at h
        rw [← h.2]
        exact Redis.AcquireLock_balances_of_eq _ _ _ _ heq
      · rename_i w1 heq1
        have hb1 := Redis.AcquireLock_balances_of_eq _ _ _ _ heq1
        split at h
        · rename_i heq2
          simp only [Prod.mk.injEq] at h
          rw [← h.2, Redis.ReleaseLock_balances,
            Redis.AcquireLock_balances_of_eq _ _ _ _ heq2, hb1]
        · rename_i heq2
          simp only [Prod.mk.injEq] at h
          rw [← h.2, Redis.ReleaseLock_balances,
            Redis.AcquireLock_balances_of_eq _ _ _ _ heq2, hb1]
        · rename_i w2 heq2
          have hb2 := Redis.AcquireLock_balances_of_eq _ _ _ _ heq2
          split at h
          · rename_i e0 w3 heq3
            simp only [Prod.mk.injEq] at h
            rw [← h.2, Redis.ReleaseLock_balances, Redis.ReleaseLock_balances,
              (BalanceRepository.Transfer_repo_error _ _ _ _ _ _ heq3).1, hb2, hb1]
          · simp at h

theorem BalanceService.Transfer_svc_ok (s r : Nat) (a : Float64) (w w' : World)
    (resp : TransferResponse)
    (h : BalanceService.Transfer s r a w = (Except.ok resp, w')) :
    ∃ w1 w2 us ur, ¬ a ≤ 0 ∧ w1.balances = w.balances ∧
      BalanceRepository.Transfer s r a w1 = (Except.ok (us, ur), w2) ∧
      w'.balances = w2.balances ∧
      resp = { From := { UserID := s, Balance := us.Balance },
               To := { UserID := r, Balance := ur.Balance } } := by
  simp only [BalanceService.Transfer] at h
  by_cases h1 : a ≤ 0
  · rw [if_pos h1] at h
    simp at h
  · rw [if_neg h1] at h
    by_cases h2 : s = r
    · rw [if_pos h2] at h
      simp at h
    · rw [if_neg h2] at h
      split at h
      · simp at h
      · simp at h
      · rename_i w1 heq1
        have hb1 := Redis.AcquireLock_balances_of_eq _ _ _ _ heq1
        split at h
        · simp at h
        · simp at h
        · rename_i w2 heq2
          have hb2 := Redis.AcquireLock_balances_of_eq _ _ _ _ heq2
          split at h
          · simp at h
          · rename_i us ur w3 heq3
            simp only [Prod.mk.injEq, Except.ok.injEq] at h
            refine ⟨w2, w3, us, ur, h1, by rw [hb2, hb1], heq3, ?_, h.1.symm⟩
            rw [← h.2, Redis.ReleaseLock_balances, Redis.ReleaseLock_balances]
/-- C3 (as amended): for distinct users `s` and `r` whose balance rows hold `bs` and `br`, an
amount `a` with `0 < a ≤ bs`, both locks free and no infrastructure failure, `Transfer s r a`
succeeds, stores the `float64` difference `bs - a` for `s` and the `float64` sum `br + a` for
`r` (the exact results rounded to the nearest `float64`), and returns `From = (s, bs - a)`
and `To = (r, br + a)`. -/
theorem Transfer_moves_amount (w : World) (s r : Nat) (bs br a : Float64)
    (hsr : s ≠ r) (hs : selectBalance w.balances s = some bs)
    (hr : selectBalance w.balances r = some br) (ha : 0 < a) (hle : a ≤ bs)
    (hls : lockKey s ∉ w.locks) (hlr : lockKey r ∉ w.locks) (hfaults : w.faults = []) :
    (BalanceService.Transfer s r a w).1 =
      Except.ok { From := { UserID := s, Balance := bs - a },
                  To := { UserID := r, Balance := br + a } } ∧
    selectBalance (BalanceService.Transfer s r a w).2.balances s = some (bs - a) ∧
    selectBalance (BalanceService.Transfer s r a w).2.balances r = some (br + a) := by
  obtain ⟨rs, hrs, rfl⟩ := Option.map_eq_some'.mp hs
  obtain ⟨rr, hrr, rfl⟩ := Option.map_eq_some'.mp hr
  have hk : lockKey s ≠ lockKey r := fun h => hsr (lockKey_injective s r h)
  have hna : ¬ a ≤ 0 := Float64.not_le_of_lt 0 a ha
  have hnlt : ¬ rs.Balance < a := Float64.not_lt_of_le a rs.Balance hle
  have hsel_s : selectBalance (updateBalance (updateBalance w.balances s (rs.Balance - a) w.now)
      r (rr.Balance + a) w.now) s = some (rs.Balance - a) := by
    rw [selectBalance_updateBalance_other _ _ _ _ _ (Ne.symm hsr)]
    exact selectBalance_updateBalance_same _ _ _ _ _ hs
  have hsel_r : selectBalance (updateBalance (updateBalance w.balances s (rs.Balance - a) w.now)
      r (rr.Balance + a) w.now) r = some (rr.Balance + a) := by
    apply selectBalance_updateBalance_same _ _ _ rr.Balance
    rw [selectBalance_updateBalance_other _ _ _ _ _ hsr]
    exact hr
  by_cases hlt : r < s
  · have ht := BalanceRepository.Transfer_of_faults_nil s r a
      { w with locks := lockKey s :: lockKey r :: w.locks, faults := [],
               redisLog := w.redisLog ++ [RedisCall.AcquireLock (lockKey r) true,
                                          RedisCall.AcquireLock (lockKey s) true] }
      rs rr rfl hsr hrs hrr hnlt
    simp only [] at ht
    simp [BalanceService.Transfer, Redis.AcquireLock, Redis.ReleaseLock_balances, World.fails,
      World.next, hfaults, hna, hsr, hlt, hls, hlr, hk, hk.symm, ht, hsel_s, hsel_r]
  · have ht := BalanceRepository.Transfer_of_faults_nil s r a
      { w with locks := lockKey r :: lockKey s :: w.locks, faults := [],
               redisLog := w.redisLog ++ [RedisCall.AcquireLock (lockKey s) true,
                                          RedisCall.AcquireLock (lockKey r) true] }
      rs rr rfl hsr hrs hrr hnlt
    simp only [] at ht
    simp [BalanceService.Transfer, Redis.AcquireLock, Redis.ReleaseLock_balances, World.fails,
      World.next, hfaults, hna, hsr, hlt, hls, hlr, hk, hk.symm, ht, hsel_s, hsel_r]

/-- C4 (as amended): whatever the locks held and whatever infrastructure calls fail, a call
of `Transfer` either returns success, and then the sender's stored balance went from `bs` to
the `float64` difference `bs - a`, the receiver's from `br` to the `float64` sum `br + a` and
no other user's balance changed, or it returns an error, and then the whole ledger table is
exactly what it was before the call.  Both writes are made or none; after rounding, one of
the two stored values can equal the old one. -/
theorem Transfer_atomic (w : World) (s r : Nat) (a : Float64) :
    match BalanceService.Transfer s r a w with
    | (Except.ok _, w') =>
      ∃ bs br, selectBalance w.balances s = some bs ∧ selectBalance w.balances r = some br ∧
        selectBalance w'.balances s = some (bs - a) ∧
        selectBalance w'.balances r = some (br + a) ∧
        ∀ u, u ≠ s → u ≠ r → selectBalance w'.balances u = selectBalance w.balances u
    | (Except.error _, w') => w'.balances = w.balances := by
  cases h : BalanceService.Transfer s r a w with
  | mk res w' =>
    cases res with
    | error e => exact BalanceService.Transfer_svc_error s r a w w' e h
    | ok resp =>
      obtain ⟨w1, w2, us, ur, -, hb1, hrepo, hb2, -⟩ :=
        BalanceService.Transfer_svc_ok s r a w w' resp h
      obtain ⟨bs, br, hsr, hs, hr, -, -, -, hb3, -⟩ :=
        BalanceRepository.Transfer_repo_ok s r a w1 w2 us ur hrepo
      rw [hb1] at hs hr hb3
      refine ⟨bs, br, hs, hr, ?_, ?_, ?_⟩
      · show selectBalance w'.balances s = some (bs - a)
        rw [hb2, hb3, selectBalance_updateBalance_other _ _ _ _ _ (Ne.symm hsr)]
        exact selectBalance_updateBalance_same _ _ _ _ _ hs
      · show selectBalance w'.balances r = some (br + a)
        rw [hb2, hb3]
        apply selectBalance_updateBalance_same _ _ _ br
        rw [selectBalance_updateBalance_other _ _ _ _ _ hsr]
        exact hr
      · intro u hus hur
        show selectBalance w'.balances u = selectBalance w.balances u
        rw [hb2, hb3, selectBalance_updateBalance_other _ _ _ _ _ (Ne.symm hur),
          selectBalance_updateBalance_other _ _ _ _ _ (Ne.symm hus)]

/-! ## Non-negativity of the ledger -/

theorem ledgerWorld_select_one : selectBalance ledgerWorld.balances 1 = some 200 := by
  simp [selectBalance, findBalanceRow, ledgerWorld]

theorem ledgerWorld_select_two : selectBalance ledgerWorld.balances 2 = some 10 := by
  simp [selectBalance, findBalanceRow, ledgerWorld]

theorem ledgerWorld_locks (k : String) : k ∉ ledgerWorld.locks := by
  simp [ledgerWorld, World.empty]

/-- Witness of C1: user 1 holds 200; withdrawing 250 is refused and withdrawing 200 (the
boundary `b = a`) leaves 0. -/
theorem Withdraw_insufficient_or_debited_witness :
    ((BalanceService.Withdraw 1 250 ledgerWorld).1 = some Err.ErrInsufficientBalance ∧
      (BalanceService.Withdraw 1 250 ledgerWorld).2.balances = ledgerWorld.balances ∧
      selectBalance (BalanceService.Withdraw 1 250 ledgerWorld).2.balances 1 = some 200) ∧
    ((BalanceService.Withdraw 1 200 ledgerWorld).1 = none ∧
      selectBalance (BalanceService.Withdraw 1 200 ledgerWorld).2.balances 1 = some (200 - 200)) :=
  ⟨(Withdraw_insufficient_or_debited ledgerWorld 1 200 250 ledgerWorld_select_one
      (ledgerWorld_locks _) rfl).1 (by decide),
   (Withdraw_insufficient_or_debited ledgerWorld 1 200 200 ledgerWorld_select_one
      (ledgerWorld_locks _) rfl).2 (by decide)⟩

/-- Witness of C2: user 2 holds 10; depositing 5 returns and stores `10 + 5`. -/
theorem Deposit_credited_witness :
    (BalanceService.Deposit 2 5 ledgerWorld).1 = Except.ok { Balance := 10 + 5 } ∧
    selectBalance (BalanceService.Deposit 2 5 ledgerWorld).2.balances 2 = some (10 + 5) :=
  Deposit_credited ledgerWorld 2 10 5 ledgerWorld_select_two (ledgerWorld_locks _) rfl

/-- Witness of C3, the example of the specification: balances 200 and 10 with amount 50
give 150 and 60. -/
theorem Transfer_moves_amount_witness :
    (BalanceService.Transfer 1 2 50 ledgerWorld).1 =
      Except.ok { From := { UserID := 1, Balance := 150 },
                  To := { UserID := 2, Balance := 60 } } ∧
    selectBalance (BalanceService.Transfer 1 2 50 ledgerWorld).2.balances 1 = some 150 ∧
    selectBalance (BalanceService.Transfer 1 2 50 ledgerWorld).2.balances 2 = some 60 := by
  have h := Transfer_moves_amount ledgerWorld 1 2 200 10 50 (by decide) ledgerWorld_select_one
    ledgerWorld_select_two (by decide) (by decide) (ledgerWorld_locks _)
    (ledgerWorld_locks _) rfl
  have h150 : (200 - 50 : Float64) = 150 := by decide
  have h60 : (10 + 50 : Float64) = 60 := by decide
  rw [h150, h60] at h
  exact h

theorem findPayment_updatePayments (rows : List Payment) (orderID : Int) (d : Payment)
    (now : Nat) :
    findPayment (updatePayments rows orderID d now) orderID
      = (findPayment rows orderID).map (fun p =>
          { p with UpdatedAt := now,
                   PaymentMethod := coalesce (nullString d.PaymentMethod) p.PaymentMethod,
                   PaymentStatus := coalesce (nullString d.PaymentStatus) p.PaymentStatus }) := by
  induction rows with
  | nil => rfl
  | cons r rows ih =>
    by_cases h : r.OrderID = orderID
    · simp [findPayment, updatePayments, h]
    · simpa [findPayment, updatePayments, h] using ih

theorem filter_ne_of_not_mem (k : String) (l : List String) (h : k ∉ l) :
    l.filter (fun x => decide (x ≠ k)) = l := by
  rw [List.filter_eq_self]
  intro x hx
  have : x ≠ k := fun e => h (e ▸ hx)
  simpa using this

/-- Without infrastructure failures, a payment by balance of a not yet completed payment
whose order belongs to the user and is covered by the balance debits the balance, marks the
payment completed and publishes the paid event. -/
theorem MakePayment_balance_settles (w : World) (userID orderID : Int) (p : Payment)
    (order : Order) (b : Float64) (hfaults : w.faults = [])
    (hfind : findPayment w.payments orderID = some p)
    (hstatus : p.PaymentStatus ≠ "completed") (hmethod : p.PaymentMethod = "balance")
    (horder : findOrder w.orders orderID userID = some order)
    (hbal : selectBalance w.balances (toUint64 userID) = some b)
    (hle : order.TotalPrice ≤ b) (hlock : lockKey (toUint64 userID) ∉ w.locks) :
    PaymentService.MakePayment userID orderID w =
      (GoResult.returned none,
        { w with
          balances := updateBalance w.balances (toUint64 userID) (b - order.TotalPrice) w.now,
          payments := updatePayments w.payments orderID (completedPayment orderID) w.now,
          queue := w.queue ++ [paidEvent orderID],
          redisLog := w.redisLog ++
            [RedisCall.AcquireLock (lockKey (toUint64 userID)) true,
             RedisCall.ReleaseLock (lockKey (toUint64 userID)) true] }) := by
  have hnlt : ¬ b < order.TotalPrice := Float64.not_lt_of_le _ _ hle
  have hfilter := filter_ne_of_not_mem _ _ hlock
  obtain ⟨now, faults, locks, balances, balanceSeq, carts, cartItems, products, orders,
    orderSeq, orderItems, orderItemSeq, payments, paymentSeq, queue, redisLog,
    cartSeq, cartItemSeq⟩ := w
  simp only at hfaults hfind horder hbal hlock hfilter
  subst hfaults
  simp [PaymentService.MakePayment, PaymentRepository.FindByUserIDandOrderID,
    OrderRepository.FindOne, PaymentService.MakePayment.balanceLeg,
    BalanceRepository.GetBalance, BalanceService.Withdraw, BalanceRepository.Withdraw,
    Redis.AcquireLock, Redis.ReleaseLock, PaymentRepository.Update, RabbitMq.Publish,
    World.fails, World.next, hfind, hstatus, hmethod, horder, hbal, hnlt, hlock]
  simpa using hfilter

/-- A payment already completed is settled without touching anything. -/
theorem MakePayment_of_completed (w : World) (userID orderID : Int) (p : Payment)
    (hfaults : w.faults = []) (hfind : findPayment w.payments orderID = some p)
    (hstatus : p.PaymentStatus = "completed") :
    PaymentService.MakePayment userID orderID w = (GoResult.returned none, w) := by
  have hn := World.next_of_faults_nil w hfaults
  have hf := World.fails_of_faults_nil w hfaults
  simp [PaymentService.MakePayment, PaymentRepository.FindByUserIDandOrderID, hf, hn, hfind,
    hstatus]

/-- C6: `MakePayment` is idempotent on a completed payment.  Without infrastructure
failures, when the payment found for the order has status `completed` the call returns `nil`
and leaves the whole world (balances, payments, orders, queue, locks) as it was; consequently,
after a first call has settled a pending balance payment (debiting `b` to `b - T`), a second
call returns `nil` and changes nothing, so the balance is debited exactly once. -/
theorem MakePayment_completed_idempotent (w : World) (userID orderID : Int) (p : Payment)
    (hfaults : w.faults = []) (hfind : findPayment w.payments orderID = some p) :
    (p.PaymentStatus = "completed" →
      PaymentService.MakePayment userID orderID w = (GoResult.returned none, w)) ∧
    (∀ (order : Order) (b : Float64), p.PaymentStatus ≠ "completed" →
      p.PaymentMethod = "balance" →
      findOrder w.orders orderID userID = some order →
      selectBalance w.balances (toUint64 userID) = some b → order.TotalPrice ≤ b →
      lockKey (toUint64 userID) ∉ w.locks →
      (PaymentService.MakePayment userID orderID w).1 = GoResult.returned none ∧
      PaymentService.MakePayment userID orderID (PaymentService.MakePayment userID orderID w).2
        = (GoResult.returned none, (PaymentService.MakePayment userID orderID w).2) ∧
      selectBalance (PaymentService.MakePayment userID orderID w).2.balances (toUint64 userID)
        = some (b - order.TotalPrice)) := by
  refine ⟨MakePayment_of_completed w userID orderID p hfaults hfind, ?_⟩
  intro order b hstatus hmethod horder hbal hle hlock
  rw [MakePayment_balance_settles w userID orderID p order b hfaults hfind hstatus hmethod
    horder hbal hle hlock]
  dsimp only
  refine ⟨rfl, ?_, selectBalance_updateBalance_same _ _ _ _ _ hbal⟩
  refine MakePayment_of_completed _ userID orderID
    { p with UpdatedAt := w.now,
             PaymentMethod := coalesce (nullString (completedPayment orderID).PaymentMethod)
               p.PaymentMethod,
             PaymentStatus := coalesce (nullString (completedPayment orderID).PaymentStatus)
               p.PaymentStatus } ?_ ?_ ?_
  · exact hfaults
  · show findPayment (updatePayments w.payments orderID (completedPayment orderID) w.now)
      orderID = _
    rw [findPayment_updatePayments, hfind]
    rfl
  · simp [completedPayment, nullString, coalesce]

/-- C7 (as amended): for a pending payment with method `balance` on an order owned by
`userID` with total price `T`, the user's balance being `b` and no infrastructure failure: if
`b < T`,
`MakePayment` fails with `ErrInsufficientBalance` and leaves the whole world (balance, payment
status, queue) unchanged; if `T ≤ b` and the user's lock is free, it returns `nil`, the balance
becomes the `float64` difference `b - T` (the exact difference rounded to the nearest
`float64`), the payment found for the order has status `completed`, and exactly one event
`{orderID, "paid"}` has been appended to the queue. -/
theorem MakePayment_by_balance (w : World) (userID orderID : Int) (p : Payment) (order : Order)
    (b : Float64) (hfaults : w.faults = []) (hfind : findPayment w.payments orderID = some p)
    (hpending : p.PaymentStatus = "pending") (hmethod : p.PaymentMethod = "balance")
    (horder : findOrder w.orders orderID userID = some order)
    (hbal : selectBalance w.balances (toUint64 userID) = some b) :
    (b < order.TotalPrice →
      PaymentService.MakePayment userID orderID w
        = (GoResult.returned (some Err.ErrInsufficientBalance), w)) ∧
    (order.TotalPrice ≤ b → lockKey (toUint64 userID) ∉ w.locks →
      (PaymentService.MakePayment userID orderID w).1 = GoResult.returned none ∧
      selectBalance (PaymentService.MakePayment userID orderID w).2.balances (toUint64 userID)
        = some (b - order.TotalPrice) ∧
      (∃ p', findPayment (PaymentService.MakePayment userID orderID w).2.payments orderID
          = some p' ∧ p'.PaymentStatus = "completed") ∧
      (PaymentService.MakePayment userID orderID w).2.queue
        = w.queue ++ [{ QueueName := QueueName.QueueUpdateStock,
                        Messages := { OrderID := orderID, Status := "paid" } }]) := by
  have hstatus : p.PaymentStatus ≠ "completed" := by rw [hpending]; decide
  constructor
  · intro hlt
    have hn := World.next_of_faults_nil w hfaults
    have hf := World.fails_of_faults_nil w hfaults
    simp [PaymentService.MakePayment, PaymentRepository.FindByUserIDandOrderID,
      OrderRepository.FindOne, PaymentService.MakePayment.balanceLeg,
      BalanceRepository.GetBalance, hf, hn, hfind, hstatus, hmethod, horder, hbal, hlt]
  · intro hle hlock
    rw [MakePayment_balance_settles w userID orderID p order b hfaults hfind hstatus hmethod
      horder hbal hle hlock]
    dsimp only
    refine ⟨rfl, selectBalance_updateBalance_same _ _ _ _ _ hbal, ?_, rfl⟩
    refine ⟨{ p with UpdatedAt := w.now,
                     PaymentMethod := coalesce (nullString (completedPayment orderID).PaymentMethod)
                       p.PaymentMethod,
                     PaymentStatus := coalesce (nullString (completedPayment orderID).PaymentStatus)
                       p.PaymentStatus }, ?_, ?_⟩
    · show findPayment (updatePayments w.payments orderID (completedPayment orderID) w.now)
        orderID = _
      rw [findPayment_updatePayments, hfind]
      rfl
    · simp [completedPayment, nullString, coalesce]

/-- C8 (evaluation of the code): with no payment stored for the order, `MakePayment` reads
`existPayment.PaymentStatus` through the nil pointer returned by the payment store and
panics; it does not return a not-found error.  Nothing is written before the panic. -/
theorem MakePayment_missing_payment_panics :
    PaymentService.MakePayment 1 1 World.empty = (GoResult.panic, World.empty) ∧
    (PaymentService.MakePayment 1 1 World.empty).1
      ≠ GoResult.returned (some Err.ErrDataNotFound) := by
  have h : PaymentService.MakePayment 1 1 World.empty = (GoResult.panic, World.empty) := rfl
  refine ⟨h, ?_⟩
  rw [h]
  simp

/-! ## Instances of the payment theorems -/

theorem paymentWorld_select : selectBalance paymentWorld.balances (toUint64 1) = some 200 := by
  simp [selectBalance, findBalanceRow, paymentWorld, ledgerWorld, toUint64]

theorem paymentWorld_locks (k : String) : k ∉ paymentWorld.locks := by
  simp [paymentWorld, ledgerWorld, World.empty]

/-- Witness of C6: in `settledWorld` the call changes nothing; in `paymentWorld` the first
call settles the payment and the second changes nothing, the balance being `200 - 50`. -/
theorem MakePayment_completed_idempotent_witness :
    PaymentService.MakePayment 1 1 settledWorld = (GoResult.returned none, settledWorld) ∧
    ((PaymentService.MakePayment 1 1 paymentWorld).1 = GoResult.returned none ∧
      PaymentService.MakePayment 1 1 (PaymentService.MakePayment 1 1 paymentWorld).2
        = (GoResult.returned none, (PaymentService.MakePayment 1 1 paymentWorld).2) ∧
      selectBalance (PaymentService.MakePayment 1 1 paymentWorld).2.balances (toUint64 1)
        = some (200 - 50)) :=
  ⟨(MakePayment_completed_idempotent settledWorld 1 1
      { ID := 1, OrderID := 1, PaymentMethod := "balance", PaymentStatus := "completed",
        CreatedAt := 0, UpdatedAt := 0, ExpiredAt := tenMinutes } rfl rfl).1 rfl,
   (MakePayment_completed_idempotent paymentWorld 1 1
      { ID := 1, OrderID := 1, PaymentMethod := "balance", PaymentStatus := "pending",
        CreatedAt := 0, UpdatedAt := 0, ExpiredAt := tenMinutes } rfl rfl).2
      { ID := 1, UserID := 1, TotalPrice := 50, Status := "pending", CreatedAt := 0 } 200
      (by decide) rfl rfl paymentWorld_select (by decide) (paymentWorld_locks _)⟩

/-- Witness of C7: in `paymentWorld` (balance 200, total 50) the payment is settled: the
balance becomes `200 - 50`, the payment is completed and the paid event is queued. -/
theorem MakePayment_by_balance_witness :
    (PaymentService.MakePayment 1 1 paymentWorld).1 = GoResult.returned none ∧
    selectBalance (PaymentService.MakePayment 1 1 paymentWorld).2.balances (toUint64 1)
      = some (200 - 50) ∧
    (∃ p', findPayment (PaymentService.MakePayment 1 1 paymentWorld).2.payments 1 = some p' ∧
      p'.PaymentStatus = "completed") ∧
    (PaymentService.MakePayment 1 1 paymentWorld).2.queue
      = paymentWorld.queue ++ [{ QueueName := QueueName.QueueUpdateStock,
                                 Messages := { OrderID := 1, Status := "paid" } }] :=
  (MakePayment_by_balance paymentWorld 1 1
      { ID := 1, OrderID := 1, PaymentMethod := "balance", PaymentStatus := "pending",
        CreatedAt := 0, UpdatedAt := 0, ExpiredAt := tenMinutes }
      { ID := 1, UserID := 1, TotalPrice := 50, Status := "pending", CreatedAt := 0 } 200
      rfl rfl rfl rfl rfl paymentWorld_select).2 (by decide) (paymentWorld_locks _)

/-! ## Checkout -/

theorem findProduct_updateStock (rows : List Product) (pid : Int) (ns : Int) (id : Int) :
    findProduct (updateStock rows pid ns) id
      = (findProduct rows id).map (fun p => if p.ID = pid then { p with Stock := ns } else p) := by
  unfold findProduct updateStock
  rw [List.find?_map]
  have hcomp : ((fun p : Product => decide (p.ID = id)) ∘
      fun p => if p.ID = pid then { p with Stock := ns } else p)
      = fun p : Product => decide (p.ID = id) := by
    funext p
    simp only [Function.comp_apply]
    split <;> rfl
  rw [hcomp]

theorem priceOf_updateStock (rows : List Product) (pid : Int) (ns : Int) (id : Int) :
    priceOf (updateStock rows pid ns) id = priceOf rows id := by
  unfold priceOf
  rw [findProduct_updateStock]
  cases findProduct rows id with
  | none => rfl
  | some p =>
    simp only [Option.map_some', Option.getD_some]
    split <;> rfl

theorem findProduct_isSome_updateStock (rows : List Product) (pid : Int) (ns : Int) (id : Int) :
    (findProduct (updateStock rows pid ns) id).isSome = (findProduct rows id).isSome := by
  rw [findProduct_updateStock]
  cases findProduct rows id <;> rfl

theorem cartTotalFrom_cons (rows : List Product) (acc : Float64) (it : CartItem)
    (items : List CartItem) :
    cartTotalFrom rows acc (it :: items)
      = cartTotalFrom rows (acc + priceOf rows it.ProductID * Float64.ofInt it.Quantity)
          items := rfl

/-- Without failures, on cart lines whose products exist with enough stock, the first loop
of `Checkout` returns the total accumulated in `float64`, in cart order, and writes
nothing. -/
theorem priceLoop_of_stock (items : List CartItem) :
    ∀ (acc : Float64) (w : World), w.faults = [] →
      (∀ it ∈ items,
        ∃ p, findProduct w.products it.ProductID = some p ∧ it.Quantity ≤ p.Stock) →
      CheckoutService.Checkout.priceLoop items acc w
        = (Except.ok (cartTotalFrom w.products acc items), w) := by
  induction items with
  | nil => intro acc w _ _; simp [CheckoutService.Checkout.priceLoop, cartTotalFrom]
  | cons it items ih =>
    intro acc w hfaults hstock
    obtain ⟨p, hp, hq⟩ := hstock it (List.mem_cons_self _ _)
    have hn := World.next_of_faults_nil w hfaults
    have hf := World.fails_of_faults_nil w hfaults
    have hnlt : ¬ p.Stock < it.Quantity := not_lt.mpr hq
    simp only [CheckoutService.Checkout.priceLoop, ProductRepository.FindOne, hf, hn, hp,
      Bool.false_eq_true, if_false, hnlt]
    rw [ih _ w hfaults (fun it' h' => hstock it' (List.mem_cons_of_mem _ h'))]
    rw [cartTotalFrom_cons]
    simp [priceOf, hp]

theorem newOrderItems_congr (orderID : Int) (rows rows' : List Product) (items : List CartItem)
    (h : ∀ id, priceOf rows' id = priceOf rows id) :
    ∀ seq, newOrderItems orderID rows' seq items = newOrderItems orderID rows seq items := by
  induction items with
  | nil => intro seq; rfl
  | cons it items ih =>
    intro seq
    simp only [newOrderItems, h, ih]

/-- Without failures, on cart lines whose products exist, the second loop of `Checkout`
appends one order item per line and rewrites the stocks in turn. -/
theorem itemLoop_of_products (orderID : Int) (items : List CartItem) :
    ∀ w : World, w.faults = [] →
      (∀ it ∈ items, (findProduct w.products it.ProductID).isSome = true) →
      CheckoutService.Checkout.itemLoop orderID items w
        = (GoResult.returned none,
            { w with
              orderItems := w.orderItems ++ newOrderItems orderID w.products w.orderItemSeq items,
              orderItemSeq := w.orderItemSeq + items.length,
              products := decrementStocks w.products items }) := by
  induction items with
  | nil =>
    intro w _ _
    simp [CheckoutService.Checkout.itemLoop, newOrderItems, decrementStocks]
  | cons it items ih =>
    intro w hfaults hex
    have hsome := hex it (List.mem_cons_self _ _)
    obtain ⟨p, hp⟩ := Option.isSome_iff_exists.mp hsome
    obtain ⟨now, faults, locks, balances, balanceSeq, carts, cartItems, products, orders,
      orderSeq, orderItems, orderItemSeq, payments, paymentSeq, queue, redisLog,
    cartSeq, cartItemSeq⟩ := w
    simp only at hfaults hex hp
    subst hfaults
    simp only [CheckoutService.Checkout.itemLoop, ProductRepository.FindOne,
      OrderItemRepository.Store, ProductRepository.UpdateStock, World.fails, World.next, hp,
      Bool.false_eq_true, if_false, List.tail_nil]
    rw [ih _ rfl (by
      intro it' h'
      simp only [findProduct_isSome_updateStock]
      exact hex it' (List.mem_cons_of_mem _ h'))]
    simp only [newOrderItems, decrementStocks, stockOf, priceOf, hp, Option.map_some',
      Option.getD_some, List.append_assoc, List.singleton_append, List.length_cons,
      Nat.cast_add, Nat.cast_one]
    rw [newOrderItems_congr orderID products _ items (fun id => priceOf_updateStock _ _ _ _)]
    simp only [Prod.mk.injEq, true_and, World.mk.injEq, and_true]
    omega

/-- Without failures, for a user with a cart whose lines all reference existing products with
enough stock, `Checkout` returns the response and leaves exactly this world. -/
theorem Checkout_of_stock (w : World) (userID : Int) (paymentMethod : String) (cart : Cart)
    (hfaults : w.faults = []) (hcart : findCart w.carts userID = some cart)
    (hstock : ∀ it ∈ findCartItems w.cartItems cart.ID,
      ∃ p, findProduct w.products it.ProductID = some p ∧ it.Quantity ≤ p.Stock) :
    CheckoutService.Checkout userID paymentMethod w =
      (GoResult.returned (Except.ok
          { OrderID := w.orderSeq + 1, PaymentMethod := paymentMethod,
            Total := truncToInt (cartTotal w.products (findCartItems w.cartItems cart.ID)) }),
        { w with
          orders := w.orders ++
            [{ ID := w.orderSeq + 1, UserID := userID,
               TotalPrice := cartTotal w.products (findCartItems w.cartItems cart.ID),
               Status := "pending", CreatedAt := w.now }],
          orderSeq := w.orderSeq + 1,
          orderItems := w.orderItems ++ newOrderItems (w.orderSeq + 1) w.products
            w.orderItemSeq (findCartItems w.cartItems cart.ID),
          orderItemSeq := w.orderItemSeq + (findCartItems w.cartItems cart.ID).length,
          products := decrementStocks w.products (findCartItems w.cartItems cart.ID),
          payments := w.payments ++
            [{ ID := w.paymentSeq + 1, OrderID := w.orderSeq + 1, PaymentMethod := paymentMethod,
               PaymentStatus := "pending", CreatedAt := w.now, UpdatedAt := w.now,
               ExpiredAt := w.now + tenMinutes }],
          paymentSeq := w.paymentSeq + 1,
          carts := w.carts.filter (fun c => decide (c.UserID ≠ userID)),
          cartItems := w.cartItems.filter (fun i => decide (i.CartID ≠ cart.ID)) }) := by
  have hex : ∀ it ∈ findCartItems w.cartItems cart.ID,
      (findProduct w.products it.ProductID).isSome = true := by
    intro it hit
    obtain ⟨p, hp, -⟩ := hstock it hit
    simp [hp]
  obtain ⟨now, faults, locks, balances, balanceSeq, carts, cartItems, products, orders,
    orderSeq, orderItems, orderItemSeq, payments, paymentSeq, queue, redisLog,
    cartSeq, cartItemSeq⟩ := w
  simp only at hfaults hcart hstock hex
  subst hfaults
  simp only [CheckoutService.Checkout, CartRepository.FindByUserID, CartItemRepository.Finds,
    World.fails, World.next, hcart, Bool.false_eq_true, if_false, List.tail_nil]
  rw [priceLoop_of_stock _ 0 _ rfl hstock]
  simp only [OrderRepository.Store, World.fails, World.next, Bool.false_eq_true, if_false,
    List.tail_nil]
  rw [itemLoop_of_products _ _ _ rfl hex]
  simp [PaymentRepository.Store, CheckoutService.ClearCart, CartRepository.DeleteByUserID,
    CartItemRepository.DeleteByCartID, World.fails, World.next]
  exact ⟨rfl, rfl⟩

theorem cartWorld_lines :
    findCartItems cartWorld.cartItems 1
      = [{ ID := 1, CartID := 1, ProductID := 1, Quantity := 2, CreatedAt := 0,
           UpdatedAt := 0 },
         { ID := 2, CartID := 1, ProductID := 2, Quantity := 1, CreatedAt := 0,
           UpdatedAt := 0 }] := by
  rfl

theorem cartWorld_stock : ∀ it ∈ findCartItems cartWorld.cartItems 1,
    ∃ p, findProduct cartWorld.products it.ProductID = some p ∧ it.Quantity ≤ p.Stock := by
  intro it hit
  rw [cartWorld_lines] at hit
  simp only [List.mem_cons, List.mem_singleton, List.not_mem_nil, or_false] at hit
  rcases hit with rfl | rfl
  · exact ⟨_, rfl, by decide⟩
  · exact ⟨_, rfl, by decide⟩

/-- C17: for every amount `≤ 0` and for every call with `fromUserID = toUserID`, `Transfer`
returns an error and the world is exactly what it was: no Redis call has been logged, no
scripted outcome has been consumed (no lock or store call was made), and all balances and
locks are unchanged. -/
theorem Transfer_rejects_invalid_arguments (w : World) (s r : Nat) (a : Float64)
    (h : a ≤ 0 ∨ s = r) :
    ∃ e, BalanceService.Transfer s r a w = (Except.error e, w) := by
  by_cases ha : a ≤ 0
  · exact ⟨Err.errorsNew "transfer amount must be positive",
      by simp [BalanceService.Transfer, ha]⟩
  · have hsr : s = r := h.resolve_left ha
    exact ⟨Err.ErrCannotSendBalanceSameAccount, by simp [BalanceService.Transfer, ha, hsr]⟩

/-- Witness of C17: a transfer of 0 and a transfer to oneself are rejected in `ledgerWorld`
without touching it. -/
theorem Transfer_rejects_invalid_arguments_witness :
    (∃ e, BalanceService.Transfer 1 2 0 ledgerWorld = (Except.error e, ledgerWorld)) ∧
    (∃ e, BalanceService.Transfer 1 1 50 ledgerWorld = (Except.error e, ledgerWorld)) :=
  ⟨Transfer_rejects_invalid_arguments ledgerWorld 1 2 0 (Or.inl Float64.zero_le_zero),
   Transfer_rejects_invalid_arguments ledgerWorld 1 1 50 (Or.inr rfl)⟩

/-- C19: when the lock service reports the user's lock as not acquired (the key is held by
another party, or the Redis call fails), `Withdraw` and `Deposit` return an error after
exactly one Redis call, the failed `AcquireLock`: no `ReleaseLock` is logged, the lock set
(the other party's lock included) and the ledger are unchanged, and exactly one scripted
outcome has been consumed, so no store call was made. -/
theorem lock_not_acquired_returns_at_once (w : World) (userID : Nat) (a : Float64)
    (h : (Redis.AcquireLock (lockKey userID) w).1.1 = false) :
    ((∃ e, (BalanceService.Withdraw userID a w).1 = some e) ∧
      (BalanceService.Withdraw userID a w).2.redisLog
        = w.redisLog ++ [RedisCall.AcquireLock (lockKey userID) false] ∧
      (BalanceService.Withdraw userID a w).2.locks = w.locks ∧
      (BalanceService.Withdraw userID a w).2.balances = w.balances ∧
      (BalanceService.Withdraw userID a w).2.faults = w.faults.tail) ∧
    ((∃ e, (BalanceService.Deposit userID a w).1 = Except.error e) ∧
      (BalanceService.Deposit userID a w).2.redisLog
        = w.redisLog ++ [RedisCall.AcquireLock (lockKey userID) false] ∧
      (BalanceService.Deposit userID a w).2.locks = w.locks ∧
      (BalanceService.Deposit userID a w).2.balances = w.balances ∧
      (BalanceService.Deposit userID a w).2.faults = w.faults.tail) := by
  by_cases hf : w.fails = true
  · simp [BalanceService.Withdraw, BalanceService.Deposit, Redis.AcquireLock, hf, World.next]
  · by_cases hk : lockKey userID ∈ w.locks
    · simp [BalanceService.Withdraw, BalanceService.Deposit, Redis.AcquireLock, hf, hk,
        World.next]
    · simp [Redis.AcquireLock, hf, hk, World.next] at h

/-- Witness of C19: in `ledgerWorld` with the lock of user 1 held by another party, a
withdrawal and a deposit of user 1 return after the one failed acquisition. -/
theorem lock_not_acquired_returns_at_once_witness :
    ((∃ e, (BalanceService.Withdraw 1 50 { ledgerWorld with locks := [lockKey 1] }).1 = some e) ∧
      (BalanceService.Withdraw 1 50 { ledgerWorld with locks := [lockKey 1] }).2.redisLog
        = ledgerWorld.redisLog ++ [RedisCall.AcquireLock (lockKey 1) false] ∧
      (BalanceService.Withdraw 1 50 { ledgerWorld with locks := [lockKey 1] }).2.locks
        = [lockKey 1] ∧
      (BalanceService.Withdraw 1 50 { ledgerWorld with locks := [lockKey 1] }).2.balances
        = ledgerWorld.balances ∧
      (BalanceService.Withdraw 1 50 { ledgerWorld with locks := [lockKey 1] }).2.faults
        = ledgerWorld.faults.tail) ∧
    ((∃ e, (BalanceService.Deposit 1 50 { ledgerWorld with locks := [lockKey 1] }).1
        = Except.error e) ∧
      (BalanceService.Deposit 1 50 { ledgerWorld with locks := [lockKey 1] }).2.redisLog
        = ledgerWorld.redisLog ++ [RedisCall.AcquireLock (lockKey 1) false] ∧
      (BalanceService.Deposit 1 50 { ledgerWorld with locks := [lockKey 1] }).2.locks
        = [lockKey 1] ∧
      (BalanceService.Deposit 1 50 { ledgerWorld with locks := [lockKey 1] }).2.balances
        = ledgerWorld.balances ∧
      (BalanceService.Deposit 1 50 { ledgerWorld with locks := [lockKey 1] }).2.faults
        = ledgerWorld.faults.tail) :=
  lock_not_acquired_returns_at_once { ledgerWorld with locks := [lockKey 1] } 1 50
    (by simp [Redis.AcquireLock, World.fails, World.next, ledgerWorld, World.empty])

@[simp] theorem World.next_redisLog (w : World) : w.next.redisLog = w.redisLog := rfl

theorem Redis.AcquireLock_acquired (key : String) (w w1 : World)
    (h : Redis.AcquireLock key w = ((true, none), w1)) :
    key ∉ w.locks ∧ w1.locks = key :: w.locks ∧ w1.balances = w.balances ∧
      w1.redisLog = w.redisLog ++ [RedisCall.AcquireLock key true] := by
  simp only [Redis.AcquireLock] at h
  split_ifs at h with hf hk
  · simp at h
  · simp at h
  · simp only [Prod.mk.injEq, true_and] at h
    subst h
    exact ⟨hk, rfl, rfl, rfl⟩

theorem Redis.AcquireLock_refused (key : String) (w w1 : World) (b : Bool) (e : Option Err)
    (h : Redis.AcquireLock key w = ((b, e), w1)) (hb : ¬ (b = true ∧ e = none)) :
    w1.locks = w.locks ∧ w1.balances = w.balances ∧
      w1.redisLog = w.redisLog ++ [RedisCall.AcquireLock key false] := by
  simp only [Redis.AcquireLock] at h
  split_ifs at h with hf hk
  · simp only [Prod.mk.injEq] at h
    obtain ⟨-, rfl⟩ := h
    exact ⟨rfl, rfl, rfl⟩
  · simp only [Prod.mk.injEq] at h
    obtain ⟨-, rfl⟩ := h
    exact ⟨rfl, rfl, rfl⟩
  · simp only [Prod.mk.injEq] at h
    exact absurd ⟨h.1.1.symm, h.1.2.symm⟩ hb

/-- The deferred `ReleaseLock` logs exactly one call, and deletes the key when it succeeds. -/
theorem Redis.ReleaseLock_calls (key : String) (w : World) :
    ∃ released, (Redis.ReleaseLock key w).2.redisLog
        = w.redisLog ++ [RedisCall.ReleaseLock key released] ∧
      (Redis.ReleaseLock key w).2.balances = w.balances ∧
      (released = true →
        (Redis.ReleaseLock key w).2.locks = w.locks.filter (fun k => decide (k ≠ key))) ∧
      (released = false → (Redis.ReleaseLock key w).2.locks = w.locks) := by
  simp only [Redis.ReleaseLock]
  split_ifs with hf hk
  · exact ⟨false, rfl, rfl, by simp, fun _ => rfl⟩
  · exact ⟨true, rfl, rfl, fun _ => rfl, by simp⟩
  · exact ⟨false, rfl, rfl, by simp, fun _ => rfl⟩

theorem BalanceRepository.Withdraw_redis (u : Nat) (a : Float64) (w : World) :
    (BalanceRepository.Withdraw u a w).2.redisLog = w.redisLog ∧
      (BalanceRepository.Withdraw u a w).2.locks = w.locks := by
  simp only [BalanceRepository.Withdraw]
  repeat' split
  all_goals exact ⟨rfl, rfl⟩

theorem BalanceRepository.Deposit_redis (u : Nat) (a : Float64) (w : World) :
    (BalanceRepository.Deposit u a w).2.redisLog = w.redisLog ∧
      (BalanceRepository.Deposit u a w).2.locks = w.locks := by
  simp only [BalanceRepository.Deposit]
  repeat' split
  all_goals exact ⟨rfl, rfl⟩

theorem BalanceRepository.GetBalance_redis (u : Nat) (w : World) :
    (BalanceRepository.GetBalance u w).2.redisLog = w.redisLog ∧
      (BalanceRepository.GetBalance u w).2.locks = w.locks := by
  simp only [BalanceRepository.GetBalance]
  repeat' split
  all_goals exact ⟨rfl, rfl⟩

theorem BalanceRepository.Transfer_redis (s r : Nat) (a : Float64) (w : World) :
    (BalanceRepository.Transfer s r a w).2.redisLog = w.redisLog ∧
      (BalanceRepository.Transfer s r a w).2.locks = w.locks := by
  simp only [BalanceRepository.Transfer]
  by_cases h1 : s = r
  · rw [if_pos h1]
    exact ⟨rfl, rfl⟩
  · rw [if_neg h1]
    repeat' split
    all_goals exact ⟨rfl, rfl⟩

/-- A lock acquired, kept through a body that makes no Redis call, and released by the
deferred call: the log gains the acquisition and one release, and the lock set is back to
what it was when the release succeeds. -/
theorem acquire_body_release (key : String) (w w1 w2 : World)
    (hacq : Redis.AcquireLock key w = ((true, none), w1))
    (hlog : w2.redisLog = w1.redisLog) (hlocks : w2.locks = w1.locks) :
    ∃ released, (Redis.ReleaseLock key w2).2.redisLog
        = w.redisLog ++ [RedisCall.AcquireLock key true, RedisCall.ReleaseLock key released] ∧
      (released = true → (Redis.ReleaseLock key w2).2.locks = w.locks) := by
  obtain ⟨hk, hl1, -, hlog1⟩ := Redis.AcquireLock_acquired key w w1 hacq
  obtain ⟨released, hrl, -, hrt, -⟩ := Redis.ReleaseLock_calls key w2
  refine ⟨released, ?_, ?_⟩
  · rw [hrl, hlog, hlog1]
    simp
  · intro ht
    rw [hrt ht, hlocks, hl1]
    simp only [ne_eq, decide_not, List.filter_cons, decide_True, Bool.not_true,
      Bool.false_eq_true, if_false]
    have := filter_ne_of_not_mem key w.locks hk
    simpa using this

/-- Redis calls of a `Withdraw`: one failed acquisition, or an acquisition and its release. -/
theorem Withdraw_redis_calls (w : World) (userID : Nat) (a : Float64) :
    ∃ new, (BalanceService.Withdraw userID a w).2.redisLog = w.redisLog ++ new ∧
      SingleLockCalls (lockKey userID) new ∧
      ((∀ key, RedisCall.ReleaseLock key false ∉ new) →
        (BalanceService.Withdraw userID a w).2.locks = w.locks) := by
  simp only [BalanceService.Withdraw]
  split
  · rename_i heq
    obtain ⟨hl, -, hlog⟩ := Redis.AcquireLock_refused _ _ _ _ _ heq (by simp)
    exact ⟨_, hlog, Or.inl rfl, fun _ => hl⟩
  · rename_i heq
    obtain ⟨hl, -, hlog⟩ := Redis.AcquireLock_refused _ _ _ _ _ heq (by simp)
    exact ⟨_, hlog, Or.inl rfl, fun _ => hl⟩
  · rename_i w1 heq
    obtain ⟨hlog, hlocks⟩ := BalanceRepository.Withdraw_redis userID a w1
    obtain ⟨released, hr, hl⟩ := acquire_body_release _ w w1 _ heq hlog hlocks
    refine ⟨_, hr, Or.inr ⟨released, rfl⟩, ?_⟩
    intro hall
    apply hl
    cases released with
    | true => rfl
    | false => exact absurd (by simp) (hall (lockKey userID))

/-- Redis calls of a `Deposit`: one failed acquisition, or an acquisition and its release. -/
theorem Deposit_redis_calls (w : World) (userID : Nat) (a : Float64) :
    ∃ new, (BalanceService.Deposit userID a w).2.redisLog = w.redisLog ++ new ∧
      SingleLockCalls (lockKey userID) new ∧
      ((∀ key, RedisCall.ReleaseLock key false ∉ new) →
        (BalanceService.Deposit userID a w).2.locks = w.locks) := by
  have hfin : ∀ (w1 w2 : World), Redis.AcquireLock (lockKey userID) w = ((true, none), w1) →
      w2.redisLog = w1.redisLog → w2.locks = w1.locks →
      ∃ new, (Redis.ReleaseLock (lockKey userID) w2).2.redisLog = w.redisLog ++ new ∧
        SingleLockCalls (lockKey userID) new ∧
        ((∀ key, RedisCall.ReleaseLock key false ∉ new) →
          (Redis.ReleaseLock (lockKey userID) w2).2.locks = w.locks) := by
    intro w1 w2 heq hlog hlocks
    obtain ⟨released, hr, hl⟩ := acquire_body_release _ w w1 w2 heq hlog hlocks
    refine ⟨_, hr, Or.inr ⟨released, rfl⟩, ?_⟩
    intro hall
    apply hl
    cases released with
    | true => rfl
    | false => exact absurd (by simp) (hall (lockKey userID))
  simp only [BalanceService.Deposit]
  split
  · rename_i heq
    obtain ⟨hl, -, hlog⟩ := Redis.AcquireLock_refused _ _ _ _ _ heq (by simp)
    exact ⟨_, hlog, Or.inl rfl, fun _ => hl⟩
  · rename_i heq
    obtain ⟨hl, -, hlog⟩ := Redis.AcquireLock_refused _ _ _ _ _ heq (by simp)
    exact ⟨_, hlog, Or.inl rfl, fun _ => hl⟩
  · rename_i w1 heq
    have hd := BalanceRepository.Deposit_redis userID a w1
    split
    · rename_i e w2 heq2
      rw [heq2] at hd
      exact hfin w1 w2 heq hd.1 hd.2
    · rename_i w2 heq2
      rw [heq2] at hd
      have hg := BalanceRepository.GetBalance_redis userID w2
      split
      · rename_i e w3 heq3
        rw [heq3] at hg
        exact hfin w1 w3 heq (hg.1.trans hd.1) (hg.2.trans hd.2)
      · rename_i b w3 heq3
        rw [heq3] at hg
        exact hfin w1 w3 heq (hg.1.trans hd.1) (hg.2.trans hd.2)

theorem firstLock_eq_min (s r : Nat) : (if r < s then r else s) = min s r := by
  split_ifs with h
  · exact (min_eq_right (le_of_lt h)).symm
  · exact (min_eq_left (not_lt.mp h)).symm

theorem secondLock_eq_max (s r : Nat) : (if r < s then s else r) = max s r := by
  split_ifs with h
  · exact (max_eq_left (le_of_lt h)).symm
  · exact (max_eq_right (not_lt.mp h)).symm

/-- Redis calls of a `Transfer`, on every path. -/
theorem Transfer_redis_calls (w : World) (s r : Nat) (a : Float64) :
    ∃ new, (BalanceService.Transfer s r a w).2.redisLog = w.redisLog ++ new ∧
      TransferLockCalls s r a new ∧
      ((∀ key, RedisCall.ReleaseLock key false ∉ new) →
        (BalanceService.Transfer s r a w).2.locks = w.locks) := by
  simp only [BalanceService.Transfer]
  by_cases h1 : a ≤ 0
  · rw [if_pos h1]
    exact ⟨[], by simp, Or.inl ⟨Or.inl h1, rfl⟩, fun _ => rfl⟩
  · rw [if_neg h1]
    by_cases h2 : s = r
    · rw [if_pos h2]
      exact ⟨[], by simp, Or.inl ⟨Or.inr h2, rfl⟩, fun _ => rfl⟩
    · rw [if_neg h2, firstLock_eq_min, secondLock_eq_max]
      have hfirst : ∀ (w1 : World) (b : Bool) (e : Option Err),
          Redis.AcquireLock (lockKey (min s r)) w = ((b, e), w1) → ¬ (b = true ∧ e = none) →
          ∃ new, w1.redisLog = w.redisLog ++ new ∧
            TransferLockCalls s r a new ∧
            ((∀ key, RedisCall.ReleaseLock key false ∉ new) → w1.locks = w.locks) := by
        intro w1 b e heq hb
        obtain ⟨hl, -, hlog⟩ := Redis.AcquireLock_refused _ _ _ _ _ heq hb
        exact ⟨_, hlog, Or.inr ⟨h1, h2, Or.inl rfl⟩, fun _ => hl⟩
      split
      · rename_i heq
        exact hfirst _ _ _ heq (by simp)
      · rename_i heq
        exact hfirst _ _ _ heq (by simp)
      · rename_i w1 heq1
        obtain ⟨hk1, hl1, -, hlog1⟩ := Redis.AcquireLock_acquired _ _ _ heq1
        have hsecond : ∀ (w2 : World) (b : Bool) (e : Option Err),
            Redis.AcquireLock (lockKey (max s r)) w1 = ((b, e), w2) → ¬ (b = true ∧ e = none) →
            ∃ new, (Redis.ReleaseLock (lockKey (min s r)) w2).2.redisLog = w.redisLog ++ new ∧
              TransferLockCalls s r a new ∧
              ((∀ key, RedisCall.ReleaseLock key false ∉ new) →
                (Redis.ReleaseLock (lockKey (min s r)) w2).2.locks = w.locks) := by
          intro w2 b e heq hb
          obtain ⟨hl2, -, hlog2⟩ := Redis.AcquireLock_refused _ _ _ _ _ heq hb
          obtain ⟨released, hrl, -, hrt, -⟩ := Redis.ReleaseLock_calls (lockKey (min s r)) w2
          refine ⟨_, ?_, Or.inr ⟨h1, h2, Or.inr (Or.inl ⟨released, rfl⟩)⟩, ?_⟩
          · rw [hrl, hlog2, hlog1]
            simp
          · intro hall
            cases released with
            | false => exact absurd (by simp) (hall (lockKey (min s r)))
            | true =>
              rw [hrt rfl, hl2, hl1]
              have := filter_ne_of_not_mem _ w.locks hk1
              simpa using this
        split
        · rename_i heq
          exact hsecond _ _ _ heq (by simp)
        · rename_i heq
          exact hsecond _ _ _ heq (by simp)
        · rename_i w2 heq2
          obtain ⟨hk2, hl2, -, hlog2⟩ := Redis.AcquireLock_acquired _ _ _ heq2
          have hrepo := BalanceRepository.Transfer_redis s r a w2
          have hboth : ∀ w3 : World, w3.redisLog = w2.redisLog → w3.locks = w2.locks →
              ∃ new, (Redis.ReleaseLock (lockKey (min s r))
                  (Redis.ReleaseLock (lockKey (max s r)) w3).2).2.redisLog = w.redisLog ++ new ∧
                TransferLockCalls s r a new ∧
                ((∀ key, RedisCall.ReleaseLock key false ∉ new) →
                  (Redis.ReleaseLock (lockKey (min s r))
                    (Redis.ReleaseLock (lockKey (max s r)) w3).2).2.locks = w.locks) := by
            intro w3 hlog3 hlocks3
            obtain ⟨rel2, hrl2, -, hrt2, -⟩ := Redis.ReleaseLock_calls (lockKey (max s r)) w3
            obtain ⟨rel1, hrl1, -, hrt1, -⟩ := Redis.ReleaseLock_calls (lockKey (min s r))
              (Redis.ReleaseLock (lockKey (max s r)) w3).2
            refine ⟨_, ?_, Or.inr ⟨h1, h2, Or.inr (Or.inr ⟨rel2, rel1, rfl⟩)⟩, ?_⟩
            · rw [hrl1, hrl2, hlog3, hlog2, hlog1]
              simp
            · intro hall
              cases rel2 with
              | false => exact absurd (by simp) (hall (lockKey (max s r)))
              | true =>
                cases rel1 with
                | false => exact absurd (by simp) (hall (lockKey (min s r)))
                | true =>
                  rw [hrt1 rfl, hrt2 rfl, hlocks3, hl2, hl1]
                  rw [hl1] at hk2
                  have hne : lockKey (min s r) ≠ lockKey (max s r) := by
                    intro e
                    exact hk2 (e ▸ List.mem_cons_self _ _)
                  have hk2' : lockKey (max s r) ∉ w.locks :=
                    fun hm => hk2 (List.mem_cons_of_mem _ hm)
                  have e1 := filter_ne_of_not_mem _ w.locks hk1
                  have e2 := filter_ne_of_not_mem _ w.locks hk2'
                  simp only [ne_eq, decide_not] at e1 e2
                  simp [hne, e1, e2]
          split
          · rename_i e w3 heq3
            rw [heq3] at hrepo
            exact hboth w3 hrepo.1 hrepo.2
          · rename_i fb tb w3 heq3
            rw [heq3] at hrepo
            exact hboth w3 hrepo.1 hrepo.2

theorem Redis.AcquireLock_of_free (key : String) (w : World) (hf : w.fails = false)
    (hk : key ∉ w.locks) :
    ∃ w1, Redis.AcquireLock key w = ((true, none), w1) ∧ w1.faults = w.faults.tail := by
  simp only [Redis.AcquireLock, hf, Bool.false_eq_true, if_false, World.next_locks, hk]
  exact ⟨_, rfl, rfl⟩

/-- With both locks free and no failure, a transfer between distinct users with a positive
amount acquires the lock of the smaller id, then the lock of the larger id, and releases
them in reverse order. -/
theorem Transfer_redis_calls_free (w : World) (s r : Nat) (a : Float64) (hsr : s ≠ r) (ha : 0 < a)
    (hls : lockKey s ∉ w.locks) (hlr : lockKey r ∉ w.locks) (hfaults : w.faults = []) :
    ∃ released2 released1, (BalanceService.Transfer s r a w).2.redisLog
      = w.redisLog ++ [RedisCall.AcquireLock (lockKey (min s r)) true,
                       RedisCall.AcquireLock (lockKey (max s r)) true,
                       RedisCall.ReleaseLock (lockKey (max s r)) released2,
                       RedisCall.ReleaseLock (lockKey (min s r)) released1] := by
  have hmin : lockKey (min s r) ∉ w.locks := by
    rcases min_choice s r with h | h <;> rw [h] <;> assumption
  have hmax : lockKey (max s r) ∉ w.locks := by
    rcases max_choice s r with h | h <;> rw [h] <;> assumption
  have hne : lockKey (max s r) ≠ lockKey (min s r) := by
    intro e
    have := lockKey_injective _ _ e
    rcases Nat.lt_or_gt_of_ne hsr with h | h
    · rw [max_eq_right (le_of_lt h), min_eq_left (le_of_lt h)] at this
      omega
    · rw [max_eq_left (le_of_lt h), min_eq_right (le_of_lt h)] at this
      omega
  obtain ⟨w1, hacq1, hf1⟩ := Redis.AcquireLock_of_free _ w
    (World.fails_of_faults_nil w hfaults) hmin
  obtain ⟨-, hl1, -, hlog1⟩ := Redis.AcquireLock_acquired _ _ _ hacq1
  have hf1' : w1.faults = [] := by rw [hf1, hfaults]; rfl
  have hk2 : lockKey (max s r) ∉ w1.locks := by
    rw [hl1]
    simp only [List.mem_cons, not_or]
    exact ⟨hne, hmax⟩
  obtain ⟨w2, hacq2, -⟩ := Redis.AcquireLock_of_free _ w1
    (World.fails_of_faults_nil w1 hf1') hk2
  obtain ⟨-, -, -, hlog2⟩ := Redis.AcquireLock_acquired _ _ _ hacq2
  have hna : ¬ a ≤ 0 := Float64.not_le_of_lt 0 a ha
  have hrepo := BalanceRepository.Transfer_redis s r a w2
  have hboth : ∀ w3 : World, w3.redisLog = w2.redisLog →
      ∃ released2 released1, (Redis.ReleaseLock (lockKey (min s r))
          (Redis.ReleaseLock (lockKey (max s r)) w3).2).2.redisLog
        = w.redisLog ++ [RedisCall.AcquireLock (lockKey (min s r)) true,
                         RedisCall.AcquireLock (lockKey (max s r)) true,
                         RedisCall.ReleaseLock (lockKey (max s r)) released2,
                         RedisCall.ReleaseLock (lockKey (min s r)) released1] := by
    intro w3 hlog3
    obtain ⟨rel2, hrl2, -, -, -⟩ := Redis.ReleaseLock_calls (lockKey (max s r)) w3
    obtain ⟨rel1, hrl1, -, -, -⟩ := Redis.ReleaseLock_calls (lockKey (min s r))
      (Redis.ReleaseLock (lockKey (max s r)) w3).2
    refine ⟨rel2, rel1, ?_⟩
    rw [hrl1, hrl2, hlog3, hlog2, hlog1]
    simp
  simp only [BalanceService.Transfer, if_neg hna, if_neg hsr, firstLock_eq_min,
    secondLock_eq_max, hacq1, hacq2]
  split
  · rename_i e w3 heq3
    rw [heq3] at hrepo
    exact hboth w3 hrepo.1
  · rename_i fb tb w3 heq3
    rw [heq3] at hrepo
    exact hboth w3 hrepo.1

theorem acquireAttempts_of_calls (s r : Nat) (a : Float64) (new : List RedisCall) (hsr : s ≠ r)
    (ha : 0 < a) (h : TransferLockCalls s r a new) :
    acquireAttempts new = [lockKey (min s r)] ∨
      acquireAttempts new = [lockKey (min s r), lockKey (max s r)] := by
  rcases h with ⟨hbad, -⟩ | ⟨-, -, h | ⟨rel, h⟩ | ⟨rel2, rel1, h⟩⟩
  · rcases hbad with hbad | hbad
    · exact absurd ha (Float64.not_lt_of_le a 0 hbad)
    · exact absurd hbad hsr
  · left; rw [h]; rfl
  · right; rw [h]; rfl
  · right; rw [h]; rfl

/-- C18: for distinct user ids and an amount `> 0`, on every path (whatever the locks held
and the failures) the `AcquireLock` calls of `Transfer s r a` are the key of the smaller id
alone, or the key of the smaller id followed by the key of the larger id; with both locks
free and no failure they are exactly these two keys in this order.  The keys do not depend
on which of the two users is the sender: `Transfer r s y` has the same two possibilities. -/
theorem Transfer_locks_in_ascending_order (w : World) (s r : Nat) (a : Float64) (hsr : s ≠ r)
    (ha : 0 < a) :
    (∃ new, (BalanceService.Transfer s r a w).2.redisLog = w.redisLog ++ new ∧
      (acquireAttempts new = [lockKey (min s r)] ∨
        acquireAttempts new = [lockKey (min s r), lockKey (max s r)]) ∧
      (lockKey s ∉ w.locks → lockKey r ∉ w.locks → w.faults = [] →
        acquireAttempts new = [lockKey (min s r), lockKey (max s r)])) ∧
    (∀ (w2 : World) (y : Float64), 0 < y →
      ∃ new, (BalanceService.Transfer r s y w2).2.redisLog = w2.redisLog ++ new ∧
        (acquireAttempts new = [lockKey (min s r)] ∨
          acquireAttempts new = [lockKey (min s r), lockKey (max s r)])) := by
  constructor
  · obtain ⟨new, hlog, hshape, -⟩ := Transfer_redis_calls w s r a
    refine ⟨new, hlog, acquireAttempts_of_calls s r a new hsr ha hshape, ?_⟩
    intro hls hlr hfaults
    obtain ⟨rel2, rel1, hfree⟩ := Transfer_redis_calls_free w s r a hsr ha hls hlr hfaults
    rw [hlog] at hfree
    rw [List.append_cancel_left hfree]
    rfl
  · intro w2 y hy
    obtain ⟨new, hlog, hshape, -⟩ := Transfer_redis_calls w2 r s y
    have := acquireAttempts_of_calls r s y new (Ne.symm hsr) hy hshape
    rw [min_comm r s, max_comm r s] at this
    exact ⟨new, hlog, this⟩

/-- Witness of C18: `Transfer(1, 2, 50)` in `ledgerWorld` tries the lock of user 1, then the
lock of user 2. -/
theorem Transfer_locks_in_ascending_order_witness :
    ∃ new, (BalanceService.Transfer 1 2 50 ledgerWorld).2.redisLog
        = ledgerWorld.redisLog ++ new ∧
      acquireAttempts new = ["balance_lock:1", "balance_lock:2"] := by
  obtain ⟨new, hlog, -, hfree⟩ :=
    (Transfer_locks_in_ascending_order ledgerWorld 1 2 50 (by decide) (by decide)).1
  exact ⟨new, hlog, hfree (ledgerWorld_locks _) (ledgerWorld_locks _) rfl⟩

/-- The release of a lock that is held: the call is logged with the outcome `true` and
deletes the key unless the Redis call itself fails; then it is logged with the outcome
`false` and the key stays. -/
theorem Redis.ReleaseLock_held (key : String) (w : World) (hk : key ∈ w.locks) :
    (Redis.ReleaseLock key w).2.redisLog
        = w.redisLog ++ [RedisCall.ReleaseLock key (!w.fails)] ∧
      (Redis.ReleaseLock key w).2.locks
        = if w.fails then w.locks else w.locks.filter (fun k => decide (k ≠ key)) := by
  have hk' : key ∈ w.next.locks := hk
  simp only [Redis.ReleaseLock]
  split_ifs with hf
  · rw [hf]
    exact ⟨rfl, rfl⟩
  · have hf' : w.fails = false := by simpa using hf
    rw [hf']
    exact ⟨rfl, rfl⟩

/-- A lock acquired, kept through a body that makes no Redis call, and released by the
deferred call: the release succeeds and gives back the lock set unless the Redis call itself
fails, in which case the lock stays held. -/
theorem release_after_acquire (key : String) (w w1 w2 : World)
    (hacq : Redis.AcquireLock key w = ((true, none), w1))
    (hlog : w2.redisLog = w1.redisLog) (hlocks : w2.locks = w1.locks) :
    (Redis.ReleaseLock key w2).2.redisLog
        = w.redisLog ++ [RedisCall.AcquireLock key true,
                         RedisCall.ReleaseLock key (!w2.fails)] ∧
      (Redis.ReleaseLock key w2).2.locks = if w2.fails then key :: w.locks else w.locks := by
  obtain ⟨hk, hl1, -, hlog1⟩ := Redis.AcquireLock_acquired key w w1 hacq
  have hheld : key ∈ w2.locks := by
    rw [hlocks, hl1]
    exact List.mem_cons_self _ _
  obtain ⟨hrl, hrk⟩ := Redis.ReleaseLock_held key w2 hheld
  constructor
  · rw [hrl, hlog, hlog1]
    simp
  · rw [hrk, hlocks, hl1]
    have := filter_ne_of_not_mem key w.locks hk
    simp only [ne_eq, decide_not] at this
    simp [this]

theorem BalanceService.Deposit.releaseWorld_redis (u : Nat) (a : Float64) (w : World) :
    (BalanceService.Deposit.releaseWorld u a w).redisLog = w.redisLog ∧
      (BalanceService.Deposit.releaseWorld u a w).locks = w.locks := by
  have hd := BalanceRepository.Deposit_redis u a w
  simp only [BalanceService.Deposit.releaseWorld]
  split
  · rename_i e w2 heq
    rw [heq] at hd
    exact hd
  · rename_i w2 heq
    rw [heq] at hd
    have hg := BalanceRepository.GetBalance_redis u w2
    exact ⟨hg.1.trans hd.1, hg.2.trans hd.2⟩

/-- The world `Deposit` returns is the one its deferred release leaves. -/
theorem BalanceService.Deposit_release (u : Nat) (a : Float64) (w w1 : World)
    (hacq : Redis.AcquireLock (lockKey u) w = ((true, none), w1)) :
    (BalanceService.Deposit u a w).2
      = (Redis.ReleaseLock (lockKey u) (BalanceService.Deposit.releaseWorld u a w1)).2 := by
  simp only [BalanceService.Deposit, BalanceService.Deposit.releaseWorld, hacq]
  split
  · rfl
  · split
    · rename_i heq
      rw [heq]
    · rename_i heq
      rw [heq]

/-- The two deferred releases of a `Transfer` that holds both locks. -/
theorem release_both (kmin kmax : String) (w w1 w2 w3 : World)
    (hacq1 : Redis.AcquireLock kmin w = ((true, none), w1))
    (hacq2 : Redis.AcquireLock kmax w1 = ((true, none), w2))
    (hlog : w3.redisLog = w2.redisLog) (hlocks : w3.locks = w2.locks) :
    (Redis.ReleaseLock kmin (Redis.ReleaseLock kmax w3).2).2.redisLog
        = w.redisLog ++ [RedisCall.AcquireLock kmin true, RedisCall.AcquireLock kmax true,
            RedisCall.ReleaseLock kmax (!w3.fails),
            RedisCall.ReleaseLock kmin (!(Redis.ReleaseLock kmax w3).2.fails)] ∧
      (Redis.ReleaseLock kmin (Redis.ReleaseLock kmax w3).2).2.locks
        = (if w3.fails then [kmax] else [])
          ++ (if (Redis.ReleaseLock kmax w3).2.fails then [kmin] else []) ++ w.locks := by
  obtain ⟨hk1, hl1, -, hlog1⟩ := Redis.AcquireLock_acquired _ _ _ hacq1
  obtain ⟨hk2, hl2, -, hlog2⟩ := Redis.AcquireLock_acquired _ _ _ hacq2
  rw [hl1] at hk2
  have hne : kmin ≠ kmax := fun e => hk2 (e ▸ List.mem_cons_self _ _)
  have hk2' : kmax ∉ w.locks := fun hm => hk2 (List.mem_cons_of_mem _ hm)
  have e1 := filter_ne_of_not_mem _ w.locks hk1
  have e2 := filter_ne_of_not_mem _ w.locks hk2'
  simp only [ne_eq, decide_not] at e1 e2
  have h3 : w3.locks = kmax :: kmin :: w.locks := by rw [hlocks, hl2, hl1]
  obtain ⟨hrl2, hrk2⟩ := Redis.ReleaseLock_held kmax w3 (by rw [h3]; exact List.mem_cons_self _ _)
  have hheld1 : kmin ∈ (Redis.ReleaseLock kmax w3).2.locks := by
    rw [hrk2, h3]
    split_ifs
    · exact List.mem_cons_of_mem _ (List.mem_cons_self _ _)
    · simp [hne, e2]
  obtain ⟨hrl1, hrk1⟩ := Redis.ReleaseLock_held kmin _ hheld1
  constructor
  · rw [hrl1, hrl2, hlog, hlog2, hlog1]
    simp
  · rw [hrk1, hrk2, h3]
    have hne' : ¬ kmax = kmin := fun e => hne e.symm
    split_ifs <;> simp [hne, hne', e1, e2]

/-- C20 (counterexample): in `ledgerWorld` user 1 holds 200 and no lock is held.  When the
Redis `DEL` of the deferred release fails (the sixth call to the outside, after the
acquisition and the four calls of the store), `Withdraw 1 50` returns `nil`, the balance is
150, and the call has returned with `balance_lock:1` still held: the release was called once,
its error was dropped.  The next `Withdraw` of the user is refused. -/
theorem Withdraw_returns_holding_lock :
    ledgerWorld.locks = [] ∧
    (BalanceService.Withdraw 1 50
        { ledgerWorld with faults := [false, false, false, false, false, true] }).1 = none ∧
    selectBalance (BalanceService.Withdraw 1 50
        { ledgerWorld with faults := [false, false, false, false, false, true] }).2.balances 1
      = some 150 ∧
    (BalanceService.Withdraw 1 50
        { ledgerWorld with faults := [false, false, false, false, false, true] }).2.redisLog
      = [RedisCall.AcquireLock "balance_lock:1" true,
         RedisCall.ReleaseLock "balance_lock:1" false] ∧
    (BalanceService.Withdraw 1 50
        { ledgerWorld with faults := [false, false, false, false, false, true] }).2.locks
      = ["balance_lock:1"] ∧
    (BalanceService.Withdraw 1 10 (BalanceService.Withdraw 1 50
        { ledgerWorld with faults := [false, false, false, false, false, true] }).2).1
      = some (Err.errorsNew "another transaction is in progress, try again later") := by
  refine ⟨by rfl, by rfl, by decide, by decide, by decide, by rfl⟩

/-- C20 (as amended): on every path of `Withdraw`, `Deposit` and `Transfer` (whatever the
locks held, the store outcome and the failures), every lock the call acquired is followed by
exactly one `ReleaseLock` call for it before the call returns, nothing else is released, and
for `Transfer` a failed second acquisition still releases the first lock; when no release
call fails, the call returns with the lock set it started from.  The release of an acquired
lock succeeds unless the Redis call itself fails: its logged outcome is the negation of the
outcome scripted for that call.  A failed release is not reported: the call then returns with
the lock still held. -/
theorem locks_released_exactly_once :
    (∀ (w : World) (userID : Nat) (a : Float64),
      ∃ new, (BalanceService.Withdraw userID a w).2.redisLog = w.redisLog ++ new ∧
        SingleLockCalls (lockKey userID) new ∧
        ((∀ key, RedisCall.ReleaseLock key false ∉ new) →
          (BalanceService.Withdraw userID a w).2.locks = w.locks)) ∧
    (∀ (w : World) (userID : Nat) (a : Float64),
      ∃ new, (BalanceService.Deposit userID a w).2.redisLog = w.redisLog ++ new ∧
        SingleLockCalls (lockKey userID) new ∧
        ((∀ key, RedisCall.ReleaseLock key false ∉ new) →
          (BalanceService.Deposit userID a w).2.locks = w.locks)) ∧
    (∀ (w : World) (s r : Nat) (a : Float64),
      ∃ new, (BalanceService.Transfer s r a w).2.redisLog = w.redisLog ++ new ∧
        TransferLockCalls s r a new ∧
        ((∀ key, RedisCall.ReleaseLock key false ∉ new) →
          (BalanceService.Transfer s r a w).2.locks = w.locks)) ∧
    (∀ (w w1 : World) (userID : Nat) (a : Float64),
      Redis.AcquireLock (lockKey userID) w = ((true, none), w1) →
      (BalanceService.Withdraw userID a w).2.redisLog
        = w.redisLog ++ [RedisCall.AcquireLock (lockKey userID) true,
            RedisCall.ReleaseLock (lockKey userID)
              (!(BalanceRepository.Withdraw userID a w1).2.fails)] ∧
      (BalanceService.Withdraw userID a w).2.locks
        = if (BalanceRepository.Withdraw userID a w1).2.fails then lockKey userID :: w.locks
          else w.locks) ∧
    (∀ (w w1 : World) (userID : Nat) (a : Float64),
      Redis.AcquireLock (lockKey userID) w = ((true, none), w1) →
      (BalanceService.Deposit userID a w).2.redisLog
        = w.redisLog ++ [RedisCall.AcquireLock (lockKey userID) true,
            RedisCall.ReleaseLock (lockKey userID)
              (!(BalanceService.Deposit.releaseWorld userID a w1).fails)] ∧
      (BalanceService.Deposit userID a w).2.locks
        = if (BalanceService.Deposit.releaseWorld userID a w1).fails then
            lockKey userID :: w.locks
          else w.locks) ∧
    (∀ (w w1 w2 : World) (s r : Nat) (a : Float64) (b : Bool) (e : Option Err),
      ¬ a ≤ 0 → s ≠ r →
      Redis.AcquireLock (lockKey (min s r)) w = ((true, none), w1) →
      Redis.AcquireLock (lockKey (max s r)) w1 = ((b, e), w2) → ¬ (b = true ∧ e = none) →
      (BalanceService.Transfer s r a w).2.redisLog
        = w.redisLog ++ [RedisCall.AcquireLock (lockKey (min s r)) true,
            RedisCall.AcquireLock (lockKey (max s r)) false,
            RedisCall.ReleaseLock (lockKey (min s r)) (!w2.fails)] ∧
      (BalanceService.Transfer s r a w).2.locks
        = if w2.fails then lockKey (min s r) :: w.locks else w.locks) ∧
    (∀ (w w1 w2 : World) (s r : Nat) (a : Float64),
      ¬ a ≤ 0 → s ≠ r →
      Redis.AcquireLock (lockKey (min s r)) w = ((true, none), w1) →
      Redis.AcquireLock (lockKey (max s r)) w1 = ((true, none), w2) →
      (BalanceService.Transfer s r a w).2.redisLog
        = w.redisLog ++ [RedisCall.AcquireLock (lockKey (min s r)) true,
            RedisCall.AcquireLock (lockKey (max s r)) true,
            RedisCall.ReleaseLock (lockKey (max s r))
              (!(BalanceRepository.Transfer s r a w2).2.fails),
            RedisCall.ReleaseLock (lockKey (min s r))
              (!(Redis.ReleaseLock (lockKey (max s r))
                  (BalanceRepository.Transfer s r a w2).2).2.fails)] ∧
      (BalanceService.Transfer s r a w).2.locks
        = (if (BalanceRepository.Transfer s r a w2).2.fails then [lockKey (max s r)] else [])
          ++ (if (Redis.ReleaseLock (lockKey (max s r))
                (BalanceRepository.Transfer s r a w2).2).2.fails then [lockKey (min s r)]
              else [])
          ++ w.locks) := by
  refine ⟨Withdraw_redis_calls, Deposit_redis_calls, Transfer_redis_calls, ?_, ?_, ?_, ?_⟩
  · intro w w1 userID a hacq
    obtain ⟨hlog, hlocks⟩ := BalanceRepository.Withdraw_redis userID a w1
    have h := release_after_acquire _ w w1 _ hacq hlog hlocks
    simp only [BalanceService.Withdraw, hacq]
    exact h
  · intro w w1 userID a hacq
    obtain ⟨hlog, hlocks⟩ := BalanceService.Deposit.releaseWorld_redis userID a w1
    rw [BalanceService.Deposit_release userID a w w1 hacq]
    exact release_after_acquire _ w w1 _ hacq hlog hlocks
  · intro w w1 w2 s r a b e ha hsr hacq1 hacq2 hb
    obtain ⟨hl2, -, hlog2⟩ := Redis.AcquireLock_refused _ _ _ _ _ hacq2 hb
    obtain ⟨hk1, hl1, -, hlog1⟩ := Redis.AcquireLock_acquired _ _ _ hacq1
    have hheld : lockKey (min s r) ∈ w2.locks := by
      rw [hl2, hl1]
      exact List.mem_cons_self _ _
    obtain ⟨hrl, hrk⟩ := Redis.ReleaseLock_held _ w2 hheld
    have e1 := filter_ne_of_not_mem _ w.locks hk1
    simp only [ne_eq, decide_not] at e1
    have hfin : (Redis.ReleaseLock (lockKey (min s r)) w2).2.redisLog
          = w.redisLog ++ [RedisCall.AcquireLock (lockKey (min s r)) true,
              RedisCall.AcquireLock (lockKey (max s r)) false,
              RedisCall.ReleaseLock (lockKey (min s r)) (!w2.fails)] ∧
        (Redis.ReleaseLock (lockKey (min s r)) w2).2.locks
          = if w2.fails then lockKey (min s r) :: w.locks else w.locks := by
      constructor
      · rw [hrl, hlog2, hlog1]
        simp
      · rw [hrk, hl2, hl1]
        simp [e1]
    cases e with
    | some e' =>
      simp only [BalanceService.Transfer, if_neg ha, if_neg hsr, firstLock_eq_min,
        secondLock_eq_max, hacq1, hacq2]
      exact hfin
    | none =>
      cases b with
      | false =>
        simp only [BalanceService.Transfer, if_neg ha, if_neg hsr, firstLock_eq_min,
          secondLock_eq_max, hacq1, hacq2]
        exact hfin
      | true => exact absurd ⟨rfl, rfl⟩ hb
  · intro w w1 w2 s r a ha hsr hacq1 hacq2
    obtain ⟨hlog, hlocks⟩ := BalanceRepository.Transfer_redis s r a w2
    have h := release_both _ _ w w1 w2 _ hacq1 hacq2 hlog hlocks
    simp only [BalanceService.Transfer, if_neg ha, if_neg hsr, firstLock_eq_min,
      secondLock_eq_max, hacq1, hacq2]
    split
    · rename_i e w3 heq3
      rw [heq3] at h ⊢
      exact h
    · rename_i fb tb w3 heq3
      rw [heq3] at h ⊢
      exact h

/-- Witness of C20 as amended: in `ledgerWorld` the lock of user 1 is free; `Withdraw 1 50`
acquires it and logs one release, whose outcome is the negation of the outcome scripted for
that call, here a success. -/
theorem locks_released_exactly_once_witness :
    Redis.AcquireLock (lockKey 1) ledgerWorld
      = ((true, none), (Redis.AcquireLock (lockKey 1) ledgerWorld).2) ∧
    (BalanceRepository.Withdraw 1 50 (Redis.AcquireLock (lockKey 1) ledgerWorld).2).2.fails
      = false ∧
    ((BalanceService.Withdraw 1 50 ledgerWorld).2.redisLog
        = ledgerWorld.redisLog ++ [RedisCall.AcquireLock (lockKey 1) true,
            RedisCall.ReleaseLock (lockKey 1)
              (!(BalanceRepository.Withdraw 1 50
                  (Redis.AcquireLock (lockKey 1) ledgerWorld).2).2.fails)] ∧
      (BalanceService.Withdraw 1 50 ledgerWorld).2.locks
        = if (BalanceRepository.Withdraw 1 50
              (Redis.AcquireLock (lockKey 1) ledgerWorld).2).2.fails then
            lockKey 1 :: ledgerWorld.locks
          else ledgerWorld.locks) :=
  ⟨by rfl, by rfl,
   locks_released_exactly_once.2.2.2.1 ledgerWorld
    (Redis.AcquireLock (lockKey 1) ledgerWorld).2 1 50 (by rfl)⟩

/-! ## Checkout: payment, cart clearing and validation -/

theorem priceLoop_ok_inv (items : List CartItem) :
    ∀ (acc : Float64) (w : World) (t : Float64) (w' : World), w.faults = [] →
      CheckoutService.Checkout.priceLoop items acc w = (Except.ok t, w') →
      ∀ it ∈ items, ∃ p, findProduct w.products it.ProductID = some p ∧ it.Quantity ≤ p.Stock := by
  induction items with
  | nil => intro acc w t w' _ _ it hit; simp at hit
  | cons hd items ih =>
    intro acc w t w' hfaults hok it hit
    have hn := World.next_of_faults_nil w hfaults
    have hf := World.fails_of_faults_nil w hfaults
    simp only [CheckoutService.Checkout.priceLoop, ProductRepository.FindOne, hf, hn,
      Bool.false_eq_true, if_false] at hok
    cases hp : findProduct w.products hd.ProductID with
    | none => simp [hp] at hok
    | some p =>
      simp only [hp] at hok
      by_cases hlt : p.Stock < hd.Quantity
      · simp [hlt] at hok
      · simp only [hlt, if_false] at hok
        rcases List.mem_cons.mp hit with rfl | hmem
        · exact ⟨p, hp, not_lt.mp hlt⟩
        · exact ih _ w t w' hfaults hok it hmem

/-- Without failures, a checkout that returns a response had a cart whose lines all
reference existing products with enough stock. -/
theorem Checkout_ok_inv (w : World) (userID : Int) (paymentMethod : String)
    (resp : CheckoutResponse) (hfaults : w.faults = [])
    (hsucc : (CheckoutService.Checkout userID paymentMethod w).1
      = GoResult.returned (Except.ok resp)) :
    ∃ cart, findCart w.carts userID = some cart ∧
      ∀ it ∈ findCartItems w.cartItems cart.ID,
        ∃ p, findProduct w.products it.ProductID = some p ∧ it.Quantity ≤ p.Stock := by
  have hn := World.next_of_faults_nil w hfaults
  have hf := World.fails_of_faults_nil w hfaults
  cases hc : findCart w.carts userID with
  | none =>
    simp [CheckoutService.Checkout, CartRepository.FindByUserID, hf, hn, hc] at hsucc
  | some cart =>
    refine ⟨cart, rfl, ?_⟩
    simp only [CheckoutService.Checkout, CartRepository.FindByUserID,
      CartItemRepository.Finds, hf, hn, hc, Bool.false_eq_true, if_false] at hsucc
    cases hpl : CheckoutService.Checkout.priceLoop (findCartItems w.cartItems cart.ID) 0 w with
    | mk res w' =>
      cases res with
      | error e =>
        rw [hpl] at hsucc
        simp at hsucc
      | ok t => exact priceLoop_ok_inv _ 0 w t w' hfaults hpl

/-- C11: without infrastructure failure, every checkout that returns a response has appended
exactly one order and exactly one payment; the payment's `order_id` is the id of that order
(the id returned in the response), its method is the requested method, its status is
`pending`, its `created_at` is the order's `created_at`, and its `expired_at` is its
`created_at` plus ten minutes. -/
theorem Checkout_creates_pending_payment (w : World) (userID : Int) (paymentMethod : String)
    (resp : CheckoutResponse) (hfaults : w.faults = [])
    (hsucc : (CheckoutService.Checkout userID paymentMethod w).1
      = GoResult.returned (Except.ok resp)) :
    ∃ (order : Order) (payment : Payment),
      (CheckoutService.Checkout userID paymentMethod w).2.orders = w.orders ++ [order] ∧
      (CheckoutService.Checkout userID paymentMethod w).2.payments = w.payments ++ [payment] ∧
      resp.OrderID = order.ID ∧
      payment.OrderID = order.ID ∧
      payment.PaymentMethod = paymentMethod ∧
      payment.PaymentStatus = "pending" ∧
      payment.CreatedAt = order.CreatedAt ∧
      payment.ExpiredAt = payment.CreatedAt + 10 * (60 * 1000000000) := by
  obtain ⟨cart, hcart, hstock⟩ := Checkout_ok_inv w userID paymentMethod resp hfaults hsucc
  rw [Checkout_of_stock w userID paymentMethod cart hfaults hcart hstock] at hsucc ⊢
  simp only [GoResult.returned.injEq, Except.ok.injEq] at hsucc
  subst hsucc
  exact ⟨_, _, rfl, rfl, rfl, rfl, rfl, rfl, rfl, rfl⟩

theorem findCart_filter_ne (rows : List Cart) (userID : Int) :
    findCart (rows.filter (fun c => decide (c.UserID ≠ userID))) userID = none := by
  unfold findCart
  rw [List.find?_eq_none]
  intro c hc
  have := (List.mem_filter.mp hc).2
  simpa using this

theorem findCartItems_filter_ne (rows : List CartItem) (cartID : Int) :
    findCartItems (rows.filter (fun i => decide (i.CartID ≠ cartID))) cartID = [] := by
  unfold findCartItems
  rw [List.filter_eq_nil_iff]
  intro i hi
  have := (List.mem_filter.mp hi).2
  simpa using this

/-- A user without a cart gets the empty cart view and the empty-cart error on checkout. -/
theorem no_cart_views (w : World) (userID : Int) (hfaults : w.faults = [])
    (hcart : findCart w.carts userID = none) :
    CartService.GetCart userID w = (GoResult.returned (CartResponse.zero, none), w) ∧
    ∀ paymentMethod, CheckoutService.Checkout userID paymentMethod w
      = (GoResult.returned (Except.error Err.ErrEmptyCart), w) := by
  have hn := World.next_of_faults_nil w hfaults
  have hf := World.fails_of_faults_nil w hfaults
  constructor
  · simp [CartService.GetCart, CartRepository.FindByUserID, hf, hn, hcart]
  · intro paymentMethod
    simp [CheckoutService.Checkout, CartRepository.FindByUserID, hf, hn, hcart]

/-- C12: without infrastructure failure, after every checkout that returns a response the
user has no cart row and no cart item with the old cart id remains; an immediately following
`GetCart` returns the empty response and an immediately following `Checkout` fails with
`ErrEmptyCart`, both leaving the world as it is. -/
theorem Checkout_empties_cart (w : World) (userID : Int) (paymentMethod : String)
    (resp : CheckoutResponse) (hfaults : w.faults = [])
    (hsucc : (CheckoutService.Checkout userID paymentMethod w).1
      = GoResult.returned (Except.ok resp)) :
    ∃ cart, findCart w.carts userID = some cart ∧
      findCart (CheckoutService.Checkout userID paymentMethod w).2.carts userID = none ∧
      findCartItems (CheckoutService.Checkout userID paymentMethod w).2.cartItems cart.ID = [] ∧
      CartService.GetCart userID (CheckoutService.Checkout userID paymentMethod w).2
        = (GoResult.returned (CartResponse.zero, none),
            (CheckoutService.Checkout userID paymentMethod w).2) ∧
      ∀ method2, CheckoutService.Checkout userID method2
          (CheckoutService.Checkout userID paymentMethod w).2
        = (GoResult.returned (Except.error Err.ErrEmptyCart),
            (CheckoutService.Checkout userID paymentMethod w).2) := by
  obtain ⟨cart, hcart, hstock⟩ := Checkout_ok_inv w userID paymentMethod resp hfaults hsucc
  refine ⟨cart, hcart, ?_⟩
  rw [Checkout_of_stock w userID paymentMethod cart hfaults hcart hstock]
  dsimp only
  have h1 := findCart_filter_ne w.carts userID
  refine ⟨h1, findCartItems_filter_ne w.cartItems cart.ID, ?_⟩
  exact no_cart_views _ userID hfaults h1

@[simp] theorem World.next_data (w : World) : w.next.data = w.data := rfl

theorem World.tables_of_data_eq (w w' : World) (h : w'.data = w.data) :
    w'.orders = w.orders ∧ w'.orderItems = w.orderItems ∧ w'.payments = w.payments ∧
    w'.products = w.products ∧ w'.carts = w.carts ∧ w'.cartItems = w.cartItems ∧
    w'.balances = w.balances ∧ w'.locks = w.locks ∧ w'.queue = w.queue ∧
    w'.redisLog = w.redisLog := by
  cases w
  cases w'
  simp only [World.data, World.mk.injEq] at h
  simp only [h, and_self]

theorem ProductRepository.FindOne_data (id : Int) (w : World) :
    (ProductRepository.FindOne id w).2.data = w.data := by
  simp only [ProductRepository.FindOne]
  split_ifs <;> rfl

theorem priceLoop_data (items : List CartItem) :
    ∀ (acc : Float64) (w : World),
      (CheckoutService.Checkout.priceLoop items acc w).2.data = w.data := by
  induction items with
  | nil => intro acc w; rfl
  | cons hd items ih =>
    intro acc w
    have hd1 := ProductRepository.FindOne_data hd.ProductID w
    simp only [CheckoutService.Checkout.priceLoop]
    split
    · rename_i e w1 heq
      rw [heq] at hd1
      exact hd1
    · rename_i w1 heq
      rw [heq] at hd1
      exact hd1
    · rename_i p w1 heq
      rw [heq] at hd1
      split
      · exact hd1
      · rw [ih]
        exact hd1

theorem priceLoop_fails_of_invalid (items : List CartItem) :
    ∀ (acc : Float64) (w : World),
      (∃ it ∈ items, findProduct w.products it.ProductID = none ∨
        ∃ p, findProduct w.products it.ProductID = some p ∧ p.Stock < it.Quantity) →
      ∃ e, (CheckoutService.Checkout.priceLoop items acc w).1 = Except.error e := by
  induction items with
  | nil => intro acc w h; obtain ⟨it, hit, -⟩ := h; simp at hit
  | cons hd items ih =>
    intro acc w h
    simp only [CheckoutService.Checkout.priceLoop, ProductRepository.FindOne]
    by_cases hf : w.fails = true
    · exact ⟨Err.infra, by simp [hf]⟩
    · simp only [hf, Bool.false_eq_true, if_false]
      cases hp : findProduct w.next.products hd.ProductID with
      | none => exact ⟨_, rfl⟩
      | some p =>
        dsimp only
        by_cases hlt : p.Stock < hd.Quantity
        · exact ⟨_, by rw [if_pos hlt]⟩
        · rw [if_neg hlt]
          apply ih
          obtain ⟨it, hit, hbad⟩ := h
          rcases List.mem_cons.mp hit with rfl | hmem
          · exfalso
            have hp' : findProduct w.products it.ProductID = some p := hp
            rcases hbad with hnone | ⟨q, hq, hqlt⟩
            · rw [hnone] at hp'
              cases hp'
            · rw [hq] at hp'
              cases hp'
              exact hlt hqlt
          · exact ⟨it, hmem, hbad⟩

/-- A checkout of a user without a cart, under any fault script. -/
theorem Checkout_of_no_cart (w : World) (userID : Int) (paymentMethod : String)
    (hcart : findCart w.carts userID = none) :
    CheckoutService.Checkout userID paymentMethod w
      = (GoResult.returned (Except.error (if w.fails then Err.infra else Err.ErrEmptyCart)),
          w.next) := by
  have hcart' : findCart w.next.carts userID = none := hcart
  simp only [CheckoutService.Checkout, CartRepository.FindByUserID]
  split_ifs with hf
  · rfl
  · simp only [hcart']

/-- A checkout whose cart has an invalid line, under any fault script. -/
theorem Checkout_of_invalid_line (w : World) (userID : Int) (paymentMethod : String)
    (cart : Cart) (hcart : findCart w.carts userID = some cart)
    (hbad : ∃ it ∈ findCartItems w.cartItems cart.ID,
      findProduct w.products it.ProductID = none ∨
        ∃ p, findProduct w.products it.ProductID = some p ∧ p.Stock < it.Quantity) :
    ∃ e w', CheckoutService.Checkout userID paymentMethod w
        = (GoResult.returned (Except.error e), w') ∧ w'.data = w.data := by
  have hcart' : findCart w.next.carts userID = some cart := hcart
  simp only [CheckoutService.Checkout, CartRepository.FindByUserID, CartItemRepository.Finds]
  by_cases hf1 : w.fails = true
  · exact ⟨Err.infra, w.next, by simp [hf1], rfl⟩
  · simp only [hf1, Bool.false_eq_true, if_false, hcart']
    by_cases hf2 : w.next.fails = true
    · exact ⟨Err.infra, w.next.next, by simp [hf2], rfl⟩
    · simp only [hf2, Bool.false_eq_true, if_false]
      have hdata := priceLoop_data (findCartItems w.next.next.cartItems cart.ID) 0 w.next.next
      obtain ⟨e, he⟩ := priceLoop_fails_of_invalid
        (findCartItems w.next.next.cartItems cart.ID) 0 w.next.next hbad
      cases hpl : CheckoutService.Checkout.priceLoop
          (findCartItems w.next.next.cartItems cart.ID) 0 w.next.next with
      | mk res w' =>
        rw [hpl] at he hdata
        simp only at he
        subst he
        exact ⟨e, w', rfl, hdata⟩

/-- C13: `Checkout` validates before it writes, under every fault script.  If the user has
no cart it returns an error, which is `ErrEmptyCart` unless the cart lookup itself fails; if
some cart line's product is missing or has stock below the line quantity it returns an
error.  In each of these cases no order, order item or payment is created, no product
changes, and the carts and cart items are left as they were. -/
theorem Checkout_validates_before_writing (w : World) (userID : Int) (paymentMethod : String) :
    (findCart w.carts userID = none ∨
      ∃ cart, findCart w.carts userID = some cart ∧
        ∃ it ∈ findCartItems w.cartItems cart.ID,
          findProduct w.products it.ProductID = none ∨
            ∃ p, findProduct w.products it.ProductID = some p ∧ p.Stock < it.Quantity) →
    (∃ e, (CheckoutService.Checkout userID paymentMethod w).1
        = GoResult.returned (Except.error e)) ∧
    (findCart w.carts userID = none → w.fails = false →
      (CheckoutService.Checkout userID paymentMethod w).1
        = GoResult.returned (Except.error Err.ErrEmptyCart)) ∧
    (CheckoutService.Checkout userID paymentMethod w).2.orders = w.orders ∧
    (CheckoutService.Checkout userID paymentMethod w).2.orderItems = w.orderItems ∧
    (CheckoutService.Checkout userID paymentMethod w).2.payments = w.payments ∧
    (CheckoutService.Checkout userID paymentMethod w).2.products = w.products ∧
    (CheckoutService.Checkout userID paymentMethod w).2.carts = w.carts ∧
    (CheckoutService.Checkout userID paymentMethod w).2.cartItems = w.cartItems := by
  intro h
  rcases h with hnone | ⟨cart, hcart, hbad⟩
  · rw [Checkout_of_no_cart w userID paymentMethod hnone]
    refine ⟨⟨_, rfl⟩, ?_, rfl, rfl, rfl, rfl, rfl, rfl⟩
    intro _ hf
    simp [hf]
  · obtain ⟨e, w', heq, hdata⟩ := Checkout_of_invalid_line w userID paymentMethod cart hcart hbad
    rw [heq]
    obtain ⟨h1, h2, h3, h4, h5, h6, -⟩ := World.tables_of_data_eq w w' hdata
    refine ⟨⟨e, rfl⟩, ?_, h1, h2, h3, h4, h5, h6⟩
    intro hnone
    rw [hnone] at hcart
    cases hcart

/-! ## Instances of the checkout theorems on payment, cart and validation -/

theorem cartWorld_checkout_ok :
    (CheckoutService.Checkout 1 "balance" cartWorld).1
      = GoResult.returned (Except.ok
          { OrderID := 1, PaymentMethod := "balance",
            Total := truncToInt (cartTotal cartWorld.products
              (findCartItems cartWorld.cartItems 1)) }) := by
  rw [Checkout_of_stock cartWorld 1 "balance"
    { ID := 1, UserID := 1, CreatedAt := 0, UpdatedAt := 0 } rfl rfl cartWorld_stock]
  rfl

/-- Witness of C11: the checkout of `cartWorld` appends one order and its pending payment. -/
theorem Checkout_creates_pending_payment_witness :
    ∃ (order : Order) (payment : Payment),
      (CheckoutService.Checkout 1 "balance" cartWorld).2.orders = cartWorld.orders ++ [order] ∧
      (CheckoutService.Checkout 1 "balance" cartWorld).2.payments
        = cartWorld.payments ++ [payment] ∧
      (1 : Int) = order.ID ∧
      payment.OrderID = order.ID ∧
      payment.PaymentMethod = "balance" ∧
      payment.PaymentStatus = "pending" ∧
      payment.CreatedAt = order.CreatedAt ∧
      payment.ExpiredAt = payment.CreatedAt + 10 * (60 * 1000000000) :=
  Checkout_creates_pending_payment cartWorld 1 "balance" _ rfl cartWorld_checkout_ok

/-- Witness of C12: after the checkout of `cartWorld` user 1 has no cart left. -/
theorem Checkout_empties_cart_witness :
    ∃ cart, findCart cartWorld.carts 1 = some cart ∧
      findCart (CheckoutService.Checkout 1 "balance" cartWorld).2.carts 1 = none ∧
      findCartItems (CheckoutService.Checkout 1 "balance" cartWorld).2.cartItems cart.ID = [] ∧
      CartService.GetCart 1 (CheckoutService.Checkout 1 "balance" cartWorld).2
        = (GoResult.returned (CartResponse.zero, none),
            (CheckoutService.Checkout 1 "balance" cartWorld).2) ∧
      ∀ method2, CheckoutService.Checkout 1 method2
          (CheckoutService.Checkout 1 "balance" cartWorld).2
        = (GoResult.returned (Except.error Err.ErrEmptyCart),
            (CheckoutService.Checkout 1 "balance" cartWorld).2) :=
  Checkout_empties_cart cartWorld 1 "balance" _ rfl cartWorld_checkout_ok

/-- Witness of C13: in `cartWorld` user 2 has no cart, and once product 2 is gone from the
catalog the cart of user 1 has an invalid line; both checkouts fail and write nothing. -/
theorem Checkout_validates_before_writing_witness :
    ((∃ e, (CheckoutService.Checkout 2 "balance" cartWorld).1
        = GoResult.returned (Except.error e)) ∧
      (findCart cartWorld.carts 2 = none → cartWorld.fails = false →
        (CheckoutService.Checkout 2 "balance" cartWorld).1
          = GoResult.returned (Except.error Err.ErrEmptyCart)) ∧
      (CheckoutService.Checkout 2 "balance" cartWorld).2.orders = cartWorld.orders ∧
      (CheckoutService.Checkout 2 "balance" cartWorld).2.orderItems = cartWorld.orderItems ∧
      (CheckoutService.Checkout 2 "balance" cartWorld).2.payments = cartWorld.payments ∧
      (CheckoutService.Checkout 2 "balance" cartWorld).2.products = cartWorld.products ∧
      (CheckoutService.Checkout 2 "balance" cartWorld).2.carts = cartWorld.carts ∧
      (CheckoutService.Checkout 2 "balance" cartWorld).2.cartItems = cartWorld.cartItems) ∧
    ((∃ e, (CheckoutService.Checkout 1 "balance"
          { cartWorld with products := cartWorld.products.take 1 }).1
        = GoResult.returned (Except.error e)) ∧
      (CheckoutService.Checkout 1 "balance"
          { cartWorld with products := cartWorld.products.take 1 }).2.orders
        = cartWorld.orders ∧
      (CheckoutService.Checkout 1 "balance"
          { cartWorld with products := cartWorld.products.take 1 }).2.payments
        = cartWorld.payments ∧
      (CheckoutService.Checkout 1 "balance"
          { cartWorld with products := cartWorld.products.take 1 }).2.products
        = cartWorld.products.take 1) := by
  have h1 := Checkout_validates_before_writing cartWorld 2 "balance" (Or.inl rfl)
  have h2 := Checkout_validates_before_writing
    { cartWorld with products := cartWorld.products.take 1 } 1 "balance"
    (Or.inr ⟨{ ID := 1, UserID := 1, CreatedAt := 0, UpdatedAt := 0 }, rfl,
      { ID := 2, CartID := 1, ProductID := 2, Quantity := 1, CreatedAt := 0, UpdatedAt := 0 },
      by simp [findCartItems, cartWorld], Or.inl rfl⟩)
  exact ⟨h1, h2.1, h2.2.2.1, h2.2.2.2.2.1, h2.2.2.2.2.2.1⟩

/-! ## Expiry reaper and order status -/

/-- C14 (evaluation of the code): in `skewedWorld` the payment with id 1 belongs to order 2;
it is pending and expired, so the reaper selects it.  `ProcessExpiredPayments` passes the
payment id 1 to `PaymentRepository.Update`, which filters on `order_id`: no payment of order
1 exists, the payment itself stays `pending`, while its order 2 is cancelled and the stock of
product 1 goes from 3 to 5. -/
theorem ProcessExpiredPayments_misses_payment :
    (findExpiredPayments skewedWorld.payments skewedWorld.now).map (fun p => (p.ID, p.OrderID))
      = [(1, 2)] ∧
    (PaymentWorker.ProcessExpiredPayments
        { ID := 1, OrderID := 2, PaymentMethod := "transfer", PaymentStatus := "pending",
          CreatedAt := 0, UpdatedAt := 0, ExpiredAt := tenMinutes } skewedWorld).1
      = GoResult.returned none ∧
    (PaymentWorker.ProcessExpiredPayments
        { ID := 1, OrderID := 2, PaymentMethod := "transfer", PaymentStatus := "pending",
          CreatedAt := 0, UpdatedAt := 0, ExpiredAt := tenMinutes } skewedWorld).2.payments.map
        (fun p => (p.ID, p.OrderID, p.PaymentStatus))
      = [(1, 2, "pending")] ∧
    orderStatus (PaymentWorker.ProcessExpiredPayments
        { ID := 1, OrderID := 2, PaymentMethod := "transfer", PaymentStatus := "pending",
          CreatedAt := 0, UpdatedAt := 0, ExpiredAt := tenMinutes } skewedWorld).2.orders 2
      = some "cancelled" ∧
    stockOf (PaymentWorker.ProcessExpiredPayments
        { ID := 1, OrderID := 2, PaymentMethod := "transfer", PaymentStatus := "pending",
          CreatedAt := 0, UpdatedAt := 0, ExpiredAt := tenMinutes } skewedWorld).2.products 1
      = 5 := by
  refine ⟨by decide, by rfl, by decide, by decide, by decide⟩

theorem findExpiredPayments_pending (rows : List Payment) (now : Nat) :
    ∀ p ∈ findExpiredPayments rows now, p.PaymentStatus = "pending" ∧ p.ExpiredAt < now := by
  intro p hp
  obtain ⟨q, hq, rfl⟩ := List.mem_map.mp hp
  have := (List.mem_filter.mp hq).2
  simpa using this

theorem findExpiredPayments_eq_nil (rows : List Payment) (now : Nat)
    (h : ∀ p ∈ rows, p.PaymentStatus = "pending" → ¬ p.ExpiredAt < now) :
    findExpiredPayments rows now = [] := by
  unfold findExpiredPayments
  rw [List.map_eq_nil_iff, List.filter_eq_nil_iff]
  intro p hp
  have := h p hp
  simpa using this

/-- The payments the reaper's query returns are exactly the stored payments that are
`pending` with `expired_at < now`, read without their `updated_at`. -/
theorem findExpiredPayments_iff (rows : List Payment) (now : Nat) (p : Payment) :
    p ∈ findExpiredPayments rows now ↔
      ∃ q ∈ rows, q.PaymentStatus = "pending" ∧ q.ExpiredAt < now ∧
        p = { q with UpdatedAt := 0 } := by
  unfold findExpiredPayments
  rw [List.mem_map]
  constructor
  · rintro ⟨q, hq, rfl⟩
    have hq2 := List.mem_filter.mp hq
    have h2 := hq2.2
    simp only [Bool.and_eq_true, decide_eq_true_eq] at h2
    exact ⟨q, hq2.1, h2.1, h2.2, rfl⟩
  · rintro ⟨q, hq, hs, he, rfl⟩
    refine ⟨q, List.mem_filter.mpr ⟨hq, ?_⟩, rfl⟩
    simp only [Bool.and_eq_true, decide_eq_true_eq]
    exact ⟨hs, he⟩

/-- The payments a reaper tick selects are stored as `pending`, under their own order. -/
theorem findExpiredPayments_stored (rows : List Payment) (now : Nat) :
    ∀ p ∈ findExpiredPayments rows now,
      ∃ q ∈ rows, q.OrderID = p.OrderID ∧ q.PaymentStatus = "pending" := by
  intro p hp
  obtain ⟨q, hq, hs, _, rfl⟩ := (findExpiredPayments_iff rows now p).mp hp
  exact ⟨q, hq, rfl, hs⟩

/-- One tick of the reaper, on every path: it starts a goroutine for each payment its query
returns, none when the query fails, and changes no table. -/
theorem cancelExpiredPayments_eq (w : World) :
    PaymentWorker.cancelExpiredPayments w
      = (if w.fails then [] else findExpiredPayments w.payments w.now, w.next) := by
  simp only [PaymentWorker.cancelExpiredPayments, PaymentRepository.FindExpiredPayments]
  split_ifs <;> rfl

theorem Redis.AcquireLock_books (key : String) (w : World) :
    (Redis.AcquireLock key w).2.books = w.books := by
  simp only [Redis.AcquireLock]
  split_ifs <;> rfl

theorem Redis.ReleaseLock_books (key : String) (w : World) :
    (Redis.ReleaseLock key w).2.books = w.books := by
  simp only [Redis.ReleaseLock]
  split_ifs <;> rfl

theorem BalanceRepository.Withdraw_books (u : Nat) (a : Float64) (w : World) :
    (BalanceRepository.Withdraw u a w).2.books = w.books := by
  simp only [BalanceRepository.Withdraw]
  repeat' split
  all_goals rfl

theorem BalanceRepository.GetBalance_books (u : Nat) (w : World) :
    (BalanceRepository.GetBalance u w).2.books = w.books := by
  simp only [BalanceRepository.GetBalance]
  repeat' split
  all_goals rfl

theorem BalanceService.Withdraw_svc_books (u : Nat) (a : Float64) (w : World) :
    (BalanceService.Withdraw u a w).2.books = w.books := by
  have h1 := Redis.AcquireLock_books (lockKey u) w
  simp only [BalanceService.Withdraw]
  split
  · rename_i heq
    rw [heq] at h1
    exact h1
  · rename_i heq
    rw [heq] at h1
    exact h1
  · rename_i w1 heq
    rw [heq] at h1
    show (Redis.ReleaseLock _ _).2.books = _
    rw [Redis.ReleaseLock_books, BalanceRepository.Withdraw_books]
    exact h1

theorem PaymentRepository.FindByUserIDandOrderID_books (u o : Int) (w : World) :
    (PaymentRepository.FindByUserIDandOrderID u o w).2.books = w.books := by
  simp only [PaymentRepository.FindByUserIDandOrderID]
  split_ifs <;> rfl

/-- What `PaymentRepository.Update` does to the orders and payments tables: nothing, or the
`UPDATE` of the payments whose `order_id` is the given id. -/
theorem PaymentRepository.Update_books (o : Int) (d : Payment) (w : World) :
    (PaymentRepository.Update o d w).2.books = w.books ∨
      (PaymentRepository.Update o d w).2.books
        = (w.orders, updatePayments w.payments o d w.now) := by
  simp only [PaymentRepository.Update]
  split_ifs
  · exact Or.inl rfl
  · exact Or.inr rfl

theorem OrderRepository.FindOne_books (o u : Int) (w : World) :
    (OrderRepository.FindOne o u w).2.books = w.books := by
  simp only [OrderRepository.FindOne]
  split_ifs <;> rfl

theorem RabbitMq.Publish_books (req : RabbitMqPublishRequest) (w : World) :
    (RabbitMq.Publish req w).2.books = w.books := by
  simp only [RabbitMq.Publish]
  split_ifs <;> rfl

theorem balanceLeg_books (u : Int) (p : Payment) (order : Order) (w : World) :
    (PaymentService.MakePayment.balanceLeg u p order w).2.books = w.books := by
  have h1 := BalanceRepository.GetBalance_books (toUint64 u) w
  simp only [PaymentService.MakePayment.balanceLeg]
  split_ifs with hm
  · split
    · rename_i heq
      rw [heq] at h1
      exact h1
    · rename_i b w1 heq
      rw [heq] at h1
      split_ifs
      · exact h1
      · rw [BalanceService.Withdraw_svc_books]
        exact h1
  · rfl

/-- What `MakePayment` does to the orders and payments tables, on any path: nothing, or the
`UPDATE` that completes the payments of the order. -/
theorem MakePayment_books (u o : Int) (w : World) :
    (PaymentService.MakePayment u o w).2.books = w.books ∨
      ∃ t, (PaymentService.MakePayment u o w).2.books
        = (w.orders, updatePayments w.payments o (completedPayment o) t) := by
  have h1 := PaymentRepository.FindByUserIDandOrderID_books u o w
  simp only [PaymentService.MakePayment]
  split
  · rename_i heq
    rw [heq] at h1
    exact Or.inl h1
  · rename_i heq
    rw [heq] at h1
    exact Or.inl h1
  · rename_i p w1 heq
    rw [heq] at h1
    split_ifs
    · exact Or.inl h1
    · have h2 := OrderRepository.FindOne_books o u w1
      split
      · rename_i heq2
        rw [heq2] at h2
        exact Or.inl (h2.trans h1)
      · rename_i heq2
        rw [heq2] at h2
        exact Or.inl (h2.trans h1)
      · rename_i order w2 heq2
        rw [heq2] at h2
        have h3 := balanceLeg_books u p order w2
        split
        · rename_i e w3 heq3
          rw [heq3] at h3
          exact Or.inl (h3.trans (h2.trans h1))
        · rename_i w3 heq3
          rw [heq3] at h3
          have h30 : w3.books = w.books := h3.trans (h2.trans h1)
          have h4 : w3.books = w.books →
              ((PaymentRepository.Update o (completedPayment o) w3).2.books = w.books ∨
              ∃ t, (PaymentRepository.Update o (completedPayment o) w3).2.books
                = (w.orders, updatePayments w.payments o (completedPayment o) t)) := by
            intro hb
            rcases PaymentRepository.Update_books o (completedPayment o) w3 with h | h
            · exact Or.inl (h.trans hb)
            · refine Or.inr ⟨w3.now, ?_⟩
              rw [h]
              have ho : w3.orders = w.orders := congrArg Prod.fst hb
              have hp : w3.payments = w.payments := congrArg Prod.snd hb
              rw [ho, hp]
          have h4 := h4 h30
          split
          · rename_i e w4 heq4
            rw [heq4] at h4
            exact h4
          · rename_i w4 heq4
            rw [heq4] at h4
            have h5 := RabbitMq.Publish_books (paidEvent o) w4
            split
            · rename_i e w5 heq5
              rw [heq5] at h5
              rw [show w5.books = w4.books from h5]
              exact h4
            · rename_i w5 heq5
              rw [heq5] at h5
              rw [show w5.books = w4.books from h5]
              exact h4

theorem orderStatus_updateOrderStatus (rows : List Order) (o id : Int) (st : String) :
    orderStatus (updateOrderStatus rows o st) id
      = if id = o then (orderStatus rows id).map (fun _ => st) else orderStatus rows id := by
  unfold orderStatus updateOrderStatus
  rw [List.find?_map]
  have hcomp : ((fun x : Order => decide (x.ID = id)) ∘
      fun x => if x.ID = o then { x with Status := st } else x)
      = fun x : Order => decide (x.ID = id) := by
    funext x
    simp only [Function.comp_apply]
    split <;> rfl
  rw [hcomp]
  cases hx : List.find? (fun x : Order => decide (x.ID = id)) rows with
  | none => simp
  | some x =>
    have hxid : x.ID = id := by
      have := List.find?_some hx
      simpa using this
    by_cases hio : id = o
    · have hxo : x.ID = o := hxid.trans hio
      simp [hio, hxo]
    · have hxo : ¬ x.ID = o := fun e => hio (hxid.symm.trans e)
      simp [hio, hxo]

/-- The `UPDATE` of payments never makes a payment `pending`, unless it is asked to. -/
theorem updatePayments_no_pending (rows : List Payment) (o : Int) (d : Payment) (t : Nat)
    (id : Int) (hd : d.PaymentStatus ≠ "pending")
    (h : ∀ p ∈ rows, p.OrderID = id → p.PaymentStatus ≠ "pending") :
    ∀ p ∈ updatePayments rows o d t, p.OrderID = id → p.PaymentStatus ≠ "pending" := by
  intro p hp
  obtain ⟨q, hq, rfl⟩ := List.mem_map.mp hp
  have hq0 := h q hq
  split_ifs with hqo
  · intro hid
    show coalesce (nullString d.PaymentStatus) q.PaymentStatus ≠ "pending"
    unfold nullString
    split_ifs
    · exact hq0 hid
    · exact hd
  · exact hq0

/-- What `OrderRepository.Update` does to the orders and payments tables: nothing, or the
`UPDATE` of the status of the order with the given id. -/
theorem OrderRepository.Update_order_books (o : Int) (d : Order) (w : World) :
    (OrderRepository.Update o d w).2.books = w.books ∨
      (OrderRepository.Update o d w).2.books
        = (updateOrderStatus w.orders o d.Status, w.payments) := by
  simp only [OrderRepository.Update]
  split_ifs
  · exact Or.inl rfl
  · exact Or.inl rfl
  · exact Or.inr rfl

theorem OrderItemRepository.Finds_books (o : Int) (w : World) :
    (OrderItemRepository.Finds o w).2.books = w.books := by
  simp only [OrderItemRepository.Finds]
  split_ifs <;> rfl

theorem ProductRepository.FindOne_product_books (id : Int) (w : World) :
    (ProductRepository.FindOne id w).2.books = w.books := by
  simp only [ProductRepository.FindOne]
  split_ifs <;> rfl

theorem ProductRepository.UpdateStock_books (id ns : Int) (w : World) :
    (ProductRepository.UpdateStock id ns w).2.books = w.books := by
  simp only [ProductRepository.UpdateStock]
  split_ifs <;> rfl

theorem restockLoop_books (items : List OrderItem) :
    ∀ w : World,
      (PaymentWorker.ProcessExpiredPayments.restockLoop items w).2.books = w.books := by
  induction items with
  | nil => intro w; rfl
  | cons it items ih =>
    intro w
    have h1 := ProductRepository.FindOne_product_books it.ProductID w
    simp only [PaymentWorker.ProcessExpiredPayments.restockLoop]
    split
    · rename_i heq
      rw [heq] at h1
      exact h1
    · rename_i heq
      rw [heq] at h1
      exact h1
    · rename_i p w1 heq
      rw [heq] at h1
      rw [ih, ProductRepository.UpdateStock_books]
      exact h1

/-- An order that is paid and has no pending payment stays so under `MakePayment`. -/
theorem MakePayment_keeps_paid (u o : Int) (w : World) (id : Int) (h : PaidAndSettled w id) :
    PaidAndSettled (PaymentService.MakePayment u o w).2 id := by
  rcases MakePayment_books u o w with hb | ⟨t, hb⟩
  · have ho : (PaymentService.MakePayment u o w).2.orders = w.orders := congrArg Prod.fst hb
    have hp : (PaymentService.MakePayment u o w).2.payments = w.payments :=
      congrArg Prod.snd hb
    unfold PaidAndSettled
    rw [ho, hp]
    exact h
  · have ho : (PaymentService.MakePayment u o w).2.orders = w.orders := congrArg Prod.fst hb
    have hp : (PaymentService.MakePayment u o w).2.payments
        = updatePayments w.payments o (completedPayment o) t := congrArg Prod.snd hb
    unfold PaidAndSettled
    rw [ho, hp]
    have hd : (completedPayment o).PaymentStatus ≠ "pending" := by
      show "completed" ≠ "pending"
      decide
    exact ⟨h.1, updatePayments_no_pending _ _ _ _ _ hd h.2⟩

/-- An order that is paid and has no pending payment stays so under `UpdateStatusOrder` with
the status `paid`. -/
theorem UpdateStatusOrder_keeps_paid (o : Int) (w : World) (id : Int)
    (h : PaidAndSettled w id) :
    PaidAndSettled (OrderService.UpdateStatusOrder o consts.Paid w).2 id := by
  simp only [OrderService.UpdateStatusOrder]
  rw [if_pos trivial]
  rcases OrderRepository.Update_order_books o { Order.zero with ID := o, Status := consts.Paid }
    w with hb | hb
  · have ho := congrArg Prod.fst hb
    have hp := congrArg Prod.snd hb
    simp only [World.books] at ho hp
    unfold PaidAndSettled
    rw [ho, hp]
    exact h
  · have ho := congrArg Prod.fst hb
    have hp := congrArg Prod.snd hb
    simp only [World.books] at ho hp
    unfold PaidAndSettled
    rw [ho, hp, orderStatus_updateOrderStatus]
    refine ⟨?_, h.2⟩
    split_ifs with hio
    · rw [h.1]
      rfl
    · exact h.1

/-- An order that is paid and has no pending payment stays so when the reaper cancels a
payment of another order. -/
theorem ProcessExpiredPayments_keeps_paid (p : Payment) (w : World) (id : Int)
    (hne : p.OrderID ≠ id) (h : PaidAndSettled w id) :
    PaidAndSettled (PaymentWorker.ProcessExpiredPayments p w).2 id := by
  have h1 : PaidAndSettled (PaymentRepository.Update p.ID failedPayment w).2 id := by
    rcases PaymentRepository.Update_books p.ID failedPayment w with hb | hb
    · have ho := congrArg Prod.fst hb
      have hp := congrArg Prod.snd hb
      simp only [World.books] at ho hp
      unfold PaidAndSettled
      rw [ho, hp]
      exact h
    · have ho := congrArg Prod.fst hb
      have hp := congrArg Prod.snd hb
      simp only [World.books] at ho hp
      unfold PaidAndSettled
      rw [ho, hp]
      exact ⟨h.1, updatePayments_no_pending _ _ _ _ _ (by decide) h.2⟩
  have h2 := OrderItemRepository.Finds_books p.OrderID
    (PaymentRepository.Update p.ID failedPayment w).2
  have h3 := restockLoop_books
    (itemsOrNil (OrderItemRepository.Finds p.OrderID
      (PaymentRepository.Update p.ID failedPayment w).2).1)
    (OrderItemRepository.Finds p.OrderID (PaymentRepository.Update p.ID failedPayment w).2).2
  simp only [PaymentWorker.ProcessExpiredPayments]
  split
  · rename_i w3 heq
    rw [heq] at h3
    have hb := h3.trans h2
    have ho := congrArg Prod.fst hb
    have hp := congrArg Prod.snd hb
    simp only [World.books] at ho hp
    unfold PaidAndSettled
    rw [ho, hp]
    exact h1
  · rename_i u w3 heq
    rw [heq] at h3
    have hb := h3.trans h2
    have ho := congrArg Prod.fst hb
    have hp := congrArg Prod.snd hb
    simp only [World.books] at ho hp
    have h30 : PaidAndSettled w3 id := by
      unfold PaidAndSettled
      rw [ho, hp]
      exact h1
    rcases OrderRepository.Update_order_books p.OrderID cancelledOrder w3 with hb4 | hb4
    · have ho4 := congrArg Prod.fst hb4
      have hp4 := congrArg Prod.snd hb4
      simp only [World.books] at ho4 hp4
      unfold PaidAndSettled
      rw [ho4, hp4]
      exact h30
    · have ho4 := congrArg Prod.fst hb4
      have hp4 := congrArg Prod.snd hb4
      simp only [World.books] at ho4 hp4
      unfold PaidAndSettled
      rw [ho4, hp4, orderStatus_updateOrderStatus, if_neg (Ne.symm hne)]
      exact h30

/-- C16 (counterexample): in `reaperWorld` the reaper cancels order 1 and marks its payment
`failed`; a later `MakePayment` for that order returns `nil`, turns the payment from `failed`
to `completed` and publishes the paid event, and the `UpdateStatusOrder` driven by that event
turns the cancelled order into `paid`.  In `paidWorld` a reaper tick starts the cancellation
of the pending, expired payment 2 of order 2; before that goroutine runs, `MakePayment`
completes the payment and the paid event makes the order `paid`; the goroutine then turns the
paid order into `cancelled` and its payment from `completed` to `failed`. -/
theorem cancelled_order_becomes_paid :
    orderStatus (PaymentWorker.ProcessExpiredPayments
        { ID := 1, OrderID := 1, PaymentMethod := "transfer", PaymentStatus := "pending",
          CreatedAt := 0, UpdatedAt := 0, ExpiredAt := tenMinutes } reaperWorld).2.orders 1
      = some "cancelled" ∧
    paymentStatus (PaymentWorker.ProcessExpiredPayments
        { ID := 1, OrderID := 1, PaymentMethod := "transfer", PaymentStatus := "pending",
          CreatedAt := 0, UpdatedAt := 0, ExpiredAt := tenMinutes } reaperWorld).2.payments 1
      = some "failed" ∧
    (PaymentService.MakePayment 1 1 (PaymentWorker.ProcessExpiredPayments
        { ID := 1, OrderID := 1, PaymentMethod := "transfer", PaymentStatus := "pending",
          CreatedAt := 0, UpdatedAt := 0, ExpiredAt := tenMinutes } reaperWorld).2).1
      = GoResult.returned none ∧
    paymentStatus (PaymentService.MakePayment 1 1 (PaymentWorker.ProcessExpiredPayments
        { ID := 1, OrderID := 1, PaymentMethod := "transfer", PaymentStatus := "pending",
          CreatedAt := 0, UpdatedAt := 0, ExpiredAt := tenMinutes } reaperWorld).2).2.payments 1
      = some "completed" ∧
    (PaymentService.MakePayment 1 1 (PaymentWorker.ProcessExpiredPayments
        { ID := 1, OrderID := 1, PaymentMethod := "transfer", PaymentStatus := "pending",
          CreatedAt := 0, UpdatedAt := 0, ExpiredAt := tenMinutes } reaperWorld).2).2.queue
      = [{ QueueName := QueueName.QueueUpdateStock,
           Messages := { OrderID := 1, Status := "paid" } }] ∧
    orderStatus (OrderService.UpdateStatusOrder 1 "paid"
        (PaymentService.MakePayment 1 1 (PaymentWorker.ProcessExpiredPayments
          { ID := 1, OrderID := 1, PaymentMethod := "transfer", PaymentStatus := "pending",
            CreatedAt := 0, UpdatedAt := 0, ExpiredAt := tenMinutes } reaperWorld).2).2).2.orders 1
      = some "paid" ∧
    (runSettlementSteps (lateCancellation.take 1)
        { world := paidWorld, started := [] }).started.map
        (fun p => (p.ID, p.OrderID, p.PaymentStatus))
      = [(2, 2, "pending")] ∧
    orderStatus (runSettlementSteps (lateCancellation.take 3)
        { world := paidWorld, started := [] }).world.orders 2 = some "paid" ∧
    paymentStatus (runSettlementSteps (lateCancellation.take 3)
        { world := paidWorld, started := [] }).world.payments 2 = some "completed" ∧
    orderStatus (runSettlementSteps lateCancellation
        { world := paidWorld, started := [] }).world.orders 2 = some "cancelled" ∧
    paymentStatus (runSettlementSteps lateCancellation
        { world := paidWorld, started := [] }).world.payments 2 = some "failed" := by
  refine ⟨by decide, by decide, by rfl, by decide, by decide, by decide, by decide, by decide,
    by decide, by decide, by decide⟩

/-- A reaper tick starts no cancellation for an order that has no pending payment. -/
theorem cancelExpiredPayments_started (w : World) (id : Int)
    (h : ∀ p ∈ w.payments, p.OrderID = id → p.PaymentStatus ≠ "pending") :
    ∀ p ∈ (PaymentWorker.cancelExpiredPayments w).1, p.OrderID ≠ id := by
  intro p hp hid
  rw [cancelExpiredPayments_eq] at hp
  split_ifs at hp with hfail
  · exact absurd hp (List.not_mem_nil p)
  · obtain ⟨q, hq, hqo, hqs⟩ := findExpiredPayments_stored _ _ p hp
    exact h q hq (hqo.trans hid) hqs

/-- An order that is paid and has no pending payment stays so under a reaper tick. -/
theorem cancelExpiredPayments_keeps_paid (w : World) (id : Int) (h : PaidAndSettled w id) :
    PaidAndSettled (PaymentWorker.cancelExpiredPayments w).2 id := by
  rw [cancelExpiredPayments_eq]
  exact h

/-- An order that is paid, with no pending payment and no cancellation started for it, stays
so when a goroutine started by the reaper runs. -/
theorem Process.runStarted_keeps_paid (index : Nat) (faults : List Bool) (s : Process)
    (id : Int) (h : PaidAndSettled s.world id) (hs : NoCancellationStarted s id) :
    PaidAndSettled (s.runStarted index faults).world id ∧
    NoCancellationStarted (s.runStarted index faults) id := by
  unfold Process.runStarted
  split
  · exact ⟨h, hs⟩
  · rename_i payment hget
    have hmem : payment ∈ s.started := List.get?_mem hget
    have h0 : PaidAndSettled { s.world with faults := faults } id := h
    have h1 := ProcessExpiredPayments_keeps_paid payment { s.world with faults := faults } id
      (hs payment hmem) h0
    split
    · rename_i w1 heq
      rw [heq] at h1
      exact ⟨h1, fun p hp => absurd hp (List.not_mem_nil p)⟩
    · rename_i u w1 heq
      rw [heq] at h1
      exact ⟨h1, fun p hp => hs p (List.mem_of_mem_eraseIdx hp)⟩

theorem SettlementStep.run_keeps_paid (c : SettlementStep) (faults : List Bool) (s : Process)
    (id : Int) (hc : c.publishedStatus) (h : PaidAndSettled s.world id)
    (hs : NoCancellationStarted s id) :
    PaidAndSettled (c.run faults s).world id ∧ NoCancellationStarted (c.run faults s) id := by
  have h0 : PaidAndSettled { s.world with faults := faults } id := h
  cases c with
  | MakePayment u o => exact ⟨MakePayment_keeps_paid u o _ id h0, hs⟩
  | UpdateStatusOrder o status =>
    have hst : status = consts.Paid := hc
    subst hst
    exact ⟨UpdateStatusOrder_keeps_paid o _ id h0, hs⟩
  | cancelExpiredPayments =>
    refine ⟨cancelExpiredPayments_keeps_paid _ id h0, ?_⟩
    intro p hp
    rcases List.mem_append.mp hp with hp | hp
    · exact hs p hp
    · exact cancelExpiredPayments_started _ id h0.2 p hp
  | ProcessExpiredPayments index => exact Process.runStarted_keeps_paid index faults s id h hs

/-- C16 (as amended): an order whose status is `paid`, none of whose payments is `pending`
(what `MakePayment` and the paid event leave behind) and for which no cancellation started by
the reaper is still to run, stays `paid`, with no pending payment and no cancellation started,
through every history of `MakePayment` calls, `UpdateStatusOrder` calls carrying the status
`paid`, reaper ticks and runs of the goroutines those ticks started, in any order, each step
under an arbitrary fault script. -/
theorem paid_order_stays_paid (s : Process) (id : Int)
    (steps : List (SettlementStep × List Bool))
    (hpaid : PaidAndSettled s.world id) (hstarted : NoCancellationStarted s id)
    (hsteps : ∀ c ∈ steps, c.1.publishedStatus) :
    PaidAndSettled (runSettlementSteps steps s).world id ∧
    NoCancellationStarted (runSettlementSteps steps s) id ∧
    orderStatus (runSettlementSteps steps s).world.orders id = some "paid" := by
  suffices hs : PaidAndSettled (runSettlementSteps steps s).world id ∧
      NoCancellationStarted (runSettlementSteps steps s) id from ⟨hs.1, hs.2, hs.1.1⟩
  induction steps generalizing s with
  | nil => exact ⟨hpaid, hstarted⟩
  | cons c cs ih =>
    obtain ⟨c, faults⟩ := c
    have h1 := SettlementStep.run_keeps_paid c faults s id
      (hsteps (c, faults) (List.mem_cons_self _ _)) hpaid hstarted
    exact ih (c.run faults s) h1.1 h1.2
      (fun c' hc' => hsteps c' (List.mem_cons_of_mem _ hc'))

/-- Witness of C16 as amended: in `paidWorld` order 1 is paid by a completed payment, and it
is still paid after `paidHistory`, whose reaper tick starts the cancellation of order 2. -/
theorem paid_order_stays_paid_witness :
    PaidAndSettled paidWorld 1 ∧
    (PaidAndSettled (runSettlementSteps paidHistory
        { world := paidWorld, started := [] }).world 1 ∧
      NoCancellationStarted (runSettlementSteps paidHistory
        { world := paidWorld, started := [] }) 1 ∧
      orderStatus (runSettlementSteps paidHistory
        { world := paidWorld, started := [] }).world.orders 1 = some "paid") :=
  ⟨⟨by decide, by decide⟩,
   paid_order_stays_paid { world := paidWorld, started := [] } 1 paidHistory
    ⟨by decide, by decide⟩ (fun p hp => absurd hp (List.not_mem_nil p))
    (by
      intro c hc
      simp only [paidHistory, List.mem_cons, List.mem_singleton, List.not_mem_nil,
        or_false] at hc
      rcases hc with rfl | rfl | rfl | rfl
      · trivial
      · rfl
      · trivial
      · trivial)⟩

/-! ## Failures of the reaper and of the order status update -/

/-- C22 (evaluation of the code): in `brokenOrderWorld` the first item of the expired order
names a product that is not in the catalog, and `ProcessExpiredPayments` panics on
`product.Stock`: the stock of product 1, wanted by the second item, stays 3 and the order
stays `pending`.  The same happens in `twoItemWorld` when the first product lookup fails.
Only a failed stock update is survived: in `twoItemWorld`, when the first `UpdateStock`
fails, the call returns `nil`, the second item is restored (stock 3 to 5) and the order is
cancelled. -/
theorem ProcessExpiredPayments_panics_on_missing_product :
    (PaymentWorker.ProcessExpiredPayments reaperPayment brokenOrderWorld).1 = GoResult.panic ∧
    stockOf (PaymentWorker.ProcessExpiredPayments reaperPayment brokenOrderWorld).2.products 1
      = 3 ∧
    orderStatus (PaymentWorker.ProcessExpiredPayments reaperPayment brokenOrderWorld).2.orders 1
      = some "pending" ∧
    (PaymentWorker.ProcessExpiredPayments reaperPayment
        { twoItemWorld with faults := [false, false, true] }).1 = GoResult.panic ∧
    stockOf (PaymentWorker.ProcessExpiredPayments reaperPayment
        { twoItemWorld with faults := [false, false, true] }).2.products 1 = 3 ∧
    orderStatus (PaymentWorker.ProcessExpiredPayments reaperPayment
        { twoItemWorld with faults := [false, false, true] }).2.orders 1 = some "pending" ∧
    (PaymentWorker.ProcessExpiredPayments reaperPayment
        { twoItemWorld with faults := [false, false, false, true] }).1
      = GoResult.returned none ∧
    stockOf (PaymentWorker.ProcessExpiredPayments reaperPayment
        { twoItemWorld with faults := [false, false, false, true] }).2.products 1 = 5 ∧
    orderStatus (PaymentWorker.ProcessExpiredPayments reaperPayment
        { twoItemWorld with faults := [false, false, false, true] }).2.orders 1
      = some "cancelled" := by
  refine ⟨by rfl, by decide, by decide, by rfl, by decide, by decide, by rfl, by decide,
    by decide⟩

/-- C28 (evaluation of the code): in `reaperWorld` order 1 is `pending`;
`UpdateStatusOrder 1 "cancelled"` returns `nil` and leaves the order with the empty status,
which is none of `pending`, `paid`, `cancelled`; its user, total and creation time are
unchanged, and `UpdateStatusOrder 1 "paid"` sets the status to `paid`. -/
theorem UpdateStatusOrder_blanks_status :
    (OrderService.UpdateStatusOrder 1 "cancelled" reaperWorld).1 = none ∧
    (OrderService.UpdateStatusOrder 1 "cancelled" reaperWorld).2.orders
      = [{ ID := 1, UserID := 1, TotalPrice := 20, Status := "", CreatedAt := 0 }] ∧
    (OrderService.UpdateStatusOrder 1 "paid" reaperWorld).2.orders
      = [{ ID := 1, UserID := 1, TotalPrice := 20, Status := "paid", CreatedAt := 0 }] := by
  refine ⟨by rfl, by decide, by decide⟩

/-- C29 (evaluation of the code): in `crossedWorld` the expired payment 1 belongs to order 2
and the completed payment 2 belongs to order 1.  `ProcessExpiredPayments` on payment 1 updates
the payments whose `order_id` is 1: payment 2 goes from `completed` to `failed`, and payment 1
itself stays `pending`. -/
theorem ProcessExpiredPayments_fails_other_payment :
    (PaymentWorker.ProcessExpiredPayments
        { ID := 1, OrderID := 2, PaymentMethod := "transfer", PaymentStatus := "pending",
          CreatedAt := 0, UpdatedAt := 0, ExpiredAt := tenMinutes } crossedWorld).1
      = GoResult.returned none ∧
    crossedWorld.payments.map (fun p => (p.ID, p.OrderID, p.PaymentStatus))
      = [(1, 2, "pending"), (2, 1, "completed")] ∧
    (PaymentWorker.ProcessExpiredPayments
        { ID := 1, OrderID := 2, PaymentMethod := "transfer", PaymentStatus := "pending",
          CreatedAt := 0, UpdatedAt := 0, ExpiredAt := tenMinutes } crossedWorld).2.payments.map
        (fun p => (p.ID, p.OrderID, p.PaymentStatus))
      = [(1, 2, "pending"), (2, 1, "failed")] := by
  refine ⟨by rfl, by decide, by decide⟩

/-! ## Cart changes -/

/-- C23 (evaluation of the code): in `sharedProductWorld` the carts of users 1 and 2 both hold
product 1.  `RemoveFromCart 1 1` returns `nil` and deletes every cart item of product 1: the
line of cart 1 and also line 3, which belongs to the cart of user 2.  The two refusals are as
claimed: user 3 has no cart (`ErrEmptyCart`), and the cart of user 1 has no line for
product 3 (`ErrDataNotFound`). -/
theorem RemoveFromCart_deletes_other_carts_lines :
    sharedProductWorld.cartItems.map (fun i => (i.ID, i.CartID, i.ProductID))
      = [(1, 1, 1), (2, 1, 2), (3, 2, 1)] ∧
    (CartService.RemoveFromCart 1 1 sharedProductWorld).1 = none ∧
    (CartService.RemoveFromCart 1 1 sharedProductWorld).2.cartItems.map
        (fun i => (i.ID, i.CartID, i.ProductID))
      = [(2, 1, 2)] ∧
    CartService.RemoveFromCart 3 1 sharedProductWorld
      = (some Err.ErrEmptyCart, sharedProductWorld) ∧
    CartService.RemoveFromCart 1 3 sharedProductWorld
      = (some Err.ErrDataNotFound, sharedProductWorld) := by
  refine ⟨by decide, by rfl, by decide, by rfl, by rfl⟩

/-- C25 (evaluation of the code): product 99 is not in the catalog of `cartWorld`.
`AddToCart 1 99 1` returns `nil` and stores a cart item for product 99 in the cart of user 1;
for user 2, who has no cart, it also creates the cart.  In `orphanLineWorld`, where the cart
already holds a line for the missing product 1, `AddToCart 1 1 1` panics on `product.Stock`. -/
theorem AddToCart_accepts_missing_product :
    findProduct cartWorld.products 99 = none ∧
    (CartService.AddToCart 1 99 1 cartWorld).1 = GoResult.returned none ∧
    (CartService.AddToCart 1 99 1 cartWorld).2.cartItems.map
        (fun i => (i.ID, i.CartID, i.ProductID, i.Quantity))
      = [(1, 1, 1, 2), (2, 1, 2, 1), (3, 1, 99, 1)] ∧
    (CartService.AddToCart 2 99 1 cartWorld).1 = GoResult.returned none ∧
    (CartService.AddToCart 2 99 1 cartWorld).2.cartItems.map
        (fun i => (i.ID, i.CartID, i.ProductID, i.Quantity))
      = [(1, 1, 1, 2), (2, 1, 2, 1), (3, 2, 99, 1)] ∧
    findProduct orphanLineWorld.products 1 = none ∧
    (CartService.AddToCart 1 1 1 orphanLineWorld).1 = GoResult.panic := by
  refine ⟨by decide, by rfl, by decide, by rfl, by decide, by decide, by rfl⟩

/-- C26 (counterexample): in `cartWorld`, `UpdateCart` with the requested quantity 0 for
product 1 (stock 5) returns `nil` and sets the quantity of the line to 0; with the requested
quantity -3 it sets it to -3.  And the sum of a merge wraps around: after `AddToCart` of
`2^63 - 1` units of product 3 (a new line, stored without any check), `AddToCart` of 1 more
unit, with 7 in stock, leaves the line with the quantity `-2^63`. -/
theorem UpdateCart_stores_nonpositive_quantity :
    (CartService.UpdateCart 1 { ProductID := 1, Quantity := 0 } cartWorld).1
      = GoResult.returned none ∧
    (CartService.UpdateCart 1 { ProductID := 1, Quantity := 0 } cartWorld).2.cartItems.map
        (fun i => (i.ID, i.ProductID, i.Quantity))
      = [(1, 1, 0), (2, 2, 1)] ∧
    (CartService.UpdateCart 1 { ProductID := 1, Quantity := -3 } cartWorld).1
      = GoResult.returned none ∧
    (CartService.UpdateCart 1 { ProductID := 1, Quantity := -3 } cartWorld).2.cartItems.map
        (fun i => (i.ID, i.ProductID, i.Quantity))
      = [(1, 1, -3), (2, 2, 1)] ∧
    (runCartCalls [(CartCall.AddToCart 1 3 maxInt64, []), (CartCall.AddToCart 1 3 1, [])]
        cartWorld).cartItems.map (fun i => (i.ID, i.ProductID, i.Quantity))
      = [(1, 1, 2), (2, 2, 1), (3, 3, -9223372036854775808)] := by
  refine ⟨by rfl, by decide, by rfl, by decide, by decide⟩


/-! ## Cart changes: merge, quantities -/

theorem findCartItem_mem (rows : List CartItem) (c p : Int) (item : CartItem)
    (h : findCartItem rows c p = some item) : item ∈ rows :=
  List.mem_of_find?_eq_some h

theorem findCartItem_keys (rows : List CartItem) (c p : Int) (item : CartItem)
    (h : findCartItem rows c p = some item) : item.CartID = c ∧ item.ProductID = p := by
  have := List.find?_some h
  simpa using this

theorem find_id_isSome_of_mem (rows : List CartItem) (item : CartItem) (h : item ∈ rows) :
    (rows.find? (fun i => decide (i.ID = item.ID))).isNone = false := by
  cases hfind : rows.find? (fun i => decide (i.ID = item.ID)) with
  | some x => rfl
  | none =>
    have := List.find?_eq_none.mp hfind item h
    simp at this

/-- The `UPDATE` of a cart item keeps the cart and the product of every row, so the row found
for a cart and a product is the same row, updated when its id is the given one. -/
theorem findCartItem_updateCartItem (rows : List CartItem) (id q : Int) (now : Nat)
    (c p : Int) :
    findCartItem (updateCartItem rows id q now) c p
      = (findCartItem rows c p).map
          (fun i => if i.ID = id then { i with Quantity := q, UpdatedAt := now } else i) := by
  unfold findCartItem updateCartItem
  rw [List.find?_map]
  have hcomp : ((fun i : CartItem => decide (i.CartID = c) && decide (i.ProductID = p)) ∘
      fun i => if i.ID = id then { i with Quantity := q, UpdatedAt := now } else i)
      = fun i : CartItem => decide (i.CartID = c) && decide (i.ProductID = p) := by
    funext x
    simp only [Function.comp_apply]
    split <;> rfl
  rw [hcomp]

theorem updateCartItem_lines (rows : List CartItem) (id q : Int) (now : Nat) :
    (updateCartItem rows id q now).map (fun i => (i.ID, i.CartID, i.ProductID))
      = rows.map (fun i => (i.ID, i.CartID, i.ProductID)) := by
  unfold updateCartItem
  rw [List.map_map]
  apply List.map_congr_left
  intro x _
  simp only [Function.comp_apply]
  split <;> rfl

/-- A sum that is an `int64` is not changed by the wrap-around. -/
theorem wrapInt64_of_range (x : Int) (hlo : -2 ^ 63 ≤ x) (hhi : x < 2 ^ 63) :
    wrapInt64 x = x := by
  unfold wrapInt64
  rw [Int.emod_eq_of_lt (by omega) (by omega)]
  omega

/-- The wrap-around yields an `int64`. -/
theorem wrapInt64_range (x : Int) : -2 ^ 63 ≤ wrapInt64 x ∧ wrapInt64 x < 2 ^ 63 := by
  unfold wrapInt64
  have h1 := Int.emod_nonneg (x + 2 ^ 63) (by norm_num : (2 : Int) ^ 64 ≠ 0)
  have h2 := Int.emod_lt_of_pos (x + 2 ^ 63) (by norm_num : (0 : Int) < 2 ^ 64)
  constructor <;> omega

/-- Without infrastructure failure, `AddToCart` for a product already in the user's cart:
the whole result. -/
theorem AddToCart_of_line (w : World) (userID productID quantity : Int) (cart : Cart)
    (item : CartItem) (product : Product) (hfaults : w.faults = [])
    (hcart : findCart w.carts userID = some cart)
    (hitem : findCartItem w.cartItems cart.ID productID = some item)
    (hproduct : findProduct w.products productID = some product) :
    CartService.AddToCart userID productID quantity w
      = if product.Stock < quantity then (GoResult.returned (some Err.ErrInsufficientStock), w)
        else (GoResult.returned none,
          { w with
            cartItems :=
              updateCartItem w.cartItems item.ID (wrapInt64 (quantity + item.Quantity))
                w.now }) := by
  have hf := World.fails_of_faults_nil w hfaults
  have hn := World.next_of_faults_nil w hfaults
  have hsome := find_id_isSome_of_mem _ _ (findCartItem_mem _ _ _ _ hitem)
  by_cases hlt : product.Stock < quantity
  · simp [CartService.AddToCart, CartRepository.FindByUserID, CartService.AddToCart.cartOrNew,
      ProductRepository.FindOne, CartItemRepository.FindOneByFilters, hf, hn, hcart, hitem,
      hproduct, hlt]
  · simp [CartService.AddToCart, CartRepository.FindByUserID, CartService.AddToCart.cartOrNew,
      ProductRepository.FindOne, CartItemRepository.FindOneByFilters,
      CartItemRepository.Update, hf, hn, hcart, hitem, hproduct, hlt, hsome]

/-- C24 (counterexample): in `cartWorld`, after `AddToCart 1 3` of `2^63 - 1` units (a new
line for product 3, stored without any check), the cart of user 1 holds `q0 = 2^63 - 1` units
of product 3, whose stock is 7.  `AddToCart 1 3 1` (`q = 1 > 0`, within the stock) returns
`nil` and leaves the line with the quantity `-2^63`, not `q0 + q = 2^63`. -/
theorem AddToCart_wraps_quantity :
    (CartService.AddToCart 1 3 maxInt64 cartWorld).1 = GoResult.returned none ∧
    findCartItem (CartService.AddToCart 1 3 maxInt64 cartWorld).2.cartItems 1 3
      = some { ID := 3, CartID := 1, ProductID := 3, Quantity := 9223372036854775807,
               CreatedAt := 0, UpdatedAt := 0 } ∧
    stockOf (CartService.AddToCart 1 3 maxInt64 cartWorld).2.products 3 = 7 ∧
    (CartService.AddToCart 1 3 1 (CartService.AddToCart 1 3 maxInt64 cartWorld).2).1
      = GoResult.returned none ∧
    findCartItem
        (CartService.AddToCart 1 3 1 (CartService.AddToCart 1 3 maxInt64 cartWorld).2).2.cartItems
        1 3
      = some { ID := 3, CartID := 1, ProductID := 3, Quantity := -9223372036854775808,
               CreatedAt := 0, UpdatedAt := 0 } := by
  refine ⟨by rfl, by decide, by decide, by rfl, by decide⟩

/-- C24 (as amended): without infrastructure failure, for a user whose cart holds an item for
product `p` (the row found for the cart and the product, of quantity `q0`), `AddToCart user p
q` fails with `ErrInsufficientStock` and changes nothing when `stock p < q`; otherwise it
returns `nil`, the only change is the `UPDATE` of that row, the row found for the cart and
the product is the same row with the Go `int` sum of `q0` and `q` as quantity, whether or not
it exceeds the stock, and the cart items keep their ids, carts and products (no line is
added).  The Go sum is `q0 + q` when that is an `int64`, and wraps around otherwise. -/
theorem AddToCart_merges_into_line (w : World) (userID productID quantity : Int)
    (cart : Cart) (item : CartItem) (product : Product) (hfaults : w.faults = [])
    (hcart : findCart w.carts userID = some cart)
    (hitem : findCartItem w.cartItems cart.ID productID = some item)
    (hproduct : findProduct w.products productID = some product) :
    (product.Stock < quantity →
      CartService.AddToCart userID productID quantity w
        = (GoResult.returned (some Err.ErrInsufficientStock), w)) ∧
    (¬ product.Stock < quantity →
      CartService.AddToCart userID productID quantity w
        = (GoResult.returned none,
            { w with
              cartItems :=
                updateCartItem w.cartItems item.ID (wrapInt64 (item.Quantity + quantity))
                  w.now }) ∧
      findCartItem (CartService.AddToCart userID productID quantity w).2.cartItems cart.ID
          productID
        = some { item with Quantity := wrapInt64 (item.Quantity + quantity),
                           UpdatedAt := w.now } ∧
      (-2 ^ 63 ≤ item.Quantity + quantity → item.Quantity + quantity < 2 ^ 63 →
        findCartItem (CartService.AddToCart userID productID quantity w).2.cartItems cart.ID
            productID
          = some { item with Quantity := item.Quantity + quantity, UpdatedAt := w.now }) ∧
      (CartService.AddToCart userID productID quantity w).2.cartItems.map
          (fun i => (i.ID, i.CartID, i.ProductID))
        = w.cartItems.map (fun i => (i.ID, i.CartID, i.ProductID))) := by
  have h := AddToCart_of_line w userID productID quantity cart item product hfaults hcart hitem
    hproduct
  constructor
  · intro hlt
    rw [h, if_pos hlt]
  · intro hlt
    rw [h, if_neg hlt, add_comm quantity item.Quantity]
    have hfound : findCartItem
        (updateCartItem w.cartItems item.ID (wrapInt64 (item.Quantity + quantity)) w.now)
        cart.ID productID
        = some { item with Quantity := wrapInt64 (item.Quantity + quantity),
                           UpdatedAt := w.now } := by
      rw [findCartItem_updateCartItem, hitem]
      simp
    refine ⟨rfl, hfound, ?_, updateCartItem_lines _ _ _ _⟩
    intro hlo hhi
    show findCartItem
      (updateCartItem w.cartItems item.ID (wrapInt64 (item.Quantity + quantity)) w.now)
      cart.ID productID = _
    rw [hfound, wrapInt64_of_range _ hlo hhi]

theorem cartWorld_line :
    findCartItem cartWorld.cartItems 1 1
      = some { ID := 1, CartID := 1, ProductID := 1, Quantity := 2, CreatedAt := 0,
               UpdatedAt := 0 } := by
  decide

/-- Witness of C24: in `cartWorld` the cart of user 1 holds 2 units of product 1, whose stock
is 5; adding 4 more gives a line of 6 units, above the stock, and adding 6 is refused. -/
theorem AddToCart_merges_into_line_witness :
    findCartItem (CartService.AddToCart 1 1 4 cartWorld).2.cartItems 1 1
      = some { ID := 1, CartID := 1, ProductID := 1, Quantity := 2 + 4, CreatedAt := 0,
               UpdatedAt := 0 } ∧
    CartService.AddToCart 1 1 6 cartWorld
      = (GoResult.returned (some Err.ErrInsufficientStock), cartWorld) :=
  ⟨((AddToCart_merges_into_line cartWorld 1 1 4
      { ID := 1, UserID := 1, CreatedAt := 0, UpdatedAt := 0 }
      { ID := 1, CartID := 1, ProductID := 1, Quantity := 2, CreatedAt := 0, UpdatedAt := 0 }
      { ID := 1, Name := "pen", Description := "", Price := 10, Stock := 5, CategoryID := 1,
        CreatedAt := 0, UpdatedAt := 0 }
      rfl (by decide) cartWorld_line (by decide)).2 (by decide)).2.2.1 (by decide) (by decide),
   (AddToCart_merges_into_line cartWorld 1 1 6
      { ID := 1, UserID := 1, CreatedAt := 0, UpdatedAt := 0 }
      { ID := 1, CartID := 1, ProductID := 1, Quantity := 2, CreatedAt := 0, UpdatedAt := 0 }
      { ID := 1, Name := "pen", Description := "", Price := 10, Stock := 5, CategoryID := 1,
        CreatedAt := 0, UpdatedAt := 0 }
      rfl (by decide) cartWorld_line (by decide)).1 (by decide)⟩

/-! ## Cart quantities -/

theorem CartQuantitiesWithin_of_eq (w w' : World) (bound : Int)
    (heq : w'.cartItems = w.cartItems) (h : CartQuantitiesWithin w bound) :
    CartQuantitiesWithin w' bound := by
  unfold CartQuantitiesWithin
  rw [heq]
  exact h

theorem CartQuantitiesWithin_mono (w : World) (bound bound' : Int) (hle : bound ≤ bound')
    (h : CartQuantitiesWithin w bound) : CartQuantitiesWithin w bound' :=
  fun i hi => ⟨(h i hi).1, Int.le_trans (h i hi).2 hle⟩

theorem CartQuantitiesWithin_positive (w : World) (bound : Int)
    (h : CartQuantitiesWithin w bound) : CartQuantitiesPositive w :=
  fun i hi => (h i hi).1

theorem World.next_cartItems (w : World) : w.next.cartItems = w.cartItems := rfl

theorem CartRepository.FindByUserID_cartItems (u : Int) (w : World) :
    (CartRepository.FindByUserID u w).2.cartItems = w.cartItems := by
  simp only [CartRepository.FindByUserID]
  split_ifs <;> rfl

theorem cartOrNew_cartItems (u : Int) (c : Option Cart) (w : World) :
    (CartService.AddToCart.cartOrNew u c w).2.cartItems = w.cartItems := by
  cases c with
  | some c => rfl
  | none =>
    simp only [CartService.AddToCart.cartOrNew, CartRepository.Store]
    split_ifs <;> rfl

theorem ProductRepository.FindOne_cartItems (id : Int) (w : World) :
    (ProductRepository.FindOne id w).2.cartItems = w.cartItems := by
  simp only [ProductRepository.FindOne]
  split_ifs <;> rfl

theorem CartItemRepository.FindOneByFilters_cartItems (c p : Int) (w : World) :
    (CartItemRepository.FindOneByFilters c p w).2.cartItems = w.cartItems := by
  simp only [CartItemRepository.FindOneByFilters]
  split_ifs <;> rfl

theorem CartItemRepository.FindOneByFilters_mem (c p : Int) (w : World) (item : CartItem)
    (h : (CartItemRepository.FindOneByFilters c p w).1 = Except.ok (some item)) :
    item ∈ w.cartItems := by
  simp only [CartItemRepository.FindOneByFilters] at h
  split_ifs at h
  simp only [Except.ok.injEq] at h
  exact findCartItem_mem _ _ _ _ h

theorem CartItemRepository.Store_within (d : CartItem) (w : World) (bound : Int)
    (hd : 0 < d.Quantity ∧ d.Quantity ≤ bound) (h : CartQuantitiesWithin w bound) :
    CartQuantitiesWithin (CartItemRepository.Store d w).2 bound := by
  simp only [CartItemRepository.Store]
  split_ifs
  · exact h
  · intro i hi
    rcases List.mem_append.mp hi with hi | hi
    · exact h i hi
    · rw [List.mem_singleton] at hi
      rw [hi]
      exact hd

theorem CartItemRepository.Update_within (id : Int) (d : CartItem) (w : World) (bound : Int)
    (hd : 0 < d.Quantity ∧ d.Quantity ≤ bound) (h : CartQuantitiesWithin w bound) :
    CartQuantitiesWithin (CartItemRepository.Update id d w).2 bound := by
  simp only [CartItemRepository.Update]
  split_ifs
  · exact h
  · exact h
  · intro i hi
    obtain ⟨j, hj, rfl⟩ := List.mem_map.mp hi
    split_ifs
    · exact hd
    · exact h j hj

theorem CartItemRepository.DeleteByProductID_within (p : Int) (w : World) (bound : Int)
    (h : CartQuantitiesWithin w bound) :
    CartQuantitiesWithin (CartItemRepository.DeleteByProductID p w).2 bound := by
  simp only [CartItemRepository.DeleteByProductID]
  split_ifs
  · exact h
  · intro i hi
    exact h i (List.mem_filter.mp hi).1

/-- Every path of `AddToCart` with a positive quantity keeps the cart quantities positive and
raises their bound by no more than the quantity, as long as the raised bound is an `int64`:
the sum of the merge does not wrap around then. -/
theorem AddToCart_within (u p q : Int) (w : World) (bound : Int) (hq : 0 < q)
    (hbound : 0 ≤ bound) (hsum : bound + q < 2 ^ 63) (h : CartQuantitiesWithin w bound) :
    CartQuantitiesWithin (CartService.AddToCart u p q w).2 (bound + q) := by
  have hmono : ∀ w' : World, w'.cartItems = w.cartItems →
      CartQuantitiesWithin w' (bound + q) := fun w' heq =>
    CartQuantitiesWithin_of_eq w w' _ heq
      (CartQuantitiesWithin_mono w bound _ (by omega) h)
  have h1 := CartRepository.FindByUserID_cartItems u w
  simp only [CartService.AddToCart]
  split
  · rename_i heq
    rw [heq] at h1
    exact hmono _ h1
  · rename_i c w1 heq
    rw [heq] at h1
    have h2 := (cartOrNew_cartItems u c w1).trans h1
    split
    · rename_i heq2
      rw [heq2] at h2
      exact hmono _ h2
    · rename_i cart w2 heq2
      rw [heq2] at h2
      have h3 := (ProductRepository.FindOne_cartItems p w2).trans h2
      split
      · rename_i heq3
        rw [heq3] at h3
        exact hmono _ h3
      · rename_i product w3 heq3
        rw [heq3] at h3
        have h4 := (CartItemRepository.FindOneByFilters_cartItems cart.ID p w3).trans h3
        have hmem := CartItemRepository.FindOneByFilters_mem cart.ID p w3
        split
        · rename_i heq4
          rw [heq4] at h4
          exact hmono _ h4
        · rename_i exist w4 heq4
          rw [heq4] at h4 hmem
          split
          · exact CartItemRepository.Store_within _ w4 _ ⟨hq, by show q ≤ bound + q; omega⟩
              (hmono _ h4)
          · rename_i e
            have he : 0 < e.Quantity ∧ e.Quantity ≤ bound := by
              have hin : e ∈ w.cartItems := by
                rw [← h3]
                exact hmem e rfl
              exact h e hin
            split
            · exact hmono _ h4
            · split_ifs
              · exact hmono _ h4
              · refine CartItemRepository.Update_within _ _ w4 _ ?_ (hmono _ h4)
                show 0 < wrapInt64 (q + e.Quantity) ∧ wrapInt64 (q + e.Quantity) ≤ bound + q
                rw [wrapInt64_of_range _ (by omega) (by omega)]
                omega

/-- Every path of `UpdateCart` with a positive requested quantity, not above the bound, keeps
the cart quantities positive and within the bound. -/
theorem UpdateCart_within (u : Int) (req : UpdateCartRequest) (w : World) (bound : Int)
    (hq : 0 < req.Quantity ∧ req.Quantity ≤ bound) (h : CartQuantitiesWithin w bound) :
    CartQuantitiesWithin (CartService.UpdateCart u req w).2 bound := by
  have h1 := CartQuantitiesWithin_of_eq w _ bound (CartRepository.FindByUserID_cartItems u w) h
  simp only [CartService.UpdateCart]
  split
  · rename_i heq
    rw [heq] at h1
    exact h1
  · rename_i heq
    rw [heq] at h1
    exact h1
  · rename_i cart w1 heq
    rw [heq] at h1
    have h2 := CartQuantitiesWithin_of_eq w1 _ bound
      (CartItemRepository.FindOneByFilters_cartItems cart.ID req.ProductID w1) h1
    split
    · rename_i heq2
      rw [heq2] at h2
      exact h2
    · rename_i heq2
      rw [heq2] at h2
      exact h2
    · rename_i item w2 heq2
      rw [heq2] at h2
      have h3 := CartQuantitiesWithin_of_eq w2 _ bound
        (ProductRepository.FindOne_cartItems req.ProductID w2) h2
      split
      · rename_i heq3
        rw [heq3] at h3
        exact h3
      · rename_i heq3
        rw [heq3] at h3
        exact h3
      · rename_i product w3 heq3
        rw [heq3] at h3
        split_ifs
        · exact h3
        · exact CartItemRepository.Update_within _ _ w3 bound hq h3

/-- Every path of `RemoveFromCart` keeps the cart quantities positive and within the bound. -/
theorem RemoveFromCart_within (u p : Int) (w : World) (bound : Int)
    (h : CartQuantitiesWithin w bound) :
    CartQuantitiesWithin (CartService.RemoveFromCart u p w).2 bound := by
  have h1 := CartQuantitiesWithin_of_eq w _ bound (CartRepository.FindByUserID_cartItems u w) h
  simp only [CartService.RemoveFromCart]
  split
  · rename_i heq
    rw [heq] at h1
    exact h1
  · rename_i heq
    rw [heq] at h1
    exact h1
  · rename_i cart w1 heq
    rw [heq] at h1
    have h2 := CartQuantitiesWithin_of_eq w1 _ bound
      (CartItemRepository.FindOneByFilters_cartItems cart.ID p w1) h1
    split
    · rename_i heq2
      rw [heq2] at h2
      exact h2
    · rename_i heq2
      rw [heq2] at h2
      exact h2
    · rename_i item w2 heq2
      rw [heq2] at h2
      exact CartItemRepository.DeleteByProductID_within p w2 bound h2

theorem CartCall.added_nonneg (c : CartCall) (hc : c.quantityPositive) : 0 ≤ c.added := by
  cases c with
  | AddToCart u p q => exact Int.le_of_lt hc
  | UpdateCart u req => exact Int.le_refl 0
  | RemoveFromCart u p => exact Int.le_refl 0

theorem cartCallsAdded_nonneg (steps : List (CartCall × List Bool))
    (hsteps : ∀ c ∈ steps, c.1.quantityPositive) : 0 ≤ cartCallsAdded steps := by
  induction steps with
  | nil => exact Int.le_refl 0
  | cons c cs ih =>
    obtain ⟨c, faults⟩ := c
    have h1 := CartCall.added_nonneg c (hsteps (c, faults) (List.mem_cons_self _ _))
    have h2 := ih (fun c' hc' => hsteps c' (List.mem_cons_of_mem _ hc'))
    show 0 ≤ c.added + cartCallsAdded cs
    omega

theorem CartCall.run_within (c : CartCall) (faults : List Bool) (w : World) (bound : Int)
    (hc : c.quantityPositive) (hreq : c.requested ≤ bound) (hbound : 0 ≤ bound)
    (hsum : bound + c.added < 2 ^ 63) (h : CartQuantitiesWithin w bound) :
    CartQuantitiesWithin (c.run faults w) (bound + c.added) := by
  have h0 : CartQuantitiesWithin { w with faults := faults } bound := h
  cases c with
  | AddToCart u p q => exact AddToCart_within u p q _ bound hc hbound hsum h0
  | UpdateCart u req =>
    show CartQuantitiesWithin _ (bound + 0)
    rw [Int.add_zero]
    exact UpdateCart_within u req _ bound ⟨hc, hreq⟩ h0
  | RemoveFromCart u p =>
    show CartQuantitiesWithin _ (bound + 0)
    rw [Int.add_zero]
    exact RemoveFromCart_within u p _ bound h0

theorem runCartCalls_within (steps : List (CartCall × List Bool)) :
    ∀ (w : World) (bound : Int), 0 ≤ bound →
      (∀ c ∈ steps, c.1.quantityPositive ∧ c.1.requested ≤ bound) →
      bound + cartCallsAdded steps < 2 ^ 63 → CartQuantitiesWithin w bound →
      CartQuantitiesWithin (runCartCalls steps w) (bound + cartCallsAdded steps) := by
  induction steps with
  | nil =>
    intro w bound _ _ _ h
    show CartQuantitiesWithin w (bound + 0)
    rw [Int.add_zero]
    exact h
  | cons c cs ih =>
    intro w bound hbound hsteps hsum h
    obtain ⟨c, faults⟩ := c
    have hc := hsteps (c, faults) (List.mem_cons_self _ _)
    have hadd := CartCall.added_nonneg c hc.1
    have hrest := cartCallsAdded_nonneg cs
      (fun c' hc' => (hsteps c' (List.mem_cons_of_mem _ hc')).1)
    have hsum' : bound + (c.added + cartCallsAdded cs) < 2 ^ 63 := hsum
    have hstep := CartCall.run_within c faults w bound hc.1 hc.2 hbound (by omega) h
    have := ih (c.run faults w) (bound + c.added) (by omega)
      (fun c' hc' =>
        ⟨(hsteps c' (List.mem_cons_of_mem _ hc')).1,
         Int.le_trans (hsteps c' (List.mem_cons_of_mem _ hc')).2 (by omega)⟩)
      (by omega) hstep
    show CartQuantitiesWithin (runCartCalls cs (c.run faults w))
      (bound + (c.added + cartCallsAdded cs))
    rw [← Int.add_assoc]
    exact this

/-- Without infrastructure failure, `UpdateCart` for a product in the user's cart and in the
catalog: the whole result. -/
theorem UpdateCart_of_line (w : World) (userID : Int) (req : UpdateCartRequest) (cart : Cart)
    (item : CartItem) (product : Product) (hfaults : w.faults = [])
    (hcart : findCart w.carts userID = some cart)
    (hitem : findCartItem w.cartItems cart.ID req.ProductID = some item)
    (hproduct : findProduct w.products req.ProductID = some product) :
    CartService.UpdateCart userID req w
      = if product.Stock < req.Quantity then
          (GoResult.returned (some Err.ErrInsufficientStock), w)
        else (GoResult.returned none,
          { w with cartItems := updateCartItem w.cartItems item.ID req.Quantity w.now }) := by
  have hf := World.fails_of_faults_nil w hfaults
  have hn := World.next_of_faults_nil w hfaults
  have hsome := find_id_isSome_of_mem _ _ (findCartItem_mem _ _ _ _ hitem)
  by_cases hlt : product.Stock < req.Quantity
  · simp [CartService.UpdateCart, CartRepository.FindByUserID, ProductRepository.FindOne,
      CartItemRepository.FindOneByFilters, hf, hn, hcart, hitem, hproduct, hlt]
  · simp [CartService.UpdateCart, CartRepository.FindByUserID, ProductRepository.FindOne,
      CartItemRepository.FindOneByFilters, CartItemRepository.Update, hf, hn, hcart, hitem,
      hproduct, hlt, hsome]

/-- C26 (as amended): every cart item has a positive quantity in every state reached from a
state with positive quantities through `AddToCart` and `UpdateCart` calls with a positive
quantity and `RemoveFromCart` calls, each under an arbitrary fault script, as long as the
sums of the merges cannot wrap around: the quantities of the first state and those requested
from `UpdateCart` are at most `bound`, and `bound` plus the quantities passed to `AddToCart`
stays below `2^63`.  Without infrastructure failure, `UpdateCart` for a line of the user's
cart whose product is in the catalog fails with `ErrInsufficientStock`, changing nothing, when
the stock is below the requested quantity, and otherwise sets the line's quantity to exactly
the requested value, whatever its sign. -/
theorem cart_quantities_stay_positive (w : World) (steps : List (CartCall × List Bool))
    (bound : Int) (hbound : 0 ≤ bound) (hpos : CartQuantitiesWithin w bound)
    (hsteps : ∀ c ∈ steps, c.1.quantityPositive ∧ c.1.requested ≤ bound)
    (hsum : bound + cartCallsAdded steps < 2 ^ 63) :
    CartQuantitiesPositive (runCartCalls steps w) ∧
    (∀ (w2 : World) (userID : Int) (req : UpdateCartRequest) (cart : Cart) (item : CartItem)
      (product : Product), w2.faults = [] → findCart w2.carts userID = some cart →
      findCartItem w2.cartItems cart.ID req.ProductID = some item →
      findProduct w2.products req.ProductID = some product →
      (product.Stock < req.Quantity →
        CartService.UpdateCart userID req w2
          = (GoResult.returned (some Err.ErrInsufficientStock), w2)) ∧
      (¬ product.Stock < req.Quantity →
        (CartService.UpdateCart userID req w2).1 = GoResult.returned none ∧
        findCartItem (CartService.UpdateCart userID req w2).2.cartItems cart.ID req.ProductID
          = some { item with Quantity := req.Quantity, UpdatedAt := w2.now })) := by
  refine ⟨CartQuantitiesWithin_positive _ _
    (runCartCalls_within steps w bound hbound hsteps hsum hpos), ?_⟩
  intro w2 userID req cart item product hfaults hcart hitem hproduct
  have h := UpdateCart_of_line w2 userID req cart item product hfaults hcart hitem hproduct
  constructor
  · intro hlt
    rw [h, if_pos hlt]
  · intro hlt
    rw [h, if_neg hlt]
    refine ⟨rfl, ?_⟩
    show findCartItem (updateCartItem w2.cartItems item.ID req.Quantity w2.now) cart.ID
      req.ProductID = _
    rw [findCartItem_updateCartItem, hitem]
    simp

/-- Witness of C26 as amended: from `cartWorld`, whose quantities are at most 5, adding 3
units of product 3, setting the line of product 1 to 5 units (under a failing first database
call, then without failure) and removing product 2 leaves positive quantities only. -/
theorem cart_quantities_stay_positive_witness :
    CartQuantitiesWithin cartWorld 5 ∧
    CartQuantitiesPositive (runCartCalls
      [(CartCall.AddToCart 1 3 3, []),
       (CartCall.UpdateCart 1 { ProductID := 1, Quantity := 5 }, [true]),
       (CartCall.UpdateCart 1 { ProductID := 1, Quantity := 5 }, []),
       (CartCall.RemoveFromCart 1 2, [])] cartWorld) :=
  ⟨by unfold CartQuantitiesWithin; decide,
   (cart_quantities_stay_positive cartWorld
      [(CartCall.AddToCart 1 3 3, []),
       (CartCall.UpdateCart 1 { ProductID := 1, Quantity := 5 }, [true]),
       (CartCall.UpdateCart 1 { ProductID := 1, Quantity := 5 }, []),
       (CartCall.RemoveFromCart 1 2, [])]
      5 (by decide)
      (by unfold CartQuantitiesWithin; decide)
      (by
        intro c hc
        simp only [List.mem_cons, List.mem_singleton, List.not_mem_nil, or_false] at hc
        rcases hc with rfl | rfl | rfl | rfl
        · exact ⟨by show (0 : Int) < 3; decide, by show (0 : Int) ≤ 5; decide⟩
        · exact ⟨by show (0 : Int) < 5; decide, by show (5 : Int) ≤ 5; decide⟩
        · exact ⟨by show (0 : Int) < 5; decide, by show (5 : Int) ≤ 5; decide⟩
        · exact ⟨trivial, by show (0 : Int) ≤ 5; decide⟩)
      (by decide)).1⟩

/-! ## Payment settlement: publish failure, foreign orders -/

/-- The payment found for the order after the completing `UPDATE` has status `completed`. -/
theorem paymentStatus_completed (rows : List Payment) (orderID : Int) (p : Payment) (now : Nat)
    (hfind : findPayment rows orderID = some p) :
    paymentStatus (updatePayments rows orderID (completedPayment orderID) now) orderID
      = some "completed" := by
  unfold paymentStatus
  rw [findPayment_updatePayments, hfind]
  simp [completedPayment, nullString, coalesce]

/-- A payment by another method than balance whose fourth call to the outside, the publish,
fails: the whole result. -/
theorem MakePayment_publish_fails_other (w : World) (userID orderID : Int) (p : Payment)
    (order : Order) (rest : List Bool)
    (hfaults : w.faults = false :: false :: false :: true :: rest)
    (hfind : findPayment w.payments orderID = some p)
    (hstatus : p.PaymentStatus ≠ "completed") (hmethod : p.PaymentMethod ≠ "balance")
    (horder : findOrder w.orders orderID userID = some order) :
    PaymentService.MakePayment userID orderID w =
      (GoResult.returned (some Err.infra),
        { w with
          faults := rest,
          payments := updatePayments w.payments orderID (completedPayment orderID) w.now }) := by
  obtain ⟨now, faults, locks, balances, balanceSeq, carts, cartItems, products, orders,
    orderSeq, orderItems, orderItemSeq, payments, paymentSeq, queue, redisLog,
    cartSeq, cartItemSeq⟩ := w
  simp only at hfaults hfind horder
  subst hfaults
  simp [PaymentService.MakePayment, PaymentRepository.FindByUserIDandOrderID,
    OrderRepository.FindOne, PaymentService.MakePayment.balanceLeg,
    PaymentRepository.Update, RabbitMq.Publish,
    World.fails, World.next, hfind, hstatus, hmethod, horder]

/-- A payment by balance whose eleventh call to the outside, the publish, fails (after the
payment lookup, the order lookup, the balance read, the lock, the four calls of the store's
`Withdraw`, the release and the payment update): the whole result. -/
theorem MakePayment_publish_fails_balance (w : World) (userID orderID : Int) (p : Payment)
    (order : Order) (b : Float64) (rest : List Bool)
    (hfaults : w.faults = false :: false :: false :: false :: false :: false :: false ::
      false :: false :: false :: true :: rest)
    (hfind : findPayment w.payments orderID = some p)
    (hstatus : p.PaymentStatus ≠ "completed") (hmethod : p.PaymentMethod = "balance")
    (horder : findOrder w.orders orderID userID = some order)
    (hbal : selectBalance w.balances (toUint64 userID) = some b)
    (hle : order.TotalPrice ≤ b) (hlock : lockKey (toUint64 userID) ∉ w.locks) :
    PaymentService.MakePayment userID orderID w =
      (GoResult.returned (some Err.infra),
        { w with
          faults := rest,
          balances := updateBalance w.balances (toUint64 userID) (b - order.TotalPrice) w.now,
          payments := updatePayments w.payments orderID (completedPayment orderID) w.now,
          redisLog := w.redisLog ++
            [RedisCall.AcquireLock (lockKey (toUint64 userID)) true,
             RedisCall.ReleaseLock (lockKey (toUint64 userID)) true] }) := by
  have hnlt : ¬ b < order.TotalPrice := Float64.not_lt_of_le _ _ hle
  have hfilter := filter_ne_of_not_mem _ _ hlock
  obtain ⟨now, faults, locks, balances, balanceSeq, carts, cartItems, products, orders,
    orderSeq, orderItems, orderItemSeq, payments, paymentSeq, queue, redisLog,
    cartSeq, cartItemSeq⟩ := w
  simp only at hfaults hfind horder hbal hlock hfilter
  subst hfaults
  simp [PaymentService.MakePayment, PaymentRepository.FindByUserIDandOrderID,
    OrderRepository.FindOne, PaymentService.MakePayment.balanceLeg,
    BalanceRepository.GetBalance, BalanceService.Withdraw, BalanceRepository.Withdraw,
    Redis.AcquireLock, Redis.ReleaseLock, PaymentRepository.Update, RabbitMq.Publish,
    World.fails, World.next, hfind, hstatus, hmethod, horder, hbal, hnlt, hlock]
  simpa using hfilter

/-- C21: when every call of `MakePayment` up to and including the payment update succeeds
and the publish fails, `MakePayment` returns the publish error, nothing is appended to the
queue, and the payment found for the order is stored as `completed`.  For a payment by
another method the balances are untouched; for a payment by balance (balance `b` covering
the total `T`, lock free) the debit stays: the balance is `b - T`. -/
theorem MakePayment_publish_failure (w : World) (userID orderID : Int) (p : Payment)
    (order : Order) (rest : List Bool)
    (hfind : findPayment w.payments orderID = some p)
    (hstatus : p.PaymentStatus ≠ "completed")
    (horder : findOrder w.orders orderID userID = some order) :
    (p.PaymentMethod ≠ "balance" →
      w.faults = false :: false :: false :: true :: rest →
      (PaymentService.MakePayment userID orderID w).1 = GoResult.returned (some Err.infra) ∧
      paymentStatus (PaymentService.MakePayment userID orderID w).2.payments orderID
        = some "completed" ∧
      (PaymentService.MakePayment userID orderID w).2.balances = w.balances ∧
      (PaymentService.MakePayment userID orderID w).2.queue = w.queue) ∧
    (∀ b : Float64, p.PaymentMethod = "balance" →
      selectBalance w.balances (toUint64 userID) = some b → order.TotalPrice ≤ b →
      lockKey (toUint64 userID) ∉ w.locks →
      w.faults = false :: false :: false :: false :: false :: false :: false :: false ::
        false :: false :: true :: rest →
      (PaymentService.MakePayment userID orderID w).1 = GoResult.returned (some Err.infra) ∧
      paymentStatus (PaymentService.MakePayment userID orderID w).2.payments orderID
        = some "completed" ∧
      selectBalance (PaymentService.MakePayment userID orderID w).2.balances (toUint64 userID)
        = some (b - order.TotalPrice) ∧
      (PaymentService.MakePayment userID orderID w).2.queue = w.queue) := by
  constructor
  · intro hmethod hfaults
    rw [MakePayment_publish_fails_other w userID orderID p order rest hfaults hfind hstatus
      hmethod horder]
    exact ⟨rfl, paymentStatus_completed _ _ p _ hfind, rfl, rfl⟩
  · intro b hmethod hbal hle hlock hfaults
    rw [MakePayment_publish_fails_balance w userID orderID p order b rest hfaults hfind hstatus
      hmethod horder hbal hle hlock]
    exact ⟨rfl, paymentStatus_completed _ _ p _ hfind,
      selectBalance_updateBalance_same _ _ _ _ _ hbal, rfl⟩

/-- Witness of C21: in `publishFailsWorld` (balance 200, order 1 of user 1 for 50, pending
payment by balance, the publish failing), `MakePayment 1 1` returns the error, the payment is
`completed`, the balance is `200 - 50` and the queue is still empty. -/
theorem MakePayment_publish_failure_witness :
    (PaymentService.MakePayment 1 1 publishFailsWorld).1 = GoResult.returned (some Err.infra) ∧
    paymentStatus (PaymentService.MakePayment 1 1 publishFailsWorld).2.payments 1
      = some "completed" ∧
    selectBalance (PaymentService.MakePayment 1 1 publishFailsWorld).2.balances (toUint64 1)
      = some (200 - 50) ∧
    (PaymentService.MakePayment 1 1 publishFailsWorld).2.queue = publishFailsWorld.queue :=
  (MakePayment_publish_failure publishFailsWorld 1 1
    { ID := 1, OrderID := 1, PaymentMethod := "balance", PaymentStatus := "pending",
      CreatedAt := 0, UpdatedAt := 0, ExpiredAt := tenMinutes }
    { ID := 1, UserID := 1, TotalPrice := 50, Status := "pending", CreatedAt := 0 } []
    (by decide) (by decide) (by decide)).2 200 rfl paymentWorld_select (by decide)
    (paymentWorld_locks _) rfl

/-- `MakePayment` for an order the user does not own changes nothing but the fault script. -/
theorem MakePayment_foreign_data (w : World) (userID orderID : Int)
    (hforeign : findOrder w.orders orderID userID = none) :
    (PaymentService.MakePayment userID orderID w).2.data = w.data := by
  simp only [PaymentService.MakePayment, PaymentRepository.FindByUserIDandOrderID,
    OrderRepository.FindOne]
  by_cases hf : w.fails = true
  · simp [hf]
  · simp only [hf, Bool.false_eq_true, if_false]
    cases hp : findPayment w.next.payments orderID with
    | none => simp
    | some p =>
      simp only
      split_ifs with hc hf2
      · simp
      · simp
      · have : findOrder w.next.next.orders orderID userID = none := hforeign
        simp [this]

theorem findOrder_eq_none (rows : List Order) (orderID userID : Int)
    (h : ∀ o ∈ rows, o.ID = orderID → o.UserID ≠ userID) :
    findOrder rows orderID userID = none := by
  unfold findOrder
  rw [List.find?_eq_none]
  intro o ho
  have := h o ho
  simp only [Bool.and_eq_true, decide_eq_true_eq, not_and]
  exact this

/-- `MakePayment` for an order the user does not own (every order with that id has another
owner) changes no balance, no payment and no queue on any path, whatever fails; without
infrastructure failure, when the order has a payment, it returns `nil` if that payment is
`completed` and `ErrDataNotFound` otherwise. -/
theorem MakePayment_foreign_order (w : World) (userID orderID : Int)
    (hforeign : ∀ o ∈ w.orders, o.ID = orderID → o.UserID ≠ userID) :
    (PaymentService.MakePayment userID orderID w).2.balances = w.balances ∧
    (PaymentService.MakePayment userID orderID w).2.payments = w.payments ∧
    (PaymentService.MakePayment userID orderID w).2.queue = w.queue ∧
    (PaymentService.MakePayment userID orderID w).2.locks = w.locks ∧
    (∀ p, w.faults = [] → findPayment w.payments orderID = some p →
      (p.PaymentStatus = "completed" →
        (PaymentService.MakePayment userID orderID w).1 = GoResult.returned none) ∧
      (p.PaymentStatus ≠ "completed" →
        (PaymentService.MakePayment userID orderID w).1
          = GoResult.returned (some Err.ErrDataNotFound))) := by
  have hnone := findOrder_eq_none w.orders orderID userID hforeign
  have hdata := World.tables_of_data_eq w _ (MakePayment_foreign_data w userID orderID hnone)
  refine ⟨hdata.2.2.2.2.2.2.1, hdata.2.2.1, hdata.2.2.2.2.2.2.2.2.1, hdata.2.2.2.2.2.2.2.1, ?_⟩
  intro p hfaults hfind
  have hf := World.fails_of_faults_nil w hfaults
  have hn := World.next_of_faults_nil w hfaults
  constructor
  · intro hc
    simp [PaymentService.MakePayment, PaymentRepository.FindByUserIDandOrderID, hf, hn, hfind,
      hc]
  · intro hc
    simp [PaymentService.MakePayment, PaymentRepository.FindByUserIDandOrderID,
      OrderRepository.FindOne, hf, hn, hfind, hc, hnone]

/-- C30 (evaluation of the code): in `cartWorld`, a `Checkout` of user 1 whose payment insert
fails returns an error and leaves order 1, owned by user 1, stored without any payment.
`MakePayment 2 1`, by user 2, who does not own the order, then reads
`existPayment.PaymentStatus` through the nil pointer returned by the payment store and
panics: it returns neither the not-found error nor success.  Nothing is written before the
panic: balances, payments, queue and locks are unchanged. -/
theorem MakePayment_foreign_order_panics :
    (CheckoutService.Checkout 1 "transfer"
      { cartWorld with
        faults := [false, false, false, false, false, false, false, false, false, false, false,
                   true] }).1 = GoResult.returned (Except.error Err.infra) ∧
    unpaidOrderWorld.orders.map (fun o => (o.ID, o.UserID, o.Status)) = [(1, 1, "pending")] ∧
    unpaidOrderWorld.payments = [] ∧
    unpaidOrderWorld.faults = [] ∧
    (PaymentService.MakePayment 2 1 unpaidOrderWorld).1 = GoResult.panic ∧
    (PaymentService.MakePayment 2 1 unpaidOrderWorld).1
      ≠ GoResult.returned (some Err.ErrDataNotFound) ∧
    (PaymentService.MakePayment 2 1 unpaidOrderWorld).2.balances = unpaidOrderWorld.balances ∧
    (PaymentService.MakePayment 2 1 unpaidOrderWorld).2.payments = unpaidOrderWorld.payments ∧
    (PaymentService.MakePayment 2 1 unpaidOrderWorld).2.queue = unpaidOrderWorld.queue ∧
    (PaymentService.MakePayment 2 1 unpaidOrderWorld).2.locks = unpaidOrderWorld.locks := by
  have h : (PaymentService.MakePayment 2 1 unpaidOrderWorld).1 = GoResult.panic := by rfl
  refine ⟨by rfl, by decide, by decide, by decide, h, ?_, by rfl, by rfl, by rfl, by rfl⟩
  rw [h]
  simp


/-! ## Two concurrent withdrawals -/

/-- C27 (counterexample): user 1 holds 100 and two `Withdraw 60` calls run concurrently.  When
the second call tries the lock while the first holds it (schedule: first acquires, second
tries, first stores, first releases), both calls have returned: the first with `nil`, the
second with the lock-busy error, which is not `ErrInsufficientBalance`. -/
theorem concurrent_withdraw_loses_on_lock :
    (WithdrawRace.run 1 60 60 [false, true, false, false]
        { first := WithdrawPhase.start, second := WithdrawPhase.start, world := raceWorld }).first
      = WithdrawPhase.returned none ∧
    (WithdrawRace.run 1 60 60 [false, true, false, false]
        { first := WithdrawPhase.start, second := WithdrawPhase.start, world := raceWorld }).second
      = WithdrawPhase.returned
          (some (Err.errorsNew "another transaction is in progress, try again later")) ∧
    Err.errorsNew "another transaction is in progress, try again later"
      ≠ Err.ErrInsufficientBalance := by
  refine ⟨by decide, by decide, by decide⟩

/-- A `Withdraw` call that makes its three steps without the other call in between is
`BalanceService.Withdraw`. -/
theorem WithdrawPhase.steps_eq_Withdraw (u : Nat) (a : Float64) (w : World) :
    WithdrawPhase.step u a
        (WithdrawPhase.step u a (WithdrawPhase.step u a WithdrawPhase.start w).1
          (WithdrawPhase.step u a WithdrawPhase.start w).2).1
        (WithdrawPhase.step u a (WithdrawPhase.step u a WithdrawPhase.start w).1
          (WithdrawPhase.step u a WithdrawPhase.start w).2).2
      = (WithdrawPhase.returned (BalanceService.Withdraw u a w).1,
          (BalanceService.Withdraw u a w).2) := by
  rcases h : Redis.AcquireLock (lockKey u) w with ⟨⟨acquired, err⟩, w1⟩
  cases err with
  | some err => simp [WithdrawPhase.step, BalanceService.Withdraw, h]
  | none =>
    cases acquired with
    | false => simp [WithdrawPhase.step, BalanceService.Withdraw, h]
    | true => simp [WithdrawPhase.step, BalanceService.Withdraw, h]

/-- One step of one call keeps the world in relation with the flags of its view. -/
theorem WithdrawPhase.phase_step_view (u : Nat) (p : WithdrawPhase) (w : World)
    (held debited : Bool) (h : RaceRel u w held debited) :
    (WithdrawPhase.step u 60 p w).1 = (viewPhaseStep p held debited).1 ∧
    RaceRel u (WithdrawPhase.step u 60 p w).2 (viewPhaseStep p held debited).2.1
      (viewPhaseStep p held debited).2.2 := by
  obtain ⟨hfaults, hheld, hbal⟩ := h
  have hf := World.fails_of_faults_nil w hfaults
  have hn := World.next_of_faults_nil w hfaults
  cases p with
  | start =>
    cases held with
    | true =>
      have hmem : lockKey u ∈ w.locks := hheld.mpr rfl
      simp [WithdrawPhase.step, viewPhaseStep, Redis.AcquireLock, hf, hn, hmem, RaceRel,
        hfaults, hbal, lockBusy]
    | false =>
      have hmem : lockKey u ∉ w.locks := fun hm => by simpa using hheld.mp hm
      simp [WithdrawPhase.step, viewPhaseStep, Redis.AcquireLock, hf, hn, hmem, RaceRel,
        hfaults, hbal]
  | locked =>
    cases debited with
    | true =>
      have hlt : (40 : Float64) < 60 := by decide
      simp only [if_true] at hbal
      simp [WithdrawPhase.step, viewPhaseStep, BalanceRepository.Withdraw, hf, hn, hbal, hlt,
        RaceRel, hfaults, hheld]
    | false =>
      have hlt : ¬ (100 : Float64) < 60 := by decide
      simp only [Bool.false_eq_true, if_false] at hbal
      have hnew := selectBalance_updateBalance_same w.balances u (100 - 60) 100 w.now hbal
      have h40 : (100 : Float64) - 60 = 40 := by decide
      rw [h40] at hnew
      simp [WithdrawPhase.step, viewPhaseStep, BalanceRepository.Withdraw, hf, hn, hbal, hlt,
        RaceRel, hfaults, hheld, h40, hnew]
  | stored err =>
    by_cases hmem : lockKey u ∈ w.locks
    · simp [WithdrawPhase.step, viewPhaseStep, Redis.ReleaseLock, hf, hn, hmem, RaceRel,
        hfaults, hbal, List.mem_filter]
    · simp [WithdrawPhase.step, viewPhaseStep, Redis.ReleaseLock, hf, hn, hmem, RaceRel,
        hfaults, hbal]
  | returned err =>
    exact ⟨rfl, hfaults, hheld, hbal⟩

/-- One step of the race keeps it in relation with its view. -/
theorem WithdrawRace.race_step_view (u : Nat) (pick : Bool) (c : WithdrawRace)
    (v : WithdrawPhase × WithdrawPhase × Bool × Bool)
    (h1 : c.first = v.1) (h2 : c.second = v.2.1) (hw : RaceRel u c.world v.2.2.1 v.2.2.2) :
    (c.step u 60 60 pick).first = (viewStep pick v).1 ∧
    (c.step u 60 60 pick).second = (viewStep pick v).2.1 ∧
    RaceRel u (c.step u 60 60 pick).world (viewStep pick v).2.2.1 (viewStep pick v).2.2.2 := by
  cases pick with
  | true =>
    have h := WithdrawPhase.phase_step_view u c.second c.world _ _ hw
    rw [h2] at h
    simp only [WithdrawRace.step, viewStep, if_true]
    rw [h2]
    exact ⟨h1, h.1, h.2⟩
  | false =>
    have h := WithdrawPhase.phase_step_view u c.first c.world _ _ hw
    rw [h1] at h
    simp only [WithdrawRace.step, viewStep, Bool.false_eq_true, if_false]
    rw [h1]
    exact ⟨h.1, h2, h.2⟩

/-- A schedule keeps the race in relation with its view. -/
theorem WithdrawRace.run_view (u : Nat) (schedule : List Bool) :
    ∀ (c : WithdrawRace) (v : WithdrawPhase × WithdrawPhase × Bool × Bool),
      c.first = v.1 → c.second = v.2.1 → RaceRel u c.world v.2.2.1 v.2.2.2 →
      (WithdrawRace.run u 60 60 schedule c).first = (viewRun schedule v).1 ∧
      (WithdrawRace.run u 60 60 schedule c).second = (viewRun schedule v).2.1 ∧
      RaceRel u (WithdrawRace.run u 60 60 schedule c).world (viewRun schedule v).2.2.1
        (viewRun schedule v).2.2.2 := by
  induction schedule with
  | nil => intro c v h1 h2 hw; exact ⟨h1, h2, hw⟩
  | cons pick schedule ih =>
    intro c v h1 h2 hw
    obtain ⟨g1, g2, gw⟩ := WithdrawRace.race_step_view u pick c v h1 h2 hw
    exact ih _ _ g1 g2 gw

theorem raceViews_closed :
    ∀ v ∈ raceViews, ∀ pick : Bool, viewStep pick v ∈ raceViews := by
  decide

theorem viewRun_mem (schedule : List Bool) :
    ∀ v ∈ raceViews, viewRun schedule v ∈ raceViews := by
  induction schedule with
  | nil => intro v hv; exact hv
  | cons pick schedule ih =>
    intro v hv
    exact ih _ (raceViews_closed v hv pick)

theorem raceViews_finished :
    ∀ v ∈ raceViews, (∃ e, v.1 = WithdrawPhase.returned e) →
      (∃ e, v.2.1 = WithdrawPhase.returned e) →
      v.2.2.2 = true ∧
      ((v.1 = WithdrawPhase.returned none ∧
          (v.2.1 = WithdrawPhase.returned (some Err.ErrInsufficientBalance) ∨
            v.2.1 = WithdrawPhase.returned (some lockBusy))) ∨
        (v.2.1 = WithdrawPhase.returned none ∧
          (v.1 = WithdrawPhase.returned (some Err.ErrInsufficientBalance) ∨
            v.1 = WithdrawPhase.returned (some lockBusy)))) := by
  intro v hv h1 h2
  simp only [raceViews, List.mem_cons, List.mem_singleton, List.not_mem_nil, or_false] at hv
  obtain ⟨e1, h1⟩ := h1
  obtain ⟨e2, h2⟩ := h2
  rcases hv with rfl | rfl | rfl | rfl | rfl | rfl | rfl | rfl | rfl | rfl | rfl | rfl | rfl |
    rfl | rfl | rfl | rfl | rfl | rfl <;> simp at h1 h2 ⊢

/-- C27 (as amended): for a user with balance 100, a free lock and no infrastructure failure,
two concurrent calls `Withdraw 60` end, under every interleaving of their lock, store and
release steps after which both have returned, with exactly one call returning `nil`, the
other failing, and a final balance of 40.  The other call fails with
`ErrInsufficientBalance` or with the lock-busy error: with `ErrInsufficientBalance` when it
runs after the first has released the lock, with the lock-busy error when it tries the lock
while the first holds it.  The three steps of a call, made without the other call in
between, are `BalanceService.Withdraw`. -/
theorem concurrent_withdraws_one_winner (w : World) (u : Nat) (schedule : List Bool)
    (hfaults : w.faults = []) (hfree : lockKey u ∉ w.locks)
    (hbal : selectBalance w.balances u = some 100)
    (hdone : (WithdrawRace.run u 60 60 schedule
      { first := WithdrawPhase.start, second := WithdrawPhase.start, world := w }).finished) :
    (WithdrawRace.run u 60 60 schedule
      { first := WithdrawPhase.start, second := WithdrawPhase.start, world := w }).oneWinner u 40 ∧
    (WithdrawRace.run u 60 60 [false, false, false, true, true, true]
      { first := WithdrawPhase.start, second := WithdrawPhase.start, world := w }).second
      = WithdrawPhase.returned (some Err.ErrInsufficientBalance) ∧
    (WithdrawRace.run u 60 60 [false, true, false, false]
      { first := WithdrawPhase.start, second := WithdrawPhase.start, world := w }).second
      = WithdrawPhase.returned (some lockBusy) ∧
    (∀ (amount : Float64) (w2 : World),
      WithdrawPhase.step u amount
          (WithdrawPhase.step u amount (WithdrawPhase.step u amount WithdrawPhase.start w2).1
            (WithdrawPhase.step u amount WithdrawPhase.start w2).2).1
          (WithdrawPhase.step u amount (WithdrawPhase.step u amount WithdrawPhase.start w2).1
            (WithdrawPhase.step u amount WithdrawPhase.start w2).2).2
        = (WithdrawPhase.returned (BalanceService.Withdraw u amount w2).1,
            (BalanceService.Withdraw u amount w2).2)) := by
  have hrel : RaceRel u w false false := by
    refine ⟨hfaults, ?_, hbal⟩
    simp [hfree]
  have hview := fun s => WithdrawRace.run_view u s
    { first := WithdrawPhase.start, second := WithdrawPhase.start, world := w }
    (WithdrawPhase.start, WithdrawPhase.start, false, false) rfl rfl hrel
  refine ⟨?_, ?_, ?_, fun amount w2 => WithdrawPhase.steps_eq_Withdraw u amount w2⟩
  · obtain ⟨g1, g2, gw⟩ := hview schedule
    have hmem := viewRun_mem schedule (WithdrawPhase.start, WithdrawPhase.start, false, false)
      (by decide)
    obtain ⟨d1, d2⟩ := hdone
    rw [g1] at d1
    rw [g2] at d2
    obtain ⟨hdeb, hout⟩ := raceViews_finished _ hmem d1 d2
    obtain ⟨_, _, gbal⟩ := gw
    rw [hdeb] at gbal
    refine ⟨by simpa using gbal, ?_⟩
    rw [g1, g2]
    exact hout
  · rw [(hview _).2.1]
    decide
  · rw [(hview _).2.1]
    decide

/-- Witness of C27 as amended: in `raceWorld`, with the schedule in which the second call
takes the lock, the first tries it, and the second stores and releases, the second call wins
and the balance ends at 40. -/
theorem concurrent_withdraws_one_winner_witness :
    (WithdrawRace.run 1 60 60 [true, false, true, true]
      { first := WithdrawPhase.start, second := WithdrawPhase.start,
        world := raceWorld }).oneWinner 1 40 :=
  (concurrent_withdraws_one_winner raceWorld 1 [true, false, true, true] rfl (by decide)
    (by decide)
    ⟨⟨some lockBusy, by decide⟩, ⟨none, by decide⟩⟩).1

/-! ## Rounding of stored amounts -/

set_option maxRecDepth 100000 in
/-- C1 (counterexample): in `decimalWorld` user 1 holds 100.1 (the `float64`
`3521955646092083 * 2^-45`).  `Withdraw` of 0.3 (the `float64` `5404319552844595 * 2^-54`)
returns `nil` and stores `7022800668930867 * 2^-46`, the `float64` printed as 99.8, which is not
the difference of the balance and the amount: that difference is not a `float64`. -/
theorem Withdraw_stores_rounded_difference :
    selectBalance decimalWorld.balances 1 = some (Float64.finite 3521955646092083 (-45)) ∧
    Float64.ofDecimal false 3 (-1) = Float64.finite 5404319552844595 (-54) ∧
    (BalanceService.Withdraw 1 (Float64.ofDecimal false 3 (-1)) decimalWorld).1 = none ∧
    selectBalance
        (BalanceService.Withdraw 1 (Float64.ofDecimal false 3 (-1)) decimalWorld).2.balances 1
      = some (Float64.finite 7022800668930867 (-46)) ∧
    (Float64.finite 7022800668930867 (-46)).toRat
      ≠ (Float64.finite 3521955646092083 (-45)).toRat
        - (Float64.finite 5404319552844595 (-54)).toRat := by
  refine ⟨by decide, by decide, by decide, by decide, ?_⟩
  simp only [Float64.toRat]
  norm_num

set_option maxRecDepth 100000 in
/-- C2 (counterexample): in `decimalWorld` user 2 holds 0.1 (the `float64`
`3602879701896397 * 2^-55`).  `Deposit` of 0.2 (the `float64` `3602879701896397 * 2^-54`)
returns and stores `1351079888211149 * 2^-52`, the `float64` printed as
0.30000000000000004, which is not the sum of the balance and the amount. -/
theorem Deposit_stores_rounded_sum :
    selectBalance decimalWorld.balances 2 = some (Float64.finite 3602879701896397 (-55)) ∧
    Float64.ofDecimal false 2 (-1) = Float64.finite 3602879701896397 (-54) ∧
    (BalanceService.Deposit 2 (Float64.ofDecimal false 2 (-1)) decimalWorld).1
      = Except.ok { Balance := Float64.finite 1351079888211149 (-52) } ∧
    selectBalance
        (BalanceService.Deposit 2 (Float64.ofDecimal false 2 (-1)) decimalWorld).2.balances 2
      = some (Float64.finite 1351079888211149 (-52)) ∧
    (Float64.finite 1351079888211149 (-52)).toRat
      ≠ (Float64.finite 3602879701896397 (-55)).toRat
        + (Float64.finite 3602879701896397 (-54)).toRat := by
  refine ⟨by decide, by decide, by rfl, by decide, ?_⟩
  simp only [Float64.toRat]
  norm_num

set_option maxRecDepth 100000 in
/-- C3 (counterexample): in `decimalWorld` user 3 holds 1 and user 4 holds 1e9 (the `float64`
`1953125 * 2^9`).  `Transfer 3 4` of 1e-8 (the `float64` `3022314549036573 * 2^-78`, with
`0 < a ≤ 1`) succeeds, but it returns and stores 1e9 for the receiver, which is not
`br + a`, and `9007199164668999 * 2^-53` for the sender, which is not `bs - a`. -/
theorem Transfer_stores_rounded_amounts :
    selectBalance decimalWorld.balances 3 = some (Float64.finite 1 0) ∧
    selectBalance decimalWorld.balances 4 = some (Float64.finite 1953125 9) ∧
    Float64.ofDecimal false 1 (-8) = Float64.finite 3022314549036573 (-78) ∧
    (BalanceService.Transfer 3 4 (Float64.ofDecimal false 1 (-8)) decimalWorld).1
      = Except.ok { From := { UserID := 3, Balance := Float64.finite 9007199164668999 (-53) },
                    To := { UserID := 4, Balance := Float64.finite 1953125 9 } } ∧
    selectBalance
        (BalanceService.Transfer 3 4 (Float64.ofDecimal false 1 (-8)) decimalWorld).2.balances 3
      = some (Float64.finite 9007199164668999 (-53)) ∧
    selectBalance
        (BalanceService.Transfer 3 4 (Float64.ofDecimal false 1 (-8)) decimalWorld).2.balances 4
      = some (Float64.finite 1953125 9) ∧
    (Float64.finite 1953125 9).toRat
      ≠ (Float64.finite 1953125 9).toRat + (Float64.finite 3022314549036573 (-78)).toRat ∧
    (Float64.finite 9007199164668999 (-53)).toRat
      ≠ (Float64.finite 1 0).toRat - (Float64.finite 3022314549036573 (-78)).toRat := by
  refine ⟨by decide, by decide, by decide, by rfl, by decide, by decide, ?_, ?_⟩
  · simp only [Float64.toRat]
    norm_num
  · simp only [Float64.toRat]
    norm_num

set_option maxRecDepth 100000 in
/-- C4 (counterexample): in `decimalWorld` (user 3 holds 1, user 4 holds 1e9) the call
`Transfer 3 4` of 1e-8 returns success and changes exactly one of the two balances: the
sender's stored balance is no longer 1, the receiver's is still 1e9. -/
theorem Transfer_changes_one_balance :
    (∃ resp, (BalanceService.Transfer 3 4 (Float64.ofDecimal false 1 (-8)) decimalWorld).1
      = Except.ok resp) ∧
    selectBalance
        (BalanceService.Transfer 3 4 (Float64.ofDecimal false 1 (-8)) decimalWorld).2.balances 3
      ≠ selectBalance decimalWorld.balances 3 ∧
    selectBalance
        (BalanceService.Transfer 3 4 (Float64.ofDecimal false 1 (-8)) decimalWorld).2.balances 4
      = selectBalance decimalWorld.balances 4 := by
  refine ⟨⟨{ From := { UserID := 3, Balance := Float64.finite 9007199164668999 (-53) },
             To := { UserID := 4, Balance := Float64.finite 1953125 9 } }, by rfl⟩,
    by decide, by decide⟩

set_option maxRecDepth 100000 in
/-- C7 (counterexample): in `decimalPaymentWorld` user 1 holds 10 and pays an order of total
0.1 (the `float64` `3602879701896397 * 2^-55`) by balance.  `MakePayment` returns `nil` and the
balance becomes `5573204538870989 * 2^-49`, the `float64` printed as 9.9, which is not
`b - T`. -/
theorem MakePayment_stores_rounded_balance :
    (PaymentService.MakePayment 1 1 decimalPaymentWorld).1 = GoResult.returned none ∧
    selectBalance decimalPaymentWorld.balances (toUint64 1) = some (Float64.finite 5 1) ∧
    Float64.ofDecimal false 1 (-1) = Float64.finite 3602879701896397 (-55) ∧
    selectBalance (PaymentService.MakePayment 1 1 decimalPaymentWorld).2.balances (toUint64 1)
      = some (Float64.finite 5573204538870989 (-49)) ∧
    (Float64.finite 5573204538870989 (-49)).toRat
      ≠ (Float64.finite 5 1).toRat - (Float64.finite 3602879701896397 (-55)).toRat := by
  refine ⟨by decide, by decide, by decide, by decide, ?_⟩
  simp only [Float64.toRat]
  norm_num

end Ecommerce
